import Mathlib

/-!
# Heimdall verification bot: embedding and properties

A shallow embedding of the Go sources (`bot.go`, `database.go`, `webserver.go`,
`config.go`) of the Heimdall Discord verification bot.

* Go `string` values are Lean `String`s; rune-level library functions work on
  the list of code points.
* The SQLite table `users` is a list of rows together with the AUTOINCREMENT
  counter; SQL statements are functions on that state.
* Calls to Discord, SMTP, the clock and the random source are answered by an
  explicit record of external results, and every call made is logged as an effect.
-/

namespace Heimdall

/-! ## Go `strings` helpers -/

/-- Go `strings.Split(s, sep)` for a one-rune separator: the pieces between
occurrences of `sep`; the empty text yields one empty piece. -/
def splitRunes (sep : Char) : List Char → List (List Char)
  | [] => [[]]
  | c :: cs =>
    if c = sep then [] :: splitRunes sep cs
    else
      match splitRunes sep cs with
      | [] => [[c]]
      | p :: ps => (c :: p) :: ps

/-- Go `strings.Split(s, "@")`. -/
def splitOnAt (s : String) : List String :=
  (splitRunes '@' s.data).map String.mk

/-- Go `strings.ToLower`: every rune is mapped through `unicode.ToLower`.
The Unicode case table belongs to the Go runtime, so it is the parameter `lower`. -/
def ToLower (lower : Char → Char) (s : String) : String :=
  String.mk (s.data.map lower)

/-- Go `unicode.IsSpace`: the Unicode White_Space property. -/
def IsSpace (c : Char) : Bool :=
  let n := c.toNat
  (9 ≤ n && n ≤ 13) || n = 32 || n = 0x85 || n = 0xA0 || n = 0x1680 ||
  (0x2000 ≤ n && n ≤ 0x200a) || n = 0x2028 || n = 0x2029 || n = 0x202f ||
  n = 0x205f || n = 0x3000

/-- Go `strings.TrimSpace`: drop leading and trailing white space. -/
def TrimSpace (s : String) : String :=
  String.mk (((s.data.dropWhile IsSpace).reverse.dropWhile IsSpace).reverse)

/-- The ASCII restriction of `unicode.ToLower`, used to run examples. -/
def asciiLower (c : Char) : Char :=
  if 65 ≤ c.toNat ∧ c.toNat ≤ 90 then Char.ofNat (c.toNat + 32) else c

/-! ## Regular expressions (Go `regexp`, the fragment used by `isValidEmail`) -/

/-- Regular expressions over runes with character classes. -/
inductive RE where
  | void : RE
  | eps : RE
  | cls : (Char → Bool) → RE
  | alt : RE → RE → RE
  | seq : RE → RE → RE
  | star : RE → RE

namespace RE

/-- The literal rune `c`. -/
def chr (c : Char) : RE := cls (fun x => x == c)

/-- One or more repetitions: `r+`. -/
def plus (r : RE) : RE := seq r (star r)

/-- Two or more repetitions: `r{2,}`. -/
def atLeastTwo (r : RE) : RE := seq r (seq r (star r))

/-- The language of a regular expression. -/
inductive Matches : RE → List Char → Prop where
  | eps : Matches eps []
  | cls {p : Char → Bool} {c : Char} : p c = true → Matches (cls p) [c]
  | altL {r q : RE} {s : List Char} : Matches r s → Matches (alt r q) s
  | altR {r q : RE} {s : List Char} : Matches q s → Matches (alt r q) s
  | seq {r q : RE} {s t : List Char} : Matches r s → Matches q t → Matches (seq r q) (s ++ t)
  | starNil {r : RE} : Matches (star r) []
  | starCons {r : RE} {s t : List Char} :
      Matches r s → Matches (star r) t → Matches (star r) (s ++ t)

/-- Does `r` accept the empty text. -/
def nullable : RE → Bool
  | void => false
  | eps => true
  | cls _ => false
  | alt r q => nullable r || nullable q
  | seq r q => nullable r && nullable q
  | star _ => true

/-- Brzozowski derivative of `r` by the rune `c`. -/
def deriv (c : Char) : RE → RE
  | void => void
  | eps => void
  | cls p => if p c then eps else void
  | alt r q => alt (deriv c r) (deriv c q)
  | seq r q =>
    if nullable r then alt (seq (deriv c r) q) (deriv c q) else seq (deriv c r) q
  | star r => seq (deriv c r) (star r)

/-- Anchored match (`^r$`) of a whole text, by repeated derivation. -/
def rmatch : RE → List Char → Bool
  | r, [] => nullable r
  | r, c :: cs => rmatch (deriv c r) cs

end RE

/-! ## Domain policy (`bot.go`) -/

/-- Rune in the inclusive range `lo-hi` of a character class. -/
def inRange (lo hi c : Char) : Bool := lo.toNat ≤ c.toNat && c.toNat ≤ hi.toNat

/-- Class `[a-zA-Z]`. -/
def alphaClass (c : Char) : Bool := inRange 'a' 'z' c || inRange 'A' 'Z' c

/-- Class `[a-zA-Z0-9._%+\-]`. -/
def localClass (c : Char) : Bool :=
  inRange 'a' 'z' c || inRange 'A' 'Z' c || inRange '0' '9' c ||
  c == '.' || c == '_' || c == '%' || c == '+' || c == '-'

/-- Class `[a-zA-Z0-9.\-]`. -/
def domainClass (c : Char) : Bool :=
  inRange 'a' 'z' c || inRange 'A' 'Z' c || inRange '0' '9' c || c == '.' || c == '-'

/-- The pattern `^[a-zA-Z0-9._%+\-]+@[a-zA-Z0-9.\-]+\.[a-zA-Z]{2,}$`. -/
def emailRegex : RE :=
  RE.seq (RE.plus (RE.cls localClass))
    (RE.seq (RE.chr '@')
      (RE.seq (RE.plus (RE.cls domainClass))
        (RE.seq (RE.chr '.') (RE.atLeastTwo (RE.cls alphaClass)))))

/-- Go `isValidEmail`: `emailRegex.MatchString(email)`. -/
def isValidEmail (email : String) : Bool :=
  RE.rmatch emailRegex email.data

/-- Go `Bot.isApprovedDomain`, with `approved` standing for `b.config.ApprovedDomains`. -/
def isApprovedDomain (lower : Char → Char) (approved : List String) (email : String) : Bool :=
  match splitOnAt email with
  | [_, domainPart] =>
    let domain := ToLower lower domainPart
    approved.any (fun approvedDomain => ToLower lower approvedDomain == domain)
  | _ => false

/-- Spec reading of "the substring after the last `sep`": `none` when `sep` does not occur. -/
def afterLast (sep : Char) : List Char → Option (List Char)
  | [] => none
  | c :: cs =>
    match afterLast sep cs with
    | some r => some r
    | none => if c = sep then some cs else none

/-- Reference definition of domain approval in the spec's words: the lower-cased
substring after the last `@` equals one of the configured domains, lower-cased. -/
def approvedAfterLastAt (lower : Char → Char) (approved : List String) (email : String) : Bool :=
  match afterLast '@' email.data with
  | some d => approved.any (fun a => ToLower lower a == ToLower lower (String.mk d))
  | none => false

/-! ## Configuration (`config.go`) -/

/-- The `discord` section of `Config`. -/
structure DiscordConfig where
  Token : String := ""
  GuildID : String := ""
  AdminRole : String := ""
  MembersRole : String := ""
  WelcomeMessage : String := ""

/-- The `server` section of `Config`. -/
structure ServerConfig where
  Port : Nat := 0
  BaseURL : String := ""
  LogLevel : String := ""

/-- The `features` section of `Config`. -/
structure FeaturesConfig where
  EnableTeamSelection : Bool := false

/-- Go `Config` (the SMTP section plays no part in the state machine).
`Teams` is the map team name -> role ID, as an association list. -/
structure Config where
  Discord : DiscordConfig := {}
  Server : ServerConfig := {}
  Features : FeaturesConfig := {}
  ApprovedDomains : List String := []
  Teams : List (String × String) := []

/-- Go map index `b.config.Teams[team]` with the comma-ok form. -/
def Config.team (cfg : Config) (team : String) : Option String :=
  cfg.Teams.lookup team

/-! ## Identity store (`database.go`) -/

/-- One row of table `users`, column by column. `team_role` and `verified_at`
are the nullable columns. Timestamps are abstract clock readings. -/
structure Row where
  id : Nat
  discord_id : String
  discord_username : String
  email : String
  verification_code : String
  team_role : Option String
  verified : Bool
  unverified : Bool
  created_at : Nat
  verified_at : Option Nat
deriving DecidableEq, Repr

/-- Go `User`. -/
structure User where
  ID : Nat
  DiscordID : String
  DiscordUsername : String
  Email : String
  VerificationCode : String
  TeamRole : String
  Verified : Bool
  Unverified : Bool
  CreatedAt : Nat
  VerifiedAt : Option Nat
deriving DecidableEq, Repr

/-- The table `users` and the AUTOINCREMENT counter of its `id` column. -/
structure Database where
  rows : List Row
  seq : Nat
deriving DecidableEq, Repr

/-- Errors of the store: `sql.ErrNoRows` and a UNIQUE constraint violation.
Driver and I/O faults are outside the model. -/
inductive DBError where
  | ErrNoRows
  | constraint
deriving DecidableEq, Repr

/-- The store right after `createTables` on a fresh file. -/
def Database.empty : Database := { rows := [], seq := 0 }

/-- The `Scan` of the ten-column SELECT used by `GetUserByDiscordID`,
`GetUserByEmail`, `GetUserByUsername` and `GetAllUsers`. -/
def scanUser (r : Row) : User :=
  { ID := r.id, DiscordID := r.discord_id, DiscordUsername := r.discord_username,
    Email := r.email, VerificationCode := r.verification_code,
    TeamRole := r.team_role.getD "", Verified := r.verified, Unverified := r.unverified,
    CreatedAt := r.created_at, VerifiedAt := r.verified_at }

/-- The `Scan` of `GetUserByVerificationCode`: its SELECT has no `unverified`
column, so `User.Unverified` keeps the zero value. -/
def scanUserByCode (r : Row) : User :=
  { ID := r.id, DiscordID := r.discord_id, DiscordUsername := r.discord_username,
    Email := r.email, VerificationCode := r.verification_code,
    TeamRole := r.team_role.getD "", Verified := r.verified, Unverified := false,
    CreatedAt := r.created_at, VerifiedAt := r.verified_at }

/-- INSERT of `CreateUser`: rejected when a UNIQUE column (`discord_id`, `email`,
`verification_code`) would repeat; otherwise appends a row with the column defaults. -/
def Database.CreateUser (d : Database) (discordID username email verificationCode : String)
    (now : Nat) : Database × Option DBError :=
  if d.rows.any (fun r => r.discord_id == discordID || r.email == email ||
      r.verification_code == verificationCode) then
    (d, some DBError.constraint)
  else
    ({ rows := d.rows ++ [{ id := d.seq + 1, discord_id := discordID,
                            discord_username := username, email := email,
                            verification_code := verificationCode, team_role := none,
                            verified := false, unverified := false,
                            created_at := now, verified_at := none }],
       seq := d.seq + 1 }, none)

/-- Go `GetUserByDiscordID`. -/
def Database.GetUserByDiscordID (d : Database) (discordID : String) : Except DBError User :=
  match d.rows.find? (fun r => r.discord_id == discordID) with
  | some r => .ok (scanUser r)
  | none => .error DBError.ErrNoRows

/-- Go `GetUserByEmail`. -/
def Database.GetUserByEmail (d : Database) (email : String) : Except DBError User :=
  match d.rows.find? (fun r => r.email == email) with
  | some r => .ok (scanUser r)
  | none => .error DBError.ErrNoRows

/-- Go `GetUserByVerificationCode`. -/
def Database.GetUserByVerificationCode (d : Database) (code : String) : Except DBError User :=
  match d.rows.find? (fun r => r.verification_code == code) with
  | some r => .ok (scanUserByCode r)
  | none => .error DBError.ErrNoRows

/-- The UPDATE statements: apply `f` to every row `WHERE discord_id = ?`.
An UPDATE that matches no row is not an error. -/
def Database.update (d : Database) (discordID : String) (f : Row → Row) : Database :=
  { d with rows := d.rows.map (fun r => if r.discord_id == discordID then f r else r) }

/-- Go `UpdateUserTeam`. -/
def Database.UpdateUserTeam (d : Database) (discordID teamRole : String) (now : Nat) :
    Database × Option DBError :=
  (d.update discordID (fun r =>
    { r with team_role := some teamRole, verified := true, verified_at := some now }), none)

/-- Go `MarkUserVerified`. -/
def Database.MarkUserVerified (d : Database) (discordID : String) (now : Nat) :
    Database × Option DBError :=
  (d.update discordID (fun r => { r with verified := true, verified_at := some now }), none)

/-- Go `UnverifyUser`. -/
def Database.UnverifyUser (d : Database) (discordID : String) : Database × Option DBError :=
  (d.update discordID (fun r => { r with verified := false, unverified := true }), none)

/-- Go `ReverifyUser`. -/
def Database.ReverifyUser (d : Database) (discordID : String) (now : Nat) :
    Database × Option DBError :=
  (d.update discordID (fun r =>
    { r with verified := true, unverified := false, verified_at := some now }), none)

/-- Go `DeleteUser`. -/
def Database.DeleteUser (d : Database) (discordID : String) : Database × Option DBError :=
  ({ d with rows := d.rows.filter (fun r => !(r.discord_id == discordID)) }, none)

/-- Go `GetStats`: `COUNT(*)`, rows with `verified = TRUE`, rows with `verified = FALSE`. -/
def Database.GetStats (d : Database) : Nat × Nat × Nat :=
  (d.rows.length, (d.rows.filter (fun r => r.verified)).length,
    (d.rows.filter (fun r => !r.verified)).length)

/-- Go `DiscordIDExists`. -/
def Database.DiscordIDExists (d : Database) (discordID : String) : Bool :=
  d.rows.any (fun r => r.discord_id == discordID)

/-- Go `EmailExists`. -/
def Database.EmailExists (d : Database) (email : String) : Bool :=
  d.rows.any (fun r => r.email == email)

/-- The three lifecycle states of a record. -/
inductive State where
  | Pending
  | Verified
  | Restricted
deriving DecidableEq, Repr

/-- The state shown for a record, as `handleList` derives it from the two flags:
`verified` wins, then `unverified`, otherwise pending. -/
def Row.state (r : Row) : State :=
  if r.verified then State.Verified
  else if r.unverified then State.Restricted
  else State.Pending

/-! ## The outside world: Discord, SMTP, clock, randomness -/

/-- Go `discordgo.User`, the fields the handlers read. -/
structure DiscordUser where
  ID : String
  Username : String
  Discriminator : String := "0"
  Bot : Bool := false
deriving DecidableEq, Repr

/-- Go `discordgo.Member`. -/
structure Member where
  User : DiscordUser
  GuildID : String := ""
  Roles : List String := []
deriving DecidableEq, Repr

/-- Go `discordgo.MessageCreate`. -/
structure MessageCreate where
  Author : DiscordUser
  ChannelID : String
  Content : String
deriving DecidableEq, Repr

/-- One slash-command option with its two accessors `UserValue(s)` and `StringValue()`. -/
structure CommandOption where
  Name : String
  UserValue : DiscordUser := { ID := "", Username := "" }
  StringValue : String := ""
deriving DecidableEq, Repr

/-- Go `discordgo.InteractionCreate`: type, invoking member and command data. -/
structure InteractionCreate where
  InteractionType : Nat
  Member : Member
  Name : String
  Options : List CommandOption
deriving DecidableEq, Repr

/-- The request body of `POST /api/verify` after JSON decoding. -/
structure VerifyRequest where
  Code : String
  Team : String
deriving DecidableEq, Repr

/-- An HTTP request: method, `r.URL.Query().Get("code")`, and the outcome of
decoding the body into `VerifyRequest` (`none` when `Decode` fails). -/
structure Request where
  Method : String
  QueryCode : String := ""
  Body : Option VerifyRequest := none
deriving DecidableEq, Repr

/-- What a handler writes to the `http.ResponseWriter`. -/
inductive ResponseBody where
  | text (message : String)
  | json (fields : List (String × String))
  | verificationPage (discordUsername email : String) (teams : List (String × String))
  | alreadyVerifiedPage (teamRole : String)
deriving DecidableEq, Repr

/-- Status code and body of an HTTP answer. -/
structure Response where
  status : Nat
  body : ResponseBody
deriving DecidableEq, Repr

/-- Go `http.Error(w, message, code)`. -/
def httpError (message : String) (code : Nat) : Response :=
  { status := code, body := ResponseBody.text message }

/-- Results of the calls that leave the process, fixed for one handler run:
the clock (`CURRENT_TIMESTAMP`), `rand.Read`, and the Discord and SMTP calls whose
result the handlers branch on. -/
structure Ext where
  now : Nat := 0
  /-- Bytes produced by `rand.Read`, `none` when it fails. -/
  randRead : Option (List Nat) := some []
  /-- Type of the channel returned by `s.Channel(id)`, `none` on error. -/
  Channel : String → Option Nat := fun _ => some 1
  /-- ID of the DM channel returned by `s.UserChannelCreate(id)`, `none` on error. -/
  UserChannelCreate : String → Option String := fun u => some u
  /-- Result of `State.UserChannelPermissions(userID, guildID)`, `none` on error. -/
  UserChannelPermissions : String → String → Option Nat := fun _ _ => none
  /-- Whether `GuildMemberRoleAdd(guild, user, role)` returns a nil error. -/
  GuildMemberRoleAdd : String → String → String → Bool := fun _ _ _ => true
  /-- Whether `SendVerificationEmail(to, code, username)` returns a nil error. -/
  SendVerificationEmail : String → String → String → Bool := fun _ _ _ => true

/-- Every call a handler makes to the outside, in program order. -/
inductive Effect where
  | GuildMemberRoleAdd (guildID userID roleID : String)
  | GuildMemberRoleRemove (guildID userID roleID : String)
  | ChannelMessageSend (channelID content : String)
  | SendDM (userID message : String)
  | SendVerificationEmail (toEmail verificationCode username : String)
  | respondEphemeral (message : String)
  | respondEmbed (title description : String) (fields : List (String × String))
  | goPanic
deriving DecidableEq, Repr

/-- Go `discordgo.ChannelTypeDM`. -/
def ChannelTypeDM : Nat := 1

/-- Go `discordgo.InteractionApplicationCommand`. -/
def InteractionApplicationCommand : Nat := 2

/-- Go `discordgo.PermissionAdministrator`. -/
def PermissionAdministrator : Nat := 0x8

/-- The display name built at the top of the handlers: `Username`, with
`#Discriminator` appended unless the discriminator is `"0"`. -/
def displayName (u : DiscordUser) : String :=
  if u.Discriminator ≠ "0" then u.Username ++ "#" ++ u.Discriminator else u.Username

/-- Go `err == nil && p(user)` on the result of a lookup. -/
def foundAnd (r : Except DBError User) (p : User → Bool) : Bool :=
  match r with
  | .ok u => p u
  | .error _ => false

/-- Lower-case hexadecimal digit. -/
def hexDigit (n : Nat) : Char :=
  "0123456789abcdef".data.getD n '0'

/-- Go `hex.EncodeToString`. -/
def hexEncode (bytes : List Nat) : String :=
  String.mk (bytes.flatMap (fun b => [hexDigit (b % 256 / 16), hexDigit (b % 16)]))

/-- Go `generateVerificationCode`: 32 random bytes, hex encoded (64 digits);
`none` when `rand.Read` fails. -/
def generateVerificationCode (ext : Ext) : Option String :=
  match ext.randRead with
  | none => none
  | some bytes => some (hexEncode ((List.range 32).map (fun i => bytes.getD i 0)))

/-- Go `Bot.AssignRole`: the call it makes. -/
def AssignRole (cfg : Config) (userID roleID : String) : Effect :=
  Effect.GuildMemberRoleAdd cfg.Discord.GuildID userID roleID

/-- Whether `Bot.AssignRole` returns a nil error. -/
def assignRoleOk (cfg : Config) (ext : Ext) (userID roleID : String) : Bool :=
  ext.GuildMemberRoleAdd cfg.Discord.GuildID userID roleID

/-- Go `Bot.isAdmin`. -/
def isAdmin (cfg : Config) (ext : Ext) (member : Member) : Bool :=
  if cfg.Discord.AdminRole = "" then false
  else if member.Roles.any (fun roleID => roleID == cfg.Discord.AdminRole) then true
  else
    match ext.UserChannelPermissions member.User.ID member.GuildID with
    | some perms => perms &&& PermissionAdministrator != 0
    | none => false

/-- Go `Bot.getTeamNames`. -/
def getTeamNames (cfg : Config) : String :=
  String.intercalate ", " (cfg.Teams.map (fun t => "`" ++ t.1 ++ "`"))

/-- The two role removals shared by reset, restrict and purge: the team role when the
recorded team is in the mapping, then the members role when one is configured. -/
def removeRoles (cfg : Config) (userID teamRole : String) : List Effect :=
  (match cfg.team teamRole with
   | some roleID => [Effect.GuildMemberRoleRemove cfg.Discord.GuildID userID roleID]
   | none => []) ++
  (if cfg.Discord.MembersRole ≠ "" then
     [Effect.GuildMemberRoleRemove cfg.Discord.GuildID userID cfg.Discord.MembersRole]
   else [])

/-- The members-role grant made when one is configured. -/
def assignMembersRole (cfg : Config) (userID : String) : List Effect :=
  if cfg.Discord.MembersRole ≠ "" then [AssignRole cfg userID cfg.Discord.MembersRole] else []

/-- The reply of every moderator command to a non-admin. -/
def permissionDenied : Effect :=
  Effect.respondEphemeral "❌ You don't have permission to use this command."

/-! ## Chat event handlers (`bot.go`) -/

/-- The welcome DM at the end of `onGuildMemberAdd`: open the DM channel, then send the
configured welcome message or the built-in default. -/
def sendWelcome (cfg : Config) (ext : Ext) (userID : String) : List Effect :=
  match ext.UserChannelCreate userID with
  | none => []
  | some channelID =>
    [Effect.ChannelMessageSend channelID
      (if cfg.Discord.WelcomeMessage = "" then
        "👋 Welcome to the server!\n\nTo gain access, you need to verify your work email address.\n\nPlease reply to this message with your work email address (e.g., yourname@company.com).\n\nYour email must be from one of our approved company domains."
       else cfg.Discord.WelcomeMessage)]

/-- Go `Bot.onGuildMemberAdd`. -/
def onGuildMemberAdd (cfg : Config) (ext : Ext) (d : Database) (m : DiscordUser) :
    Database × List Effect :=
  match d.GetUserByDiscordID m.ID with
  | .ok user =>
    if user.Verified then
      (d, assignMembersRole cfg m.ID ++
        (match cfg.team user.TeamRole with
         | some roleID => [AssignRole cfg m.ID roleID]
         | none => []))
    else (d, sendWelcome cfg ext m.ID)
  | .error _ => (d, sendWelcome cfg ext m.ID)

/-- Go `Bot.onMessageCreate`. -/
def onMessageCreate (lower : Char → Char) (cfg : Config) (ext : Ext) (d : Database)
    (m : MessageCreate) : Database × List Effect :=
  if m.Author.Bot then (d, [])
  else if ext.Channel m.ChannelID ≠ some ChannelTypeDM then (d, [])
  else
    let username := displayName m.Author
    let found := d.GetUserByDiscordID m.Author.ID
    if foundAnd found (fun user => user.Verified) then
      (d, [Effect.ChannelMessageSend m.ChannelID "✅ You're already verified!"])
    else if foundAnd found (fun user => user.Unverified) then
      (d, [Effect.ChannelMessageSend m.ChannelID "⚠️ Your access has been temporarily restricted. Please contact a moderator to reactivate your account. You cannot use the automatic verification system."])
    else
      let email := TrimSpace (ToLower lower m.Content)
      if !isValidEmail email then
        (d, [Effect.ChannelMessageSend m.ChannelID "❌ That doesn't look like a valid email address. Please try again."])
      else if !isApprovedDomain lower cfg.ApprovedDomains email then
        (d, [Effect.ChannelMessageSend m.ChannelID
          ("❌ Sorry, the domain for " ++ email ++ " is not approved. Please use your work email from an approved company domain.")])
      else if d.EmailExists email then
        (d, [Effect.ChannelMessageSend m.ChannelID "❌ This email address is already registered. Each email can only be used once."])
      else if d.DiscordIDExists m.Author.ID then
        (d, [Effect.ChannelMessageSend m.ChannelID "❌ You've already started the verification process. Please check your email for the verification link."])
      else
        match generateVerificationCode ext with
        | none =>
          (d, [Effect.ChannelMessageSend m.ChannelID "❌ An error occurred. Please try again later."])
        | some verificationCode =>
          match d.CreateUser m.Author.ID username email verificationCode ext.now with
          | (d1, some _) =>
            (d1, [Effect.ChannelMessageSend m.ChannelID "❌ An error occurred. Please try again later."])
          | (d1, none) =>
            if !ext.SendVerificationEmail email verificationCode m.Author.Username then
              (d1, [Effect.SendVerificationEmail email verificationCode m.Author.Username,
                Effect.ChannelMessageSend m.ChannelID "❌ Failed to send verification email. Please contact an administrator."])
            else
              (d1, [Effect.SendVerificationEmail email verificationCode m.Author.Username,
                Effect.ChannelMessageSend m.ChannelID
                  ("✅ Verification email sent to **" ++ email ++ "**!\n\nPlease check your inbox and click the verification link." ++
                    (if cfg.Features.EnableTeamSelection then
                      " You'll be asked to select your team, and then you'll have full access to the server."
                     else " Once you verify, you'll have full access to the server."))])

/-! ## Web handlers (`webserver.go`) -/

/-- Go `WebServer.handleVerify` (`GET /verify`). -/
def handleVerify (cfg : Config) (d : Database) (r : Request) :
    Database × Response × List Effect :=
  let code := r.QueryCode
  if code = "" then (d, httpError "Verification code is required" 400, [])
  else
    match d.GetUserByVerificationCode code with
    | .error _ => (d, httpError "Invalid or expired verification code" 404, [])
    | .ok user =>
      if user.Verified then
        (d, { status := 200, body := ResponseBody.alreadyVerifiedPage user.TeamRole }, [])
      else
        (d, { status := 200,
              body := ResponseBody.verificationPage user.DiscordUsername user.Email cfg.Teams }, [])

/-- Go `WebServer.handleAPIVerify` (`POST /api/verify`). -/
def handleAPIVerify (cfg : Config) (ext : Ext) (d : Database) (r : Request) :
    Database × Response × List Effect :=
  if r.Method ≠ "POST" then (d, httpError "Method not allowed" 405, [])
  else
    match r.Body with
    | none => (d, httpError "Invalid request" 400, [])
    | some req =>
      if req.Code = "" ∨ req.Team = "" then
        (d, httpError "Code and team are required" 400, [])
      else
        match d.GetUserByVerificationCode req.Code with
        | .error _ => (d, httpError "Invalid verification code" 404, [])
        | .ok user =>
          if user.Verified then (d, httpError "User already verified" 400, [])
          else
            match cfg.team req.Team with
            | none => (d, httpError "Invalid team selection" 400, [])
            | some roleID =>
              match d.UpdateUserTeam user.DiscordID req.Team ext.now with
              | (d1, some _) => (d1, httpError "Failed to verify user" 500, [])
              | (d1, none) =>
                (d1,
                 { status := 200,
                   body := ResponseBody.json
                     [("message", "Verification complete!"), ("status", "success")] },
                 assignMembersRole cfg user.DiscordID ++
                 [AssignRole cfg user.DiscordID roleID,
                  Effect.SendDM user.DiscordID
                    ("✅ Verification complete! Welcome to the " ++ req.Team ++
                      " team. You now have access to the server.")])

/-! ## Moderator commands (`bot.go`) -/

/-- Go `GetAllUsers`: every row, `ORDER BY created_at DESC` (rows with equal
timestamps keep their table order). -/
def Database.GetAllUsers (d : Database) : List User :=
  (d.rows.map scanUser).insertionSort (fun a b => a.CreatedAt ≥ b.CreatedAt)

/-- Go `Bot.handleStats`. -/
def handleStats (cfg : Config) (ext : Ext) (d : Database) (i : InteractionCreate) :
    Database × List Effect :=
  if !isAdmin cfg ext i.Member then (d, [permissionDenied])
  else
    match d.GetStats with
    | (total, verified, pending) =>
      (d, [Effect.respondEmbed "📊 Heimdall Statistics" ""
        [("Total Users", toString total), ("Verified", toString verified),
         ("Pending", toString pending)]])

/-- The status line of one user in `handleList`. -/
def listStatus (user : User) : String :=
  if user.Verified then "✅ Verified (" ++ user.TeamRole ++ ")"
  else if user.Unverified then "⚠️ Unverified (was " ++ user.TeamRole ++ ")"
  else "⏳ Pending"

/-- Go `Bot.handleList`. -/
def handleList (cfg : Config) (ext : Ext) (d : Database) (i : InteractionCreate) :
    Database × List Effect :=
  if !isAdmin cfg ext i.Member then (d, [permissionDenied])
  else
    let users := d.GetAllUsers
    if users.length = 0 then (d, [Effect.respondEphemeral "No users in the database yet."])
    else
      (d, [Effect.respondEmbed "👥 User List"
        (String.join (users.map (fun user =>
          "**" ++ user.DiscordUsername ++ "**\n└ " ++ user.Email ++ "\n└ " ++
            listStatus user ++ "\n\n"))) []])

/-- Go `Bot.handleReset`. -/
def handleReset (cfg : Config) (ext : Ext) (d : Database) (i : InteractionCreate) :
    Database × List Effect :=
  if !isAdmin cfg ext i.Member then (d, [permissionDenied])
  else
    match i.Options[0]? with
    | none => (d, [Effect.goPanic])
    | some opt0 =>
      let userOption := opt0.UserValue
      match d.GetUserByDiscordID userOption.ID with
      | .error DBError.ErrNoRows =>
        (d, [Effect.respondEphemeral "❌ User not found in the database."])
      | .error _ => (d, [Effect.respondEphemeral "❌ Error retrieving user information."])
      | .ok user =>
        let removals := if user.Verified then removeRoles cfg userOption.ID user.TeamRole else []
        match d.DeleteUser userOption.ID with
        | (d1, some _) => (d1, removals ++ [Effect.respondEphemeral "❌ Error resetting user."])
        | (d1, none) =>
          (d1, removals ++
            [Effect.respondEphemeral ("✅ Reset verification for <@" ++ userOption.ID ++
               ">. They can now start the verification process again."),
             Effect.SendDM userOption.ID "Your verification has been reset by an administrator. Please send me your work email address to start the verification process again."])

/-- Go `Bot.handleDomains`. -/
def handleDomains (cfg : Config) (ext : Ext) (d : Database) (i : InteractionCreate) :
    Database × List Effect :=
  if !isAdmin cfg ext i.Member then (d, [permissionDenied])
  else
    (d, [Effect.respondEmbed "📧 Approved Email Domains"
      (String.join (cfg.ApprovedDomains.map (fun domain => "• " ++ domain ++ "\n"))) []])

/-- Go `Bot.handleManualVerify`. -/
def handleManualVerify (lower : Char → Char) (cfg : Config) (ext : Ext) (d : Database)
    (i : InteractionCreate) : Database × List Effect :=
  if !isAdmin cfg ext i.Member then (d, [permissionDenied])
  else
    match i.Options[0]?, i.Options[1]? with
    | some opt0, some opt1 =>
      let userOption := opt0.UserValue
      let email := TrimSpace (ToLower lower opt1.StringValue)
      match (if cfg.Features.EnableTeamSelection then (i.Options[2]?).map (fun o => o.StringValue)
             else some "") with
      | none => (d, [Effect.goPanic])
      | some team =>
        if !isValidEmail email then (d, [Effect.respondEphemeral "❌ Invalid email format."])
        else if !isApprovedDomain lower cfg.ApprovedDomains email then
          (d, [Effect.respondEphemeral "❌ Domain not approved. Email must be from an approved domain."])
        else if cfg.Features.EnableTeamSelection ∧ cfg.team team = none then
          (d, [Effect.respondEphemeral ("❌ Team '" ++ team ++
            "' not found.\n\n**Available teams:** " ++ getTeamNames cfg)])
        else
          let roleID := if cfg.Features.EnableTeamSelection then (cfg.team team).getD "" else ""
          let existingUser := d.GetUserByDiscordID userOption.ID
          if foundAnd existingUser (fun u => u.Verified) then
            (d, [Effect.respondEphemeral
              (if cfg.Features.EnableTeamSelection then
                "❌ <@" ++ userOption.ID ++ "> is already verified. Use `/heimdall-changeteam` to change their team."
               else "❌ <@" ++ userOption.ID ++ "> is already verified.")])
          else if d.EmailExists email then
            (d, [Effect.respondEphemeral "❌ This email address is already registered to another user."])
          else
            match generateVerificationCode ext with
            | none => (d, [Effect.respondEphemeral "❌ Error generating verification code."])
            | some verificationCode =>
              let username := displayName userOption
              let d0 := match existingUser with
                | .ok _ => (d.DeleteUser userOption.ID).1
                | .error _ => d
              match d0.CreateUser userOption.ID username email verificationCode ext.now with
              | (d1, some _) => (d1, [Effect.respondEphemeral "❌ Error creating user in database."])
              | (d1, none) =>
                match (if cfg.Features.EnableTeamSelection then
                         d1.UpdateUserTeam userOption.ID team ext.now
                       else d1.MarkUserVerified userOption.ID ext.now) with
                | (d2, some _) =>
                  (d2, [Effect.respondEphemeral "❌ Error updating user verification."])
                | (d2, none) =>
                  if cfg.Features.EnableTeamSelection then
                    if !assignRoleOk cfg ext userOption.ID roleID then
                      (d2, assignMembersRole cfg userOption.ID ++
                        [AssignRole cfg userOption.ID roleID,
                         Effect.respondEphemeral "⚠️ User verified in database but failed to assign Discord role. Please assign manually."])
                    else
                      (d2, assignMembersRole cfg userOption.ID ++
                        [AssignRole cfg userOption.ID roleID,
                         Effect.respondEphemeral ("✅ Successfully verified <@" ++ userOption.ID ++
                           "> with email `" ++ email ++ "` and assigned to **" ++ team ++ "** team."),
                         Effect.SendDM userOption.ID ("✅ You have been manually verified by a moderator! Welcome to the **" ++
                           team ++ "** team. You now have access to the server.")])
                  else
                    (d2, assignMembersRole cfg userOption.ID ++
                      [Effect.respondEphemeral ("✅ Successfully verified <@" ++ userOption.ID ++
                         "> with email `" ++ email ++ "`."),
                       Effect.SendDM userOption.ID "✅ You have been manually verified by a moderator! You now have access to the server."])
    | _, _ => (d, [Effect.goPanic])

/-- Go `Bot.handleChangeTeam`. -/
def handleChangeTeam (cfg : Config) (ext : Ext) (d : Database) (i : InteractionCreate) :
    Database × List Effect :=
  if !isAdmin cfg ext i.Member then (d, [permissionDenied])
  else
    match i.Options[0]?, i.Options[1]? with
    | some opt0, some opt1 =>
      let userOption := opt0.UserValue
      let newTeam := opt1.StringValue
      match cfg.team newTeam with
      | none =>
        (d, [Effect.respondEphemeral ("❌ Team '" ++ newTeam ++
          "' not found.\n\n**Available teams:** " ++ getTeamNames cfg)])
      | some newRoleID =>
        match d.GetUserByDiscordID userOption.ID with
        | .error DBError.ErrNoRows =>
          (d, [Effect.respondEphemeral ("❌ <@" ++ userOption.ID ++
            "> is not verified. Use `/heimdall-verify` to verify them first.")])
        | .error _ => (d, [Effect.respondEphemeral "❌ Database error occurred."])
        | .ok user =>
          if !user.Verified then
            (d, [Effect.respondEphemeral ("❌ <@" ++ userOption.ID ++
              "> is not verified yet. Use `/heimdall-verify` to verify them first.")])
          else
            let oldTeam := user.TeamRole
            if oldTeam = newTeam then
              (d, [Effect.respondEphemeral ("❌ <@" ++ userOption.ID ++ "> is already on the **" ++
                newTeam ++ "** team.")])
            else
              let removal := match cfg.team oldTeam with
                | some oldRoleID =>
                  [Effect.GuildMemberRoleRemove cfg.Discord.GuildID userOption.ID oldRoleID]
                | none => []
              if !assignRoleOk cfg ext userOption.ID newRoleID then
                (d, removal ++ [AssignRole cfg userOption.ID newRoleID,
                  Effect.respondEphemeral "⚠️ Failed to assign new Discord role. Please assign manually."])
              else
                match d.UpdateUserTeam userOption.ID newTeam ext.now with
                | (d1, some _) =>
                  (d1, removal ++ [AssignRole cfg userOption.ID newRoleID,
                    Effect.respondEphemeral "⚠️ Role changed in Discord but database update failed."])
                | (d1, none) =>
                  (d1, removal ++ [AssignRole cfg userOption.ID newRoleID,
                    Effect.respondEphemeral ("✅ Changed <@" ++ userOption.ID ++ "> from **" ++
                      oldTeam ++ "** to **" ++ newTeam ++ "** team."),
                    Effect.SendDM userOption.ID ("📝 Your team has been changed from **" ++
                      oldTeam ++ "** to **" ++ newTeam ++ "** by a moderator.")])
    | _, _ => (d, [Effect.goPanic])

/-- Go `Bot.handleRestrict`. -/
def handleRestrict (cfg : Config) (ext : Ext) (d : Database) (i : InteractionCreate) :
    Database × List Effect :=
  if !isAdmin cfg ext i.Member then (d, [permissionDenied])
  else
    match i.Options[0]? with
    | none => (d, [Effect.goPanic])
    | some opt0 =>
      let userOption := opt0.UserValue
      let reason := match i.Options[1]? with
        | some opt1 => opt1.StringValue
        | none => ""
      match d.GetUserByDiscordID userOption.ID with
      | .error DBError.ErrNoRows =>
        (d, [Effect.respondEphemeral ("❌ <@" ++ userOption.ID ++ "> is not in the system.")])
      | .error _ => (d, [Effect.respondEphemeral "❌ Database error occurred."])
      | .ok user =>
        if !user.Verified then
          (d, [Effect.respondEphemeral ("❌ <@" ++ userOption.ID ++ "> is not verified.")])
        else if user.Unverified then
          (d, [Effect.respondEphemeral ("❌ <@" ++ userOption.ID ++ "> is already restricted.")])
        else
          let removals := removeRoles cfg userOption.ID user.TeamRole
          match d.UnverifyUser userOption.ID with
          | (d1, some _) => (d1, removals ++ [Effect.respondEphemeral "❌ Failed to update database."])
          | (d1, none) =>
            (d1, removals ++
              [Effect.respondEphemeral
                (if reason ≠ "" then
                  "✅ Restricted <@" ++ userOption.ID ++ ">.\n**Reason:** " ++ reason ++
                    "\n\nUser has been notified and their roles removed. Use `/heimdall-unrestrict` to restore access."
                 else
                  "✅ Restricted <@" ++ userOption.ID ++
                    ">.\n\nUser has been notified and their roles removed. Use `/heimdall-unrestrict` to restore access."),
               Effect.SendDM userOption.ID
                ("⚠️ Your server access has been temporarily restricted by a moderator." ++
                  (if reason ≠ "" then "\n**Reason:** " ++ reason else "") ++
                  "\n\nYou cannot use the automatic verification system. Please contact a moderator to restore your account.")])

/-- Go `Bot.handleUnrestrict`. -/
def handleUnrestrict (cfg : Config) (ext : Ext) (d : Database) (i : InteractionCreate) :
    Database × List Effect :=
  if !isAdmin cfg ext i.Member then (d, [permissionDenied])
  else
    match i.Options[0]? with
    | none => (d, [Effect.goPanic])
    | some opt0 =>
      let userOption := opt0.UserValue
      match d.GetUserByDiscordID userOption.ID with
      | .error DBError.ErrNoRows =>
        (d, [Effect.respondEphemeral ("❌ <@" ++ userOption.ID ++ "> is not in the system.")])
      | .error _ => (d, [Effect.respondEphemeral "❌ Database error occurred."])
      | .ok user =>
        if !user.Unverified then
          (d, [Effect.respondEphemeral ("❌ <@" ++ userOption.ID ++
            "> is not restricted. Use `/heimdall-verify` for new users or `/heimdall-changeteam` to change teams.")])
        else
          let grants := assignMembersRole cfg userOption.ID ++
            (match cfg.team user.TeamRole with
             | some roleID => [AssignRole cfg userOption.ID roleID]
             | none => [])
          if (match cfg.team user.TeamRole with
              | some roleID => !assignRoleOk cfg ext userOption.ID roleID
              | none => false) then
            (d, grants ++ [Effect.respondEphemeral "⚠️ Failed to assign Discord roles. Please assign manually."])
          else
            match d.ReverifyUser userOption.ID ext.now with
            | (d1, some _) => (d1, grants ++ [Effect.respondEphemeral "❌ Failed to update database."])
            | (d1, none) =>
              (d1, grants ++
                [Effect.respondEphemeral ("✅ Removed restrictions from <@" ++ userOption.ID ++
                   "> on the **" ++ user.TeamRole ++ "** team. Their access has been restored."),
                 Effect.SendDM userOption.ID ("✅ Your server access has been restored by a moderator! Welcome back to the **" ++
                   user.TeamRole ++ "** team.")])

/-- The option loop of `handlePurge`: the first option named `user` or `email` decides the
lookup; the result carries the lookup, `identifierType` and `identifier`. -/
def purgeLookup (d : Database) :
    List CommandOption → Option (Except DBError User × String × String)
  | [] => none
  | opt :: rest =>
    if opt.Name = "user" then
      some (d.GetUserByDiscordID opt.UserValue.ID, "Discord user", opt.UserValue.Username)
    else if opt.Name = "email" then
      some (d.GetUserByEmail opt.StringValue, "email", opt.StringValue)
    else purgeLookup d rest

/-- Go `Bot.handlePurge`. -/
def handlePurge (cfg : Config) (ext : Ext) (d : Database) (i : InteractionCreate) :
    Database × List Effect :=
  if !isAdmin cfg ext i.Member then (d, [permissionDenied])
  else if i.Options.length = 0 then
    (d, [Effect.respondEphemeral "❌ Please provide either a user or an email address."])
  else
    match purgeLookup d i.Options with
    | none => (d, [Effect.goPanic])
    | some (.error DBError.ErrNoRows, identifierType, identifier) =>
      (d, [Effect.respondEphemeral ("❌ No user found with " ++ identifierType ++ ": `" ++
        identifier ++ "`")])
    | some (.error _, _, _) => (d, [Effect.respondEphemeral "❌ Error retrieving user information."])
    | some (.ok user, _, _) =>
      let discordID := user.DiscordID
      let removals := if user.Verified then removeRoles cfg discordID user.TeamRole else []
      match d.DeleteUser discordID with
      | (d1, some _) => (d1, removals ++ [Effect.respondEphemeral "❌ Error deleting user data."])
      | (d1, none) =>
        (d1, removals ++
          [Effect.respondEphemeral ("✅ User data purged successfully.\n\n**User:** " ++
             user.DiscordUsername ++ "\n**Email:** " ++ user.Email ++ "\n**Discord ID:** " ++
             discordID ++ "\n\nAll user data has been permanently removed from the database."),
           Effect.SendDM discordID "Your data has been permanently deleted from our system as per GDPR compliance. If you wish to rejoin in the future, you will need to complete the verification process again."])

/-- Go `Bot.handleHelp`. -/
def handleHelp (cfg : Config) (ext : Ext) (d : Database) (i : InteractionCreate) :
    Database × List Effect :=
  (d, [Effect.respondEmbed "🛡️ Heimdall Bot Help"
    "Heimdall is your server's gatekeeper, managing user verification through work email authentication."
    ([("🆕 New Users", "When you join the server, I'll send you a DM. Simply reply with your work email address, and I'll send you a verification link. Click the link, select your team, and you're all set!"),
      ("📧 Email Requirements", "Your email must be from an approved company domain. Each email can only be used once.")] ++
     (if isAdmin cfg ext i.Member then
        [("🔧 Moderator Commands", "`/heimdall-stats` - View verification statistics\n`/heimdall-list` - List all users\n`/heimdall-reset` - Reset a user's verification\n`/heimdall-verify` - Manually verify a user\n`/heimdall-changeteam` - Change a user's team\n`/heimdall-restrict` - Temporarily restrict a user's access\n`/heimdall-unrestrict` - Remove restrictions from a user\n`/heimdall-purge` - Permanently delete user data (GDPR)\n`/heimdall-domains` - View approved domains")]
      else []))])

/-- Go `Bot.onInteractionCreate`: dispatch on the command name. -/
def onInteractionCreate (lower : Char → Char) (cfg : Config) (ext : Ext) (d : Database)
    (i : InteractionCreate) : Database × List Effect :=
  if i.InteractionType ≠ InteractionApplicationCommand then (d, [])
  else if i.Name = "heimdall-stats" then handleStats cfg ext d i
  else if i.Name = "heimdall-list" then handleList cfg ext d i
  else if i.Name = "heimdall-reset" then handleReset cfg ext d i
  else if i.Name = "heimdall-verify" then handleManualVerify lower cfg ext d i
  else if i.Name = "heimdall-changeteam" then handleChangeTeam cfg ext d i
  else if i.Name = "heimdall-restrict" then handleRestrict cfg ext d i
  else if i.Name = "heimdall-unrestrict" then handleUnrestrict cfg ext d i
  else if i.Name = "heimdall-domains" then handleDomains cfg ext d i
  else if i.Name = "heimdall-purge" then handlePurge cfg ext d i
  else if i.Name = "heimdall-help" then handleHelp cfg ext d i
  else (d, [])

/-! ## The three entry points as one transition system -/

/-- An input to the running system: a Discord gateway event or an HTTP request. -/
inductive Event where
  | memberAdd (user : DiscordUser)
  | message (m : MessageCreate)
  | interaction (i : InteractionCreate)
  | getVerify (r : Request)
  | postAPIVerify (r : Request)

/-- The store after handling one event. -/
def step (lower : Char → Char) (cfg : Config) (ext : Ext) (d : Database) : Event → Database
  | Event.memberAdd user => (onGuildMemberAdd cfg ext d user).1
  | Event.message m => (onMessageCreate lower cfg ext d m).1
  | Event.interaction i => (onInteractionCreate lower cfg ext d i).1
  | Event.getVerify r => (handleVerify cfg d r).1
  | Event.postAPIVerify r => (handleAPIVerify cfg ext d r).1

/-- Store states reachable from the empty store by handling events one at a time,
each with its own results of the external calls. -/
inductive Reachable (lower : Char → Char) (cfg : Config) : Database → Prop where
  | init : Reachable lower cfg Database.empty
  | step {d : Database} (ext : Ext) (e : Event) :
      Reachable lower cfg d → Reachable lower cfg (step lower cfg ext d e)

/-- The shape accepted by the email pattern: `local@domain.tld`. -/
def EmailShape (s : List Char) : Prop :=
  ∃ l dm t, s = l ++ '@' :: (dm ++ '.' :: t) ∧
    l ≠ [] ∧ (∀ c ∈ l, localClass c = true) ∧
    dm ≠ [] ∧ (∀ c ∈ dm, domainClass c = true) ∧
    2 ≤ t.length ∧ (∀ c ∈ t, alphaClass c = true)

/-! ## Invariants and vocabulary of the properties -/

/-- The three UNIQUE constraints of the schema: no two rows share a `discord_id`, an
`email` or a `verification_code`. -/
def UniqueKeys (d : Database) : Prop :=
  d.rows.Pairwise (fun a b =>
    a.discord_id ≠ b.discord_id ∧ a.email ≠ b.email ∧
      a.verification_code ≠ b.verification_code)

instance (d : Database) : Decidable (UniqueKeys d) := by
  unfold UniqueKeys
  infer_instance

/-- Every stored code has the 64 digits that `generateVerificationCode` produces. -/
def CodesGenerated (d : Database) : Prop :=
  ∀ r ∈ d.rows, r.verification_code.length = 64

instance (d : Database) : Decidable (CodesGenerated d) := by
  unfold CodesGenerated
  infer_instance

/-- A row update that leaves the three UNIQUE columns alone. -/
def KeepsKeys (f : Row → Row) : Prop :=
  ∀ r, (f r).discord_id = r.discord_id ∧ (f r).email = r.email ∧
    (f r).verification_code = r.verification_code

/-- One statement executed against the store by a handler: an INSERT of a generated
code, an UPDATE that keeps the UNIQUE columns, or a DELETE. -/
inductive DBStep : Database → Database → Prop where
  | create (d : Database) (discordID username email code : String) (now : Nat) :
      code.length = 64 → DBStep d (d.CreateUser discordID username email code now).1
  | update (d : Database) (discordID : String) (f : Row → Row) :
      KeepsKeys f → DBStep d (d.update discordID f)
  | delete (d : Database) (discordID : String) : DBStep d (d.DeleteUser discordID).1

/-- The store `d2` results from `d1` by a sequence of statements. -/
def Evolves (d1 d2 : Database) : Prop := Relation.ReflTransGen DBStep d1 d2

/-- A moderator command ran to its last statement, the DM that notifies the member:
this is the success path of reset, restrict, unrestrict and purge. -/
def completed (effects : List Effect) : Bool :=
  effects.any (fun e => match e with
    | Effect.SendDM _ _ => true
    | _ => false)

/-- The record `r` of `d` is gone from `d2` and nothing else changed: the three lookups by
its platform ID, email and code miss, and `d2` holds exactly the other rows of `d`. -/
def Erased (d d2 : Database) (r : Row) : Prop :=
  d2.GetUserByDiscordID r.discord_id = .error DBError.ErrNoRows ∧
  d2.GetUserByEmail r.email = .error DBError.ErrNoRows ∧
  d2.GetUserByVerificationCode r.verification_code = .error DBError.ErrNoRows ∧
  d2.rows = d.rows.filter (fun x => decide (x ≠ r)) ∧ d2.seq = d.seq

/-- The success answer of `POST /api/verify`. -/
def successJSON : Response :=
  { status := 200,
    body := ResponseBody.json [("message", "Verification complete!"), ("status", "success")] }

/-! ## A sample run -/

/-- Sample configuration: one approved domain and two teams. -/
def sampleConfig : Config :=
  { Discord := { AdminRole := "moderators", GuildID := "guild" },
    Features := { EnableTeamSelection := true },
    ApprovedDomains := ["acme.com"],
    Teams := [("red", "role-red"), ("blue", "role-blue")] }

/-- The sample configuration with a team whose name is the empty string. -/
def emptyTeamConfig : Config :=
  { sampleConfig with Teams := [("", "role-x")] }

/-- A member. -/
def alice : DiscordUser := { ID := "1001", Username := "alice" }

/-- A moderator: holds the configured admin role. -/
def moderator : Member :=
  { User := { ID := "1", Username := "mod" }, Roles := ["moderators"] }

/-- The code produced when `rand.Read` yields 32 zero bytes. -/
def sampleCode : String :=
  "0000000000000000000000000000000000000000000000000000000000000000"

/-- The DM in which alice sends her work email. -/
def aliceDM : MessageCreate :=
  { Author := alice, ChannelID := "dm-1001", Content := "alice@acme.com" }

/-- The request `POST /api/verify` with body `code`, `team`. -/
def postVerify (code team : String) : Request :=
  { Method := "POST", Body := some { Code := code, Team := team } }

/-- A moderator command with alice as its `user` option. -/
def onAlice (name : String) : InteractionCreate :=
  { InteractionType := InteractionApplicationCommand, Member := moderator, Name := name,
    Options := [{ Name := "user", UserValue := alice }] }

/-- The purge command with alice's address as its `email` option. -/
def purgeByEmail : InteractionCreate :=
  { InteractionType := InteractionApplicationCommand, Member := moderator,
    Name := "heimdall-purge",
    Options := [{ Name := "email", StringValue := "alice@acme.com" }] }

/-- The row created by alice's DM. -/
def aliceRow : Row :=
  { id := 1, discord_id := "1001", discord_username := "alice", email := "alice@acme.com",
    verification_code := sampleCode, team_role := none, verified := false,
    unverified := false, created_at := 0, verified_at := none }

/-- The store after alice's DM: her record is Pending. -/
def pendingStore : Database := { rows := [aliceRow], seq := 1 }

/-- The store after alice completed the web step with team `red`: Verified. -/
def verifiedStore : Database :=
  { rows := [{ aliceRow with team_role := some "red", verified := true,
                             verified_at := some 0 }], seq := 1 }

/-- The store after a moderator restricted alice: Restricted. -/
def restrictedStore : Database :=
  { rows := [{ aliceRow with team_role := some "red", verified := false, unverified := true,
                             verified_at := some 0 }], seq := 1 }

/-- The store after alice's old code was posted again with team `blue`. -/
def replayedStore : Database :=
  { rows := [{ aliceRow with team_role := some "blue", verified := true, unverified := true,
                             verified_at := some 0 }], seq := 1 }

/-! ## Vocabulary and sample inputs for the DM handler, manual verify, change-team and stats -/

/-- Some call in `effects` is `SendVerificationEmail`: a verification email was issued. -/
def sendsVerificationEmail (effects : List Effect) : Bool :=
  effects.any (fun e => match e with
    | Effect.SendVerificationEmail _ _ _ => true
    | _ => false)

/-- The DM reply to a member whose record is Verified. -/
def alreadyVerifiedReply : String := "✅ You're already verified!"

/-- The DM reply to a member whose record is Restricted. -/
def contactModeratorReply : String :=
  "⚠️ Your access has been temporarily restricted. Please contact a moderator to reactivate your account. You cannot use the automatic verification system."

/-- The DM reply when the submitted email is already stored in some record. -/
def alreadyRegisteredReply : String :=
  "❌ This email address is already registered. Each email can only be used once."

/-- The DM reply when the member already has a record: verification is in progress. -/
def inProgressReply : String :=
  "❌ You've already started the verification process. Please check your email for the verification link."

/-- The email a DM submits: `strings.TrimSpace(strings.ToLower(m.Content))`. -/
def submittedEmail (lower : Char → Char) (m : MessageCreate) : String :=
  TrimSpace (ToLower lower m.Content)

/-- The number of rows in a given state. -/
def countState (d : Database) (s : State) : Nat :=
  (d.rows.filter (fun r => decide (r.state = s))).length

/-- The sample configuration with team selection switched off and no teams configured. -/
def disabledConfig : Config :=
  { sampleConfig with Features := { EnableTeamSelection := false }, Teams := [] }

/-- A DM from alice with an address in a domain that is not approved. -/
def evilDM : MessageCreate :=
  { Author := alice, ChannelID := "dm-1001", Content := "alice@evil.com" }

/-- The command `/heimdall-verify user=alice email=alice@acme.com team=red`. -/
def verifyAlice : InteractionCreate :=
  { InteractionType := InteractionApplicationCommand, Member := moderator,
    Name := "heimdall-verify",
    Options := [{ Name := "user", UserValue := alice },
                { Name := "email", StringValue := "alice@acme.com" },
                { Name := "team", StringValue := "red" }] }

/-- The command `/heimdall-changeteam user=alice team=...`. -/
def changeTeamAlice (team : String) : InteractionCreate :=
  { InteractionType := InteractionApplicationCommand, Member := moderator,
    Name := "heimdall-changeteam",
    Options := [{ Name := "user", UserValue := alice },
                { Name := "team", StringValue := team }] }

/-! ## Vocabulary and sample inputs for permissions, re-join, canonical emails and races -/

/-- The nine commands whose handler starts with the `isAdmin` guard. -/
def guardedCommands : List String :=
  ["heimdall-stats", "heimdall-list", "heimdall-reset", "heimdall-verify",
   "heimdall-changeteam", "heimdall-restrict", "heimdall-unrestrict",
   "heimdall-domains", "heimdall-purge"]

/-- Some call in `effects` grants or revokes a role. -/
def touchesRoles (effects : List Effect) : Bool :=
  effects.any (fun e => match e with
    | Effect.GuildMemberRoleAdd _ _ _ => true
    | Effect.GuildMemberRoleRemove _ _ _ => true
    | _ => false)

/-- Some call in `effects` sends a message to a channel (the welcome prompt is one). -/
def sendsChannelMessage (effects : List Effect) : Bool :=
  effects.any (fun e => match e with
    | Effect.ChannelMessageSend _ _ => true
    | _ => false)

/-- A member without the admin role. -/
def visitor : Member := { User := { ID := "2002", Username := "bob" }, Roles := ["guests"] }

/-- The command `name` invoked by `visitor` on alice. -/
def visitorRuns (name : String) : InteractionCreate :=
  { InteractionType := InteractionApplicationCommand, Member := visitor, Name := name,
    Options := [{ Name := "user", UserValue := alice }] }

/-- The sample configuration with a base members role. -/
def membersConfig : Config :=
  { sampleConfig with
    Discord := { AdminRole := "moderators", GuildID := "guild", MembersRole := "role-members" } }

/-- External results in which every role grant fails. -/
def grantsFail : Ext := { GuildMemberRoleAdd := fun _ _ _ => false }

/-- The canonical form of an email on every path that creates a record:
`strings.TrimSpace(strings.ToLower(raw))`. -/
def canonicalEmail (lower : Char → Char) (raw : String) : String :=
  TrimSpace (ToLower lower raw)

/-- One statement as a handler issues it, together with the guard the handler has checked:
an INSERT of a canonical email and a generated code; a DELETE; `UpdateUserTeam` with a team
of the mapping; `MarkUserVerified` when team selection is off; `UnverifyUser` after a lookup
that found a verified user; `ReverifyUser` after a lookup that found the `unverified` flag. -/
inductive GuardedStep (lower : Char → Char) (cfg : Config) : Database → Database → Prop where
  | create (d : Database) (discordID username raw code : String) (now : Nat) :
      (∃ ext, generateVerificationCode ext = some code) →
      GuardedStep lower cfg d
        (d.CreateUser discordID username (canonicalEmail lower raw) code now).1
  | delete (d : Database) (discordID : String) :
      GuardedStep lower cfg d (d.DeleteUser discordID).1
  | setTeam (d : Database) (discordID team : String) (now : Nat) :
      cfg.team team ≠ none → GuardedStep lower cfg d (d.UpdateUserTeam discordID team now).1
  | markVerified (d : Database) (discordID : String) (now : Nat) :
      cfg.Features.EnableTeamSelection = false →
      GuardedStep lower cfg d (d.MarkUserVerified discordID now).1
  | unverify (d : Database) (discordID : String) (user : User) :
      d.GetUserByDiscordID discordID = .ok user → user.Verified = true →
      GuardedStep lower cfg d (d.UnverifyUser discordID).1
  | reverify (d : Database) (discordID : String) (user : User) (now : Nat) :
      d.GetUserByDiscordID discordID = .ok user → user.Unverified = true →
      GuardedStep lower cfg d (d.ReverifyUser discordID now).1

/-- The store `d2` results from `d1` by a sequence of guarded statements. -/
def Runs (lower : Char → Char) (cfg : Config) (d1 d2 : Database) : Prop :=
  Relation.ReflTransGen (GuardedStep lower cfg) d1 d2

/-- Every stored email is unchanged by lower-casing and by trimming. -/
def EmailsCanonical (lower : Char → Char) (d : Database) : Prop :=
  ∀ r ∈ d.rows, ToLower lower r.email = r.email ∧ TrimSpace r.email = r.email

/-- A Pending row has no team; every other row has a non-empty team of the mapping. -/
def TeamsAssigned (cfg : Config) (d : Database) : Prop :=
  ∀ r ∈ d.rows,
    (r.state = State.Pending ∧ r.team_role = none) ∨
    (r.state ≠ State.Pending ∧ ∃ t, r.team_role = some t ∧ t ≠ "" ∧ cfg.team t ≠ none)

/-! ## Two runs of the DM handler on one store -/

/-- Where one run of `onMessageCreate` stands between two store statements: before the
lookup by platform ID, before `EmailExists`, before `DiscordIDExists`, before the INSERT,
and after its last call (with the outside calls it made). -/
inductive DMPhase where
  | start
  | checkedUser
  | checkedEmail
  | checkedID
  | done (effects : List Effect)
deriving DecidableEq, Repr

/-- One store statement of `onMessageCreate`, with the code that follows it up to the next
store statement: the handler cut at its four accesses to the store. -/
def stepDM (lower : Char → Char) (cfg : Config) (ext : Ext) (m : MessageCreate)
    (pc : DMPhase) (d : Database) : DMPhase × Database :=
  match pc with
  | .start =>
    if m.Author.Bot then (.done [], d)
    else if ext.Channel m.ChannelID ≠ some ChannelTypeDM then (.done [], d)
    else
      let found := d.GetUserByDiscordID m.Author.ID
      if foundAnd found (fun user => user.Verified) then
        (.done [Effect.ChannelMessageSend m.ChannelID "✅ You're already verified!"], d)
      else if foundAnd found (fun user => user.Unverified) then
        (.done [Effect.ChannelMessageSend m.ChannelID "⚠️ Your access has been temporarily restricted. Please contact a moderator to reactivate your account. You cannot use the automatic verification system."], d)
      else
        let email := TrimSpace (ToLower lower m.Content)
        if !isValidEmail email then
          (.done [Effect.ChannelMessageSend m.ChannelID "❌ That doesn't look like a valid email address. Please try again."], d)
        else if !isApprovedDomain lower cfg.ApprovedDomains email then
          (.done [Effect.ChannelMessageSend m.ChannelID
            ("❌ Sorry, the domain for " ++ email ++ " is not approved. Please use your work email from an approved company domain.")], d)
        else (.checkedUser, d)
  | .checkedUser =>
    if d.EmailExists (TrimSpace (ToLower lower m.Content)) then
      (.done [Effect.ChannelMessageSend m.ChannelID "❌ This email address is already registered. Each email can only be used once."], d)
    else (.checkedEmail, d)
  | .checkedEmail =>
    if d.DiscordIDExists m.Author.ID then
      (.done [Effect.ChannelMessageSend m.ChannelID "❌ You've already started the verification process. Please check your email for the verification link."], d)
    else (.checkedID, d)
  | .checkedID =>
    let username := displayName m.Author
    let email := TrimSpace (ToLower lower m.Content)
    match generateVerificationCode ext with
    | none =>
      (.done [Effect.ChannelMessageSend m.ChannelID "❌ An error occurred. Please try again later."], d)
    | some verificationCode =>
      match d.CreateUser m.Author.ID username email verificationCode ext.now with
      | (d1, some _) =>
        (.done [Effect.ChannelMessageSend m.ChannelID "❌ An error occurred. Please try again later."], d1)
      | (d1, none) =>
        if !ext.SendVerificationEmail email verificationCode m.Author.Username then
          (.done [Effect.SendVerificationEmail email verificationCode m.Author.Username,
            Effect.ChannelMessageSend m.ChannelID "❌ Failed to send verification email. Please contact an administrator."], d1)
        else
          (.done [Effect.SendVerificationEmail email verificationCode m.Author.Username,
            Effect.ChannelMessageSend m.ChannelID
              ("✅ Verification email sent to **" ++ email ++ "**!\n\nPlease check your inbox and click the verification link." ++
                (if cfg.Features.EnableTeamSelection then
                  " You'll be asked to select your team, and then you'll have full access to the server."
                 else " Once you verify, you'll have full access to the server."))], d1)
  | .done effects => (.done effects, d)

/-- The four statements of one handler run, one after the other with nothing between. -/
def runDM (lower : Char → Char) (cfg : Config) (ext : Ext) (d : Database)
    (m : MessageCreate) : Database × List Effect :=
  let s1 := stepDM lower cfg ext m .start d
  let s2 := stepDM lower cfg ext m s1.1 s1.2
  let s3 := stepDM lower cfg ext m s2.1 s2.2
  let s4 := stepDM lower cfg ext m s3.1 s3.2
  match s4.1 with
  | .done effects => (s4.2, effects)
  | _ => (s4.2, [])

/-- Two runs of `onMessageCreate` in flight on one store. -/
structure Race where
  a : DMPhase
  b : DMPhase
  d : Database
deriving DecidableEq, Repr

/-- The next store statement of the first run (`turn = true`) or of the second. -/
def raceStep (lower : Char → Char) (cfg : Config) (extA : Ext) (mA : MessageCreate)
    (extB : Ext) (mB : MessageCreate) (turn : Bool) (c : Race) : Race :=
  if turn then
    { c with a := (stepDM lower cfg extA mA c.a c.d).1, d := (stepDM lower cfg extA mA c.a c.d).2 }
  else
    { c with b := (stepDM lower cfg extB mB c.b c.d).1, d := (stepDM lower cfg extB mB c.b c.d).2 }

/-- The two runs interleaved as `schedule` says, statement by statement. -/
def race (lower : Char → Char) (cfg : Config) (extA : Ext) (mA : MessageCreate)
    (extB : Ext) (mB : MessageCreate) : List Bool → Race → Race
  | [], c => c
  | turn :: schedule, c =>
    race lower cfg extA mA extB mB schedule (raceStep lower cfg extA mA extB mB turn c)

/-- How far a run has got. -/
def DMPhase.rank : DMPhase → Nat
  | .start => 0
  | .checkedUser => 1
  | .checkedEmail => 2
  | .checkedID => 3
  | .done _ => 4

/-- A second member, who sends alice's address. -/
def mallory : DiscordUser := { ID := "3003", Username := "mallory" }

/-- The DM in which mallory sends alice's work email. -/
def malloryDM : MessageCreate :=
  { Author := mallory, ChannelID := "dm-3003", Content := "Alice@acme.com" }

/-- Whether a run still has a store statement to issue. -/
def DMPhase.running : DMPhase → Bool
  | .done _ => false
  | _ => true

/-- A DM that, handled alone on store `d`, passes every check of `onMessageCreate`: sent by
a person in a DM channel, content that canonicalises to the well-formed approved address
`email`, no record for the author or for `email`, and a generated `code` that no record
carries. -/
def FirstContact (lower : Char → Char) (cfg : Config) (ext : Ext) (m : MessageCreate)
    (d : Database) (email code : String) : Prop :=
  m.Author.Bot = false ∧ ext.Channel m.ChannelID = some ChannelTypeDM ∧
  submittedEmail lower m = email ∧ isValidEmail email = true ∧
  isApprovedDomain lower cfg.ApprovedDomains email = true ∧
  (∀ r ∈ d.rows, r.discord_id ≠ m.Author.ID) ∧ (∀ r ∈ d.rows, r.email ≠ email) ∧
  generateVerificationCode ext = some code ∧ (∀ r ∈ d.rows, r.verification_code ≠ code)

/-- The row the INSERT of `onMessageCreate` appends to `d` for the author of `m`. -/
def pendingRow (d : Database) (ext : Ext) (m : MessageCreate) (email code : String) : Row :=
  { id := d.seq + 1, discord_id := m.Author.ID, discord_username := displayName m.Author,
    email := email, verification_code := code, team_role := none, verified := false,
    unverified := false, created_at := ext.now, verified_at := none }

/-- The store `d` with one more row. -/
def Database.appended (d : Database) (r : Row) : Database :=
  { rows := d.rows ++ [r], seq := d.seq + 1 }

/-- The two ways the handler turns down an address that another record holds: the reply
after `EmailExists`, and the reply after the INSERT failed on the UNIQUE constraint. -/
def conflictReplies (m : MessageCreate) : List (List Effect) :=
  [[Effect.ChannelMessageSend m.ChannelID alreadyRegisteredReply],
   [Effect.ChannelMessageSend m.ChannelID "❌ An error occurred. Please try again later."]]

/-- The configurations two racing first contacts with one address can be in: nothing
inserted and both runs under way; or one run has inserted its row and finished with the
verification email, while the other is under way or has ended with a conflict reply. -/
def RaceInv (d : Database) (mA mB : MessageCreate) (rowA rowB : Row) (c : Race) : Prop :=
  (c.d = d ∧ c.a.running = true ∧ c.b.running = true) ∨
  (c.d = d.appended rowA ∧ (∃ ea, c.a = .done ea ∧ sendsVerificationEmail ea = true) ∧
    (c.b.running = true ∨ ∃ eb ∈ conflictReplies mB, c.b = .done eb)) ∨
  (c.d = d.appended rowB ∧ (∃ eb, c.b = .done eb ∧ sendsVerificationEmail eb = true) ∧
    (c.a.running = true ∨ ∃ ea ∈ conflictReplies mA, c.a = .done ea))

/-! ## A run of restrict overtaken between its two statements -/

/-- Where one run of `handleRestrict` stands between its two store statements: before the
lookup, after a lookup that found a verified user (the `user` it read), and after its
last call (with the outside calls it made). -/
inductive RestrictPhase where
  | start
  | looked (user : User)
  | done (effects : List Effect)
deriving DecidableEq, Repr

/-- One store statement of `handleRestrict` with the code around it: the handler cut
between `GetUserByDiscordID` and `UnverifyUser`. The role removals are calls to Discord
made between the two statements; they are recorded with the second piece. -/
def stepRestrict (cfg : Config) (ext : Ext) (i : InteractionCreate) (pc : RestrictPhase)
    (d : Database) : RestrictPhase × Database :=
  match pc with
  | .start =>
    if !isAdmin cfg ext i.Member then (.done [permissionDenied], d)
    else
      match i.Options[0]? with
      | none => (.done [Effect.goPanic], d)
      | some opt0 =>
        let userOption := opt0.UserValue
        match d.GetUserByDiscordID userOption.ID with
        | .error DBError.ErrNoRows =>
          (.done [Effect.respondEphemeral ("❌ <@" ++ userOption.ID ++ "> is not in the system.")], d)
        | .error _ => (.done [Effect.respondEphemeral "❌ Database error occurred."], d)
        | .ok user =>
          if !user.Verified then
            (.done [Effect.respondEphemeral ("❌ <@" ++ userOption.ID ++ "> is not verified.")], d)
          else if user.Unverified then
            (.done [Effect.respondEphemeral ("❌ <@" ++ userOption.ID ++ "> is already restricted.")], d)
          else (.looked user, d)
  | .looked user =>
    match i.Options[0]? with
    | none => (.done [Effect.goPanic], d)
    | some opt0 =>
      let userOption := opt0.UserValue
      let reason := match i.Options[1]? with
        | some opt1 => opt1.StringValue
        | none => ""
      let removals := removeRoles cfg userOption.ID user.TeamRole
      match d.UnverifyUser userOption.ID with
      | (d1, some _) =>
        (.done (removals ++ [Effect.respondEphemeral "❌ Failed to update database."]), d1)
      | (d1, none) =>
        (.done (removals ++
          [Effect.respondEphemeral
            (if reason ≠ "" then
              "✅ Restricted <@" ++ userOption.ID ++ ">.\n**Reason:** " ++ reason ++
                "\n\nUser has been notified and their roles removed. Use `/heimdall-unrestrict` to restore access."
             else
              "✅ Restricted <@" ++ userOption.ID ++
                ">.\n\nUser has been notified and their roles removed. Use `/heimdall-unrestrict` to restore access."),
           Effect.SendDM userOption.ID
            ("⚠️ Your server access has been temporarily restricted by a moderator." ++
              (if reason ≠ "" then "\n**Reason:** " ++ reason else "") ++
              "\n\nYou cannot use the automatic verification system. Please contact a moderator to restore your account.")]), d1)
  | .done effects => (.done effects, d)

/-- A run of `handleRestrict` during which the events `between` are handled after its
lookup and before its UPDATE; the handler holds no transaction over the two statements.
With no event in between this is `handleRestrict`. -/
def overtakenRestrict (lower : Char → Char) (cfg : Config) (ext : Ext)
    (i : InteractionCreate) (between : List (Ext × Event)) (d : Database) :
    Database × List Effect :=
  let s1 := stepRestrict cfg ext i .start d
  let d2 := between.foldl (fun acc e => step lower cfg e.1 acc e.2) s1.2
  let s2 := stepRestrict cfg ext i s1.1 d2
  match s2.1 with
  | .done effects => (s2.2, effects)
  | _ => (s2.2, [])

/-- The store left when alice, Verified, is reset and writes again while a restrict of her
is between its lookup and its UPDATE: her new record, flagged `unverified`, with no team. -/
def teamlessStore : Database :=
  { rows := [{ aliceRow with id := 2, unverified := true }], seq := 2 }

/-! # Properties -/

/-! ## The matcher decides the language -/

namespace RE

theorem nullable_of_matches_nil {r : RE} {s : List Char} (h : Matches r s) (hs : s = []) :
    nullable r = true := by
  induction h with
  | eps => rfl
  | cls _ => simp at hs
  | altL _ ih => simp [nullable, ih hs]
  | altR _ ih => simp [nullable, ih hs]
  | seq _ _ ih1 ih2 =>
    obtain ⟨h1, h2⟩ := List.append_eq_nil.mp hs
    simp [nullable, ih1 h1, ih2 h2]
  | starNil => rfl
  | starCons _ _ _ _ => rfl

theorem matches_nil_of_nullable : ∀ {r : RE}, nullable r = true → Matches r []
  | void, h => by simp [nullable] at h
  | eps, _ => Matches.eps
  | cls _, h => by simp [nullable] at h
  | alt r q, h => by
    simp only [nullable, Bool.or_eq_true] at h
    rcases h with h | h
    · exact Matches.altL (matches_nil_of_nullable h)
    · exact Matches.altR (matches_nil_of_nullable h)
  | seq r q, h => by
    simp only [nullable, Bool.and_eq_true] at h
    have := Matches.seq (matches_nil_of_nullable h.1) (matches_nil_of_nullable h.2)
    simpa using this
  | star _, _ => Matches.starNil

theorem matches_of_deriv (c : Char) : ∀ {r : RE} {s : List Char},
    Matches (deriv c r) s → Matches r (c :: s)
  | void, _, h => by cases h
  | eps, _, h => by cases h
  | cls p, s, h => by
    by_cases hp : p c = true
    · simp only [deriv, hp, if_true] at h
      cases h
      exact Matches.cls hp
    · simp only [deriv, hp] at h
      cases h
  | alt r q, _, h => by
    cases h with
    | altL h => exact Matches.altL (matches_of_deriv c h)
    | altR h => exact Matches.altR (matches_of_deriv c h)
  | seq r q, s, h => by
    by_cases hn : nullable r = true
    · simp only [deriv, hn, if_true] at h
      cases h with
      | altL h =>
        cases h with
        | seq h1 h2 => exact Matches.seq (matches_of_deriv c h1) h2
      | altR h =>
        have := Matches.seq (matches_nil_of_nullable hn) (matches_of_deriv c h)
        simpa using this
    · simp only [deriv, hn] at h
      cases h with
      | seq h1 h2 => exact Matches.seq (matches_of_deriv c h1) h2
  | star r, _, h => by
    cases h with
    | seq h1 h2 => exact Matches.starCons (matches_of_deriv c h1) h2

theorem deriv_of_matches (c : Char) {r : RE} {u : List Char} (h : Matches r u) :
    ∀ s, u = c :: s → Matches (deriv c r) s := by
  induction h with
  | eps => intro s hs; simp at hs
  | @cls p x hp =>
    intro s hs
    simp only [List.cons.injEq] at hs
    obtain ⟨rfl, rfl⟩ := hs
    simp only [deriv, hp, if_true]
    exact Matches.eps
  | altL _ ih => intro s hs; exact Matches.altL (ih s hs)
  | altR _ ih => intro s hs; exact Matches.altR (ih s hs)
  | @seq r q s1 t h1 h2 ih1 ih2 =>
    intro s hs
    cases s1 with
    | nil =>
      have hn := nullable_of_matches_nil h1 rfl
      simp only [deriv, hn, if_true]
      exact Matches.altR (ih2 s (by simpa using hs))
    | cons x s1 =>
      simp only [List.cons_append, List.cons.injEq] at hs
      obtain ⟨rfl, rfl⟩ := hs
      have h3 := Matches.seq (ih1 s1 rfl) h2
      by_cases hn : nullable r = true
      · simp only [deriv, hn, if_true]
        exact Matches.altL h3
      · simp only [deriv, hn]
        exact h3
  | starNil => intro s hs; simp at hs
  | @starCons r s1 t h1 h2 ih1 ih2 =>
    intro s hs
    cases s1 with
    | nil => exact ih2 s (by simpa using hs)
    | cons x s1 =>
      simp only [List.cons_append, List.cons.injEq] at hs
      obtain ⟨rfl, rfl⟩ := hs
      exact Matches.seq (ih1 s1 rfl) h2

theorem rmatch_iff_matches : ∀ (s : List Char) (r : RE), rmatch r s = true ↔ Matches r s
  | [], r => ⟨matches_nil_of_nullable, fun h => nullable_of_matches_nil h rfl⟩
  | c :: cs, r => by
    rw [rmatch, rmatch_iff_matches cs (deriv c r)]
    exact ⟨matches_of_deriv c, fun h => deriv_of_matches c h cs rfl⟩

theorem matches_chr {c : Char} {s : List Char} (h : Matches (chr c) s) : s = [c] := by
  cases h with
  | cls hp => simpa using hp

theorem matches_star_cls {p : Char → Bool} {r : RE} {s : List Char} (h : Matches r s) :
    r = star (cls p) → ∀ c ∈ s, p c = true := by
  induction h with
  | eps => intro hr; cases hr
  | cls _ => intro hr; cases hr
  | altL _ _ => intro hr; cases hr
  | altR _ _ => intro hr; cases hr
  | seq _ _ _ _ => intro hr; cases hr
  | starNil => intro _ c hc; simp at hc
  | starCons h1 _ _ ih2 =>
    intro hr c hc
    cases hr
    rcases List.mem_append.mp hc with hc | hc
    · cases h1 with
      | cls hp =>
        simp only [List.mem_singleton] at hc
        rw [hc]; exact hp
    · exact ih2 rfl c hc

theorem matches_plus_cls {p : Char → Bool} {s : List Char} (h : Matches (plus (cls p)) s) :
    s ≠ [] ∧ ∀ c ∈ s, p c = true := by
  cases h with
  | seq h1 h2 =>
    cases h1 with
    | cls hp =>
      refine ⟨by simp, ?_⟩
      intro c hc
      rcases List.mem_append.mp hc with hc | hc
      · simp only [List.mem_singleton] at hc
        rw [hc]; exact hp
      · exact matches_star_cls h2 rfl c hc

end RE

/-! ## Shape of well-formed emails -/

theorem RE.matches_star_of_all {p : Char → Bool} :
    ∀ s : List Char, (∀ c ∈ s, p c = true) → RE.Matches (RE.star (RE.cls p)) s
  | [], _ => RE.Matches.starNil
  | c :: cs, h => by
    have h1 : RE.Matches (RE.cls p) [c] := RE.Matches.cls (h c (by simp))
    have h2 := RE.matches_star_of_all cs (fun x hx => h x (by simp [hx]))
    simpa using RE.Matches.starCons h1 h2

theorem RE.matches_plus_of_all {p : Char → Bool} {s : List Char} (hne : s ≠ [])
    (h : ∀ c ∈ s, p c = true) : RE.Matches (RE.plus (RE.cls p)) s := by
  cases s with
  | nil => exact absurd rfl hne
  | cons c cs =>
    have h1 : RE.Matches (RE.cls p) [c] := RE.Matches.cls (h c (by simp))
    have h2 := RE.matches_star_of_all cs (fun x hx => h x (by simp [hx]))
    simpa [RE.plus] using RE.Matches.seq h1 h2

theorem isValidEmail_iff_shape (e : String) : isValidEmail e = true ↔ EmailShape e.data := by
  unfold isValidEmail
  rw [RE.rmatch_iff_matches]
  generalize e.data = s
  constructor
  · intro h
    unfold emailRegex at h
    cases h with
    | @seq _ _ l _ hl h =>
      cases h with
      | seq hat h =>
        cases h with
        | @seq _ _ dm _ hd h =>
          cases h with
          | seq hdot ht =>
            have e1 := RE.matches_chr hat
            have e2 := RE.matches_chr hdot
            subst e1 e2
            obtain ⟨hl1, hl2⟩ := RE.matches_plus_cls hl
            obtain ⟨hd1, hd2⟩ := RE.matches_plus_cls hd
            cases ht with
            | @seq _ _ _ t1 ha ht =>
              cases ha with
              | @cls _ a hpa =>
                obtain ⟨ht1, ht2⟩ := RE.matches_plus_cls ht
                refine ⟨l, dm, [a] ++ t1, by simp, hl1, hl2, hd1, hd2, ?_, ?_⟩
                · cases t1 with
                  | nil => exact absurd rfl ht1
                  | cons _ _ => simp
                · intro c hc
                  rcases List.mem_append.mp hc with hc | hc
                  · simp only [List.mem_singleton] at hc
                    rw [hc]; exact hpa
                  · exact ht2 c hc
  · rintro ⟨l, dm, t, hs, hl1, hl2, hd1, hd2, ht1, ht2⟩
    rw [hs]
    unfold emailRegex
    have hL := RE.matches_plus_of_all hl1 hl2
    have hD := RE.matches_plus_of_all hd1 hd2
    have hAt : RE.Matches (RE.chr '@') ['@'] := RE.Matches.cls (by simp)
    have hDot : RE.Matches (RE.chr '.') ['.'] := RE.Matches.cls (by simp)
    have hT : RE.Matches (RE.atLeastTwo (RE.cls alphaClass)) t := by
      cases t with
      | nil => simp at ht1
      | cons a t =>
        have ha : RE.Matches (RE.cls alphaClass) [a] := RE.Matches.cls (ht2 a (by simp))
        have hne : t ≠ [] := by
          intro h; subst h; simp at ht1
        have := RE.Matches.seq ha
          (RE.matches_plus_of_all hne (fun x hx => ht2 x (by simp [hx])))
        simpa [RE.atLeastTwo, RE.plus] using this
    have := RE.Matches.seq hL (RE.Matches.seq hAt (RE.Matches.seq hD (RE.Matches.seq hDot hT)))
    simpa using this

theorem inRange_bounds {lo hi c : Char} (h : inRange lo hi c = true) :
    lo.toNat ≤ c.toNat ∧ c.toNat ≤ hi.toNat := by
  simpa [inRange] using h

theorem localClass_ascii {c : Char} (h : localClass c = true) : c.toNat < 128 ∧ c ≠ '@' := by
  simp only [localClass, Bool.or_eq_true, beq_iff_eq] at h
  rcases h with ((((((h | h) | h) | h) | h) | h) | h) | h
  · have := inRange_bounds h
    have e1 : 'a'.toNat = 97 := by decide
    have e2 : 'z'.toNat = 122 := by decide
    refine ⟨by omega, ?_⟩
    rintro rfl
    have : '@'.toNat = 64 := by decide
    omega
  · have := inRange_bounds h
    have e1 : 'A'.toNat = 65 := by decide
    have e2 : 'Z'.toNat = 90 := by decide
    refine ⟨by omega, ?_⟩
    rintro rfl
    have : '@'.toNat = 64 := by decide
    omega
  · have := inRange_bounds h
    have e1 : '0'.toNat = 48 := by decide
    have e2 : '9'.toNat = 57 := by decide
    refine ⟨by omega, ?_⟩
    rintro rfl
    have : '@'.toNat = 64 := by decide
    omega
  all_goals (subst h; decide)

theorem domainClass_local {c : Char} (h : domainClass c = true) : localClass c = true := by
  simp only [domainClass, Bool.or_eq_true] at h
  simp only [localClass, Bool.or_eq_true]
  tauto

theorem alphaClass_local {c : Char} (h : alphaClass c = true) : localClass c = true := by
  simp only [alphaClass, Bool.or_eq_true] at h
  simp only [localClass, Bool.or_eq_true]
  tauto

theorem alphaClass_ne_dot {c : Char} (h : alphaClass c = true) : c ≠ '.' := by
  rintro rfl
  revert h
  decide

theorem EmailShape.ascii {s : List Char} (h : EmailShape s) : ∀ c ∈ s, c.toNat < 128 := by
  obtain ⟨l, dm, t, rfl, -, hl, -, hd, -, ht⟩ := h
  intro c hc
  simp only [List.mem_append, List.mem_cons] at hc
  rcases hc with hc | rfl | hc | rfl | hc
  · exact (localClass_ascii (hl c hc)).1
  · decide
  · exact (localClass_ascii (domainClass_local (hd c hc))).1
  · decide
  · exact (localClass_ascii (alphaClass_local (ht c hc))).1

theorem count_at_eq_zero {p : Char → Bool} (hp : ∀ c, p c = true → localClass c = true)
    {s : List Char} (h : ∀ c ∈ s, p c = true) : s.count '@' = 0 := by
  rw [List.count_eq_zero]
  intro hmem
  exact (localClass_ascii (hp _ (h _ hmem))).2 rfl

theorem EmailShape.count_at {s : List Char} (h : EmailShape s) : s.count '@' = 1 := by
  obtain ⟨l, dm, t, rfl, -, hl, -, hd, -, ht⟩ := h
  have h1 := count_at_eq_zero (fun _ h => h) hl
  have h2 := count_at_eq_zero (fun _ h => domainClass_local h) hd
  have h3 := count_at_eq_zero (fun _ h => alphaClass_local h) ht
  have h4 : ('.' == '@') = false := by decide
  simp [List.count_append, List.count_cons, h1, h2, h3, h4]

theorem count_one_split {s l dm : List Char} (hc : s.count '@' = 1) (hs : s = l ++ '@' :: dm) :
    '@' ∉ l ∧ '@' ∉ dm := by
  subst hs
  simp only [List.count_append, List.count_cons, beq_self_eq_true, if_true] at hc
  constructor
  · intro h
    have := List.count_pos_iff.mpr h
    omega
  · intro h
    have := List.count_pos_iff.mpr h
    omega

theorem append_at_unique {l l2 dm dm2 : List Char} (h : l ++ '@' :: dm = l2 ++ '@' :: dm2)
    (h1 : '@' ∉ l) (h2 : '@' ∉ l2) : l = l2 ∧ dm = dm2 := by
  induction l generalizing l2 with
  | nil =>
    cases l2 with
    | nil => simpa using h
    | cons x l2 =>
      simp only [List.nil_append, List.cons_append, List.cons.injEq] at h
      exact absurd (by simp [← h.1]) h2
  | cons x l ih =>
    cases l2 with
    | nil =>
      simp only [List.nil_append, List.cons_append, List.cons.injEq] at h
      exact absurd (by simp [h.1]) h1
    | cons y l2 =>
      simp only [List.cons_append, List.cons.injEq] at h
      have := ih h.2 (fun hm => h1 (by simp [hm])) (fun hm => h2 (by simp [hm]))
      exact ⟨by rw [h.1, this.1], this.2⟩

/-- C4. Every string accepted by `isValidEmail` is pure ASCII, contains exactly one `@`,
has a non-empty local part before it and a domain after it that contains a `.`;
a string with no `@`, with nothing before its `@`, or with a dot-free part after an `@`
is rejected. -/
theorem isValidEmail_format (e : String) :
    (isValidEmail e = true →
      (∀ c ∈ e.data, c.toNat < 128) ∧ e.data.count '@' = 1 ∧
      ∃ l dm, e.data = l ++ '@' :: dm ∧ l ≠ [] ∧ '.' ∈ dm) ∧
    ('@' ∉ e.data → isValidEmail e = false) ∧
    (∀ dm, e.data = '@' :: dm → isValidEmail e = false) ∧
    (∀ l dm, e.data = l ++ '@' :: dm → '.' ∉ dm → isValidEmail e = false) := by
  have key : isValidEmail e = true →
      (∀ c ∈ e.data, c.toNat < 128) ∧ e.data.count '@' = 1 ∧
      ∃ l dm, e.data = l ++ '@' :: dm ∧ l ≠ [] ∧ '.' ∈ dm := by
    intro h
    have hsh := (isValidEmail_iff_shape e).mp h
    refine ⟨hsh.ascii, hsh.count_at, ?_⟩
    obtain ⟨l, dm, t, hs, hl, -, -, -, -, -⟩ := hsh
    exact ⟨l, dm ++ '.' :: t, hs, hl, by simp⟩
  refine ⟨key, ?_, ?_, ?_⟩
  · intro hno
    by_contra hv
    obtain ⟨-, -, l, dm, hs, -, -⟩ := key (by simpa using hv)
    exact hno (by rw [hs]; simp)
  · intro dm hs
    by_contra hv
    obtain ⟨-, hcount, l, dm2, hs2, hl, -⟩ := key (by simpa using hv)
    have h1 := count_one_split hcount hs2
    have h2 := append_at_unique (l := []) (by simpa [hs] using hs2.symm.trans hs |>.symm)
      (by simp) h1.1
    exact hl h2.1.symm
  · intro l dm hs hdot
    by_contra hv
    obtain ⟨-, hcount, l2, dm2, hs2, -, hd⟩ := key (by simpa using hv)
    have h1 := count_one_split hcount hs
    have h2 := count_one_split hcount hs2
    have h3 := append_at_unique (hs.symm.trans hs2) h1.1 h2.1
    exact hdot (h3.2 ▸ hd)

/-- Witness for C4 on `alice@acme.com`, `aliceacme.com`, `@acme.com` and `alice@acme`. -/
theorem isValidEmail_format_witness :
    ((∀ c ∈ "alice@acme.com".data, c.toNat < 128) ∧ "alice@acme.com".data.count '@' = 1 ∧
      ∃ l dm, "alice@acme.com".data = l ++ '@' :: dm ∧ l ≠ [] ∧ '.' ∈ dm) ∧
    isValidEmail "aliceacme.com" = false ∧
    isValidEmail "@acme.com" = false ∧
    isValidEmail "alice@acme" = false :=
  ⟨(isValidEmail_format "alice@acme.com").1 (by decide),
   (isValidEmail_format "aliceacme.com").2.1 (by decide),
   (isValidEmail_format "@acme.com").2.2.1 "acme.com".data rfl,
   (isValidEmail_format "alice@acme").2.2.2 "alice".data "acme".data rfl (by decide)⟩

/-! ## Domain approval -/

theorem splitRunes_length (sep : Char) : ∀ s : List Char,
    (splitRunes sep s).length = s.count sep + 1
  | [] => rfl
  | c :: cs => by
    have ih := splitRunes_length sep cs
    by_cases h : c = sep
    · subst h
      simp [splitRunes, ih]
    · have hb : (c == sep) = false := by simpa using h
      cases hsp : splitRunes sep cs with
      | nil => simp [hsp] at ih
      | cons p ps =>
        simp only [splitRunes, h, if_false, hsp, List.count_cons, hb]
        simpa [hsp] using ih

theorem splitRunes_eq_single (sep : Char) : ∀ {s b : List Char},
    splitRunes sep s = [b] → s = b ∧ afterLast sep s = none
  | [], b, h => by
    simp only [splitRunes, List.cons.injEq, and_true] at h
    exact ⟨h, rfl⟩
  | c :: cs, b, h => by
    by_cases hc : c = sep
    · have hl := splitRunes_length sep cs
      simp only [splitRunes, hc, if_true, List.cons.injEq] at h
      rw [h.2] at hl
      simp at hl
    · cases hsp : splitRunes sep cs with
      | nil =>
        have hl := splitRunes_length sep cs
        simp [hsp] at hl
      | cons p ps =>
        simp only [splitRunes, hc, if_false, hsp, List.cons.injEq] at h
        obtain ⟨rfl, rfl⟩ := h
        have ih := splitRunes_eq_single sep hsp
        exact ⟨by rw [ih.1], by simp [afterLast, ih.2, hc]⟩

theorem splitRunes_eq_pair (sep : Char) : ∀ {s a b : List Char},
    splitRunes sep s = [a, b] → afterLast sep s = some b
  | [], a, b, h => by simp [splitRunes] at h
  | c :: cs, a, b, h => by
    by_cases hc : c = sep
    · simp only [splitRunes, hc, if_true, List.cons.injEq] at h
      have ih := splitRunes_eq_single sep h.2
      obtain ⟨rfl, hnone⟩ := ih
      simp [afterLast, hnone, hc]
    · cases hsp : splitRunes sep cs with
      | nil =>
        have hl := splitRunes_length sep cs
        simp [hsp] at hl
      | cons p ps =>
        simp only [splitRunes, hc, if_false, hsp, List.cons.injEq] at h
        obtain ⟨rfl, rfl⟩ := h
        have ih := splitRunes_eq_pair sep hsp
        simp [afterLast, ih]

theorem isApprovedDomain_eq (lower : Char → Char) (approved : List String) (e : String) :
    isApprovedDomain lower approved e =
      match splitRunes '@' e.data with
      | [_, b] => approved.any (fun a => ToLower lower a == ToLower lower (String.mk b))
      | _ => false := by
  unfold isApprovedDomain splitOnAt
  rcases splitRunes '@' e.data with _ | ⟨a, _ | ⟨b, _ | ⟨c, t⟩⟩⟩ <;> rfl

theorem ToLower_congr {f g : Char → Char} {s : String} (h : ∀ c ∈ s.data, f c = g c) :
    ToLower f s = ToLower g s := by
  unfold ToLower
  rw [List.map_congr_left h]

/-- C3 (amended). `isApprovedDomain` is true exactly when the email contains exactly one `@`
and the lower-cased text after it equals one of the configured domains, lower-cased
(no subdomain or substring matching); with a case table that lower-cases ASCII letters,
`alice@Acme.com` matches `acme.com` and `alice@notacme.com` does not. -/
theorem isApprovedDomain_iff (lower : Char → Char) (approved : List String) (e : String) :
    (isApprovedDomain lower approved e = true ↔
      e.data.count '@' = 1 ∧ approvedAfterLastAt lower approved e = true) ∧
    ((∀ c, c.toNat < 128 → lower c = asciiLower c) →
      isApprovedDomain lower ["acme.com"] "alice@Acme.com" = true ∧
      isApprovedDomain lower ["acme.com"] "alice@notacme.com" = false) := by
  constructor
  · rw [isApprovedDomain_eq]
    have hlen := splitRunes_length '@' e.data
    unfold approvedAfterLastAt
    rcases hsp : splitRunes '@' e.data with _ | ⟨a, _ | ⟨b, _ | ⟨c, t⟩⟩⟩
    · simp [hsp] at hlen
    · have hc : e.data.count '@' ≠ 1 := by
        simp only [hsp, List.length_singleton] at hlen
        omega
      simp [hc]
    · have hc : e.data.count '@' = 1 := by
        simp only [hsp, List.length_cons, List.length_nil] at hlen
        omega
      simp [hc, splitRunes_eq_pair '@' hsp]
    · have hc : e.data.count '@' ≠ 1 := by
        simp only [hsp, List.length_cons] at hlen
        omega
      simp [hc]
  · intro hl
    have h1 : ToLower lower "acme.com" = ToLower asciiLower "acme.com" :=
      ToLower_congr (fun c hc => hl c (by revert c hc; decide))
    have h2 : ToLower lower "Acme.com" = ToLower asciiLower "Acme.com" :=
      ToLower_congr (fun c hc => hl c (by revert c hc; decide))
    have h3 : ToLower lower "notacme.com" = ToLower asciiLower "notacme.com" :=
      ToLower_congr (fun c hc => hl c (by revert c hc; decide))
    have s1 : splitRunes '@' "alice@Acme.com".data = ["alice".data, "Acme.com".data] := by decide
    have s2 : splitRunes '@' "alice@notacme.com".data = ["alice".data, "notacme.com".data] := by
      decide
    constructor
    · rw [isApprovedDomain_eq, s1]
      simp only [List.any_cons, List.any_nil, Bool.or_false]
      rw [h1]
      show (ToLower asciiLower "acme.com" == ToLower lower "Acme.com") = true
      rw [h2]
      decide
    · rw [isApprovedDomain_eq, s2]
      simp only [List.any_cons, List.any_nil, Bool.or_false]
      rw [h1]
      show (ToLower asciiLower "acme.com" == ToLower lower "notacme.com") = false
      rw [h3]
      decide

/-- Witness for C3 (amended), with the ASCII case table. -/
theorem isApprovedDomain_iff_witness :
    (isApprovedDomain asciiLower ["acme.com"] "alice@Acme.com" = true ↔
      "alice@Acme.com".data.count '@' = 1 ∧
        approvedAfterLastAt asciiLower ["acme.com"] "alice@Acme.com" = true) ∧
    isApprovedDomain asciiLower ["acme.com"] "alice@Acme.com" = true ∧
    isApprovedDomain asciiLower ["acme.com"] "alice@notacme.com" = false :=
  ⟨(isApprovedDomain_iff asciiLower ["acme.com"] "alice@Acme.com").1,
   (isApprovedDomain_iff asciiLower ["acme.com"] "alice@Acme.com").2 (fun _ _ => rfl)⟩

/-- C3 (as stated) fails: for `a@b@acme.com` the text after the last `@` is the approved
domain `acme.com`, yet `isApprovedDomain` rejects the address because it has two `@`. -/
theorem isApprovedDomain_last_at_counterexample :
    ¬ (isApprovedDomain asciiLower ["acme.com"] "a@b@acme.com" = true ↔
        approvedAfterLastAt asciiLower ["acme.com"] "a@b@acme.com" = true) := by
  decide

/-! ## Store statements and the schema constraints -/

theorem CreateUser_conflict {d : Database} {discordID username email code : String} {now : Nat}
    (h : ∃ r ∈ d.rows, r.discord_id = discordID ∨ r.email = email ∨
      r.verification_code = code) :
    d.CreateUser discordID username email code now = (d, some DBError.constraint) := by
  unfold Database.CreateUser
  rw [if_pos]
  rw [List.any_eq_true]
  obtain ⟨r, hr, h⟩ := h
  exact ⟨r, hr, by simpa [or_assoc] using h⟩

theorem CreateUser_fresh {d : Database} {discordID username email code : String} {now : Nat}
    (h : ∀ r ∈ d.rows, r.discord_id ≠ discordID ∧ r.email ≠ email ∧
      r.verification_code ≠ code) :
    d.CreateUser discordID username email code now =
      ({ rows := d.rows ++ [{ id := d.seq + 1, discord_id := discordID,
                              discord_username := username, email := email,
                              verification_code := code, team_role := none,
                              verified := false, unverified := false,
                              created_at := now, verified_at := none }],
         seq := d.seq + 1 }, none) := by
  unfold Database.CreateUser
  rw [if_neg]
  rw [List.any_eq_true]
  rintro ⟨r, hr, hc⟩
  have := h r hr
  simp only [Bool.or_eq_true, beq_iff_eq] at hc
  tauto

theorem CreateUser_cases (d : Database) (discordID email code : String) :
    (∃ r ∈ d.rows, r.discord_id = discordID ∨ r.email = email ∨ r.verification_code = code) ∨
    (∀ r ∈ d.rows, r.discord_id ≠ discordID ∧ r.email ≠ email ∧ r.verification_code ≠ code) := by
  by_cases h : ∃ r ∈ d.rows, r.discord_id = discordID ∨ r.email = email ∨
      r.verification_code = code
  · exact Or.inl h
  · right
    intro r hr
    push_neg at h
    exact h r hr

theorem UniqueKeys.afterStatement {d d2 : Database} (h : DBStep d d2) (hu : UniqueKeys d) :
    UniqueKeys d2 := by
  cases h with
  | create discordID username email code now _ =>
    rcases CreateUser_cases d discordID email code with hc | hc
    · rw [CreateUser_conflict hc]; exact hu
    · rw [CreateUser_fresh hc]
      unfold UniqueKeys at hu ⊢
      rw [List.pairwise_append]
      refine ⟨hu, List.pairwise_singleton _ _, ?_⟩
      intro a ha b hb
      simp only [List.mem_singleton] at hb
      subst hb
      exact hc a ha
  | update discordID f hf =>
    unfold UniqueKeys Database.update at *
    rw [List.pairwise_map]
    refine hu.imp ?_
    intro a b hab
    have ha := hf a
    have hb := hf b
    split <;> split <;> simp_all
  | delete discordID =>
    unfold UniqueKeys Database.DeleteUser at *
    exact hu.sublist (List.filter_sublist _)

theorem CodesGenerated.keptByStatement {d d2 : Database} (h : DBStep d d2) (hu : CodesGenerated d) :
    CodesGenerated d2 := by
  cases h with
  | create discordID username email code now hlen =>
    rcases CreateUser_cases d discordID email code with hc | hc
    · rw [CreateUser_conflict hc]; exact hu
    · rw [CreateUser_fresh hc]
      intro r hr
      simp only [List.mem_append, List.mem_singleton] at hr
      rcases hr with hr | rfl
      · exact hu r hr
      · exact hlen
  | update discordID f hf =>
    intro r hr
    simp only [Database.update, List.mem_map] at hr
    obtain ⟨a, ha, rfl⟩ := hr
    split
    · rw [(hf a).2.2]; exact hu a ha
    · exact hu a ha
  | delete discordID =>
    intro r hr
    simp only [Database.DeleteUser, List.mem_filter] at hr
    exact hu r hr.1

theorem Evolves.keepsUniqueKeys {d d2 : Database} (h : Evolves d d2) (hu : UniqueKeys d) :
    UniqueKeys d2 := by
  induction h with
  | refl => exact hu
  | tail _ hstep ih => exact ih.afterStatement hstep

theorem Evolves.keepsCodesGenerated {d d2 : Database} (h : Evolves d d2) (hu : CodesGenerated d) :
    CodesGenerated d2 := by
  induction h with
  | refl => exact hu
  | tail _ hstep ih => exact ih.keptByStatement hstep

theorem hexEncode_length (bytes : List Nat) : (hexEncode bytes).length = 2 * bytes.length := by
  unfold hexEncode
  show (List.flatMap _ _).length = _
  induction bytes with
  | nil => rfl
  | cons b bs ih =>
    simp only [List.flatMap_cons, List.length_append, List.length_cons, List.length_nil, ih]
    omega

theorem generateVerificationCode_length {ext : Ext} {code : String}
    (h : generateVerificationCode ext = some code) : code.length = 64 := by
  unfold generateVerificationCode at h
  cases hr : ext.randRead with
  | none => simp [hr] at h
  | some bytes =>
    simp only [hr, Option.some.injEq] at h
    rw [← h, hexEncode_length]
    simp

/-! ## Every handler acts on the store through the statements of `database.go` -/

theorem Evolves.refl (d : Database) : Evolves d d := Relation.ReflTransGen.refl

theorem Evolves.createUser {d d1 : Database} (h : Evolves d d1)
    (discordID username email : String) {code : String} (now : Nat) (hlen : code.length = 64) :
    Evolves d (d1.CreateUser discordID username email code now).1 :=
  Relation.ReflTransGen.tail h (DBStep.create d1 discordID username email code now hlen)

theorem Evolves.updateUserTeam {d d1 : Database} (h : Evolves d d1)
    (discordID teamRole : String) (now : Nat) :
    Evolves d (d1.UpdateUserTeam discordID teamRole now).1 :=
  Relation.ReflTransGen.tail h (DBStep.update d1 discordID _ (fun _ => ⟨rfl, rfl, rfl⟩))

theorem Evolves.markUserVerified {d d1 : Database} (h : Evolves d d1)
    (discordID : String) (now : Nat) :
    Evolves d (d1.MarkUserVerified discordID now).1 :=
  Relation.ReflTransGen.tail h (DBStep.update d1 discordID _ (fun _ => ⟨rfl, rfl, rfl⟩))

theorem Evolves.unverifyUser {d d1 : Database} (h : Evolves d d1) (discordID : String) :
    Evolves d (d1.UnverifyUser discordID).1 :=
  Relation.ReflTransGen.tail h (DBStep.update d1 discordID _ (fun _ => ⟨rfl, rfl, rfl⟩))

theorem Evolves.reverifyUser {d d1 : Database} (h : Evolves d d1)
    (discordID : String) (now : Nat) :
    Evolves d (d1.ReverifyUser discordID now).1 :=
  Relation.ReflTransGen.tail h (DBStep.update d1 discordID _ (fun _ => ⟨rfl, rfl, rfl⟩))

theorem Evolves.deleteUser {d d1 : Database} (h : Evolves d d1) (discordID : String) :
    Evolves d (d1.DeleteUser discordID).1 :=
  Relation.ReflTransGen.tail h (DBStep.delete d1 discordID)

theorem Evolves.of_createUser {d d0 d1 : Database} {discordID username email code : String}
    {now : Nat} {o : Option DBError} (h : Evolves d d0)
    (hgen : ∃ ext, generateVerificationCode ext = some code)
    (heq : d0.CreateUser discordID username email code now = (d1, o)) : Evolves d d1 := by
  obtain ⟨ext, hgen⟩ := hgen
  have h1 := Evolves.createUser h discordID username email now
    (generateVerificationCode_length hgen)
  rw [heq] at h1
  exact h1

theorem handleAPIVerify_evolves (cfg : Config) (ext : Ext) (d : Database) (r : Request) :
    Evolves d (handleAPIVerify cfg ext d r).1 := by
  unfold handleAPIVerify
  simp only [Database.UpdateUserTeam]
  repeat' split
  all_goals first
    | exact Evolves.refl d
    | exact Evolves.updateUserTeam (Evolves.refl d) _ _ _

theorem handleVerify_evolves (cfg : Config) (d : Database) (r : Request) :
    Evolves d (handleVerify cfg d r).1 := by
  unfold handleVerify
  try dsimp only
  repeat' split
  all_goals exact Evolves.refl d

theorem onGuildMemberAdd_evolves (cfg : Config) (ext : Ext) (d : Database) (m : DiscordUser) :
    Evolves d (onGuildMemberAdd cfg ext d m).1 := by
  unfold onGuildMemberAdd
  try dsimp only
  repeat' split
  all_goals exact Evolves.refl d

theorem onMessageCreate_evolves (lower : Char → Char) (cfg : Config) (ext : Ext) (d : Database)
    (m : MessageCreate) : Evolves d (onMessageCreate lower cfg ext d m).1 := by
  unfold onMessageCreate
  try dsimp only
  repeat' split
  all_goals first
    | exact Evolves.refl d
    | exact Evolves.of_createUser (Evolves.refl d) ⟨ext, by assumption⟩ (by assumption)

theorem handleReset_evolves (cfg : Config) (ext : Ext) (d : Database) (i : InteractionCreate) :
    Evolves d (handleReset cfg ext d i).1 := by
  unfold handleReset
  simp only [Database.DeleteUser]
  repeat' split
  all_goals first
    | exact Evolves.refl d
    | exact Evolves.deleteUser (Evolves.refl d) _

theorem handlePurge_evolves (cfg : Config) (ext : Ext) (d : Database) (i : InteractionCreate) :
    Evolves d (handlePurge cfg ext d i).1 := by
  unfold handlePurge
  simp only [Database.DeleteUser]
  repeat' split
  all_goals first
    | exact Evolves.refl d
    | exact Evolves.deleteUser (Evolves.refl d) _

theorem handleRestrict_evolves (cfg : Config) (ext : Ext) (d : Database) (i : InteractionCreate) :
    Evolves d (handleRestrict cfg ext d i).1 := by
  unfold handleRestrict
  simp only [Database.UnverifyUser]
  repeat' split
  all_goals first
    | exact Evolves.refl d
    | exact Evolves.unverifyUser (Evolves.refl d) _

theorem handleUnrestrict_evolves (cfg : Config) (ext : Ext) (d : Database)
    (i : InteractionCreate) : Evolves d (handleUnrestrict cfg ext d i).1 := by
  unfold handleUnrestrict
  simp only [Database.ReverifyUser]
  repeat' split
  all_goals first
    | exact Evolves.refl d
    | exact Evolves.reverifyUser (Evolves.refl d) _ _

theorem handleChangeTeam_evolves (cfg : Config) (ext : Ext) (d : Database)
    (i : InteractionCreate) : Evolves d (handleChangeTeam cfg ext d i).1 := by
  unfold handleChangeTeam
  simp only [Database.UpdateUserTeam]
  repeat' split
  all_goals first
    | exact Evolves.refl d
    | exact Evolves.updateUserTeam (Evolves.refl d) _ _ _

theorem Evolves.replaceExisting (d : Database) (existingUser : Except DBError User)
    (discordID : String) :
    Evolves d (match existingUser with
      | .ok _ => (d.DeleteUser discordID).1
      | .error _ => d) := by
  cases existingUser with
  | ok _ => exact Evolves.deleteUser (Evolves.refl d) _
  | error _ => exact Evolves.refl d

theorem Evolves.of_markVerified {d d1 d2 : Database} {c : Prop} [Decidable c]
    {discordID team : String} {now : Nat} {o : Option DBError} (h : Evolves d d1)
    (heq : (if c then d1.UpdateUserTeam discordID team now
            else d1.MarkUserVerified discordID now) = (d2, o)) : Evolves d d2 := by
  split at heq
  · have := Evolves.updateUserTeam h discordID team now
    rw [heq] at this
    exact this
  · have := Evolves.markUserVerified h discordID now
    rw [heq] at this
    exact this

theorem handleManualVerify_evolves (lower : Char → Char) (cfg : Config) (ext : Ext)
    (d : Database) (i : InteractionCreate) :
    Evolves d (handleManualVerify lower cfg ext d i).1 := by
  unfold handleManualVerify
  dsimp only
  repeat' split
  all_goals first
    | exact Evolves.refl d
    | exact Evolves.of_createUser (Evolves.replaceExisting d _ _) ⟨ext, by assumption⟩
        (by assumption)
    | exact Evolves.of_markVerified
        (Evolves.of_createUser (Evolves.replaceExisting d _ _) ⟨ext, by assumption⟩
          (by assumption)) (by assumption)

theorem handleStats_evolves (cfg : Config) (ext : Ext) (d : Database) (i : InteractionCreate) :
    Evolves d (handleStats cfg ext d i).1 := by
  unfold handleStats
  split
  · exact Evolves.refl d
  · exact Evolves.refl d

theorem handleList_evolves (cfg : Config) (ext : Ext) (d : Database) (i : InteractionCreate) :
    Evolves d (handleList cfg ext d i).1 := by
  unfold handleList
  dsimp only
  split
  · exact Evolves.refl d
  · split
    · exact Evolves.refl d
    · exact Evolves.refl d

theorem handleDomains_evolves (cfg : Config) (ext : Ext) (d : Database)
    (i : InteractionCreate) : Evolves d (handleDomains cfg ext d i).1 := by
  unfold handleDomains
  split
  · exact Evolves.refl d
  · exact Evolves.refl d

theorem handleHelp_evolves (cfg : Config) (ext : Ext) (d : Database) (i : InteractionCreate) :
    Evolves d (handleHelp cfg ext d i).1 :=
  Evolves.refl d

theorem onInteractionCreate_evolves (lower : Char → Char) (cfg : Config) (ext : Ext)
    (d : Database) (i : InteractionCreate) :
    Evolves d (onInteractionCreate lower cfg ext d i).1 := by
  unfold onInteractionCreate
  by_cases h0 : i.InteractionType ≠ InteractionApplicationCommand
  · rw [if_pos h0]; exact Evolves.refl d
  rw [if_neg h0]
  by_cases h1 : i.Name = "heimdall-stats"
  · rw [if_pos h1]; exact handleStats_evolves cfg ext d i
  rw [if_neg h1]
  by_cases h2 : i.Name = "heimdall-list"
  · rw [if_pos h2]; exact handleList_evolves cfg ext d i
  rw [if_neg h2]
  by_cases h3 : i.Name = "heimdall-reset"
  · rw [if_pos h3]; exact handleReset_evolves cfg ext d i
  rw [if_neg h3]
  by_cases h4 : i.Name = "heimdall-verify"
  · rw [if_pos h4]; exact handleManualVerify_evolves lower cfg ext d i
  rw [if_neg h4]
  by_cases h5 : i.Name = "heimdall-changeteam"
  · rw [if_pos h5]; exact handleChangeTeam_evolves cfg ext d i
  rw [if_neg h5]
  by_cases h6 : i.Name = "heimdall-restrict"
  · rw [if_pos h6]; exact handleRestrict_evolves cfg ext d i
  rw [if_neg h6]
  by_cases h7 : i.Name = "heimdall-unrestrict"
  · rw [if_pos h7]; exact handleUnrestrict_evolves cfg ext d i
  rw [if_neg h7]
  by_cases h8 : i.Name = "heimdall-domains"
  · rw [if_pos h8]; exact handleDomains_evolves cfg ext d i
  rw [if_neg h8]
  by_cases h9 : i.Name = "heimdall-purge"
  · rw [if_pos h9]; exact handlePurge_evolves cfg ext d i
  rw [if_neg h9]
  by_cases h10 : i.Name = "heimdall-help"
  · rw [if_pos h10]; exact handleHelp_evolves cfg ext d i
  rw [if_neg h10]
  exact Evolves.refl d

theorem step_evolves (lower : Char → Char) (cfg : Config) (ext : Ext) (d : Database)
    (e : Event) : Evolves d (step lower cfg ext d e) := by
  cases e with
  | memberAdd user => exact onGuildMemberAdd_evolves cfg ext d user
  | message m => exact onMessageCreate_evolves lower cfg ext d m
  | interaction i => exact onInteractionCreate_evolves lower cfg ext d i
  | getVerify r => exact handleVerify_evolves cfg d r
  | postAPIVerify r => exact handleAPIVerify_evolves cfg ext d r

theorem Reachable.evolves {lower : Char → Char} {cfg : Config} {d : Database}
    (h : Reachable lower cfg d) : Evolves Database.empty d := by
  induction h with
  | init => exact Evolves.refl _
  | step ext e _ ih => exact Relation.ReflTransGen.trans ih (step_evolves lower cfg ext _ e)

theorem Reachable.uniqueKeys {lower : Char → Char} {cfg : Config} {d : Database}
    (h : Reachable lower cfg d) : UniqueKeys d :=
  h.evolves.keepsUniqueKeys List.Pairwise.nil

theorem Reachable.codesGenerated {lower : Char → Char} {cfg : Config} {d : Database}
    (h : Reachable lower cfg d) : CodesGenerated d :=
  h.evolves.keepsCodesGenerated (fun _ hr => by simp [Database.empty] at hr)

/-! ## Lookups in a store that satisfies the schema constraints -/

theorem find_of_pairwise {k : Row → String} : ∀ {l : List Row},
    l.Pairwise (fun a b => k a ≠ k b) → ∀ {r : Row}, r ∈ l →
    l.find? (fun x => k x == k r) = some r
  | [], _, _, hr => by simp at hr
  | a :: l, h, r, hr => by
    rw [List.pairwise_cons] at h
    by_cases ha : a = r
    · subst ha
      simp [List.find?]
    · have hr2 : r ∈ l := by
        rcases List.mem_cons.mp hr with h1 | h1
        · exact absurd h1.symm ha
        · exact h1
      have hk : (k a == k r) = false := by simpa using h.1 r hr2
      rw [List.find?, hk]
      exact find_of_pairwise h.2 hr2

theorem find_none_of_forall {p : Row → Bool} {l : List Row} (h : ∀ x ∈ l, p x = false) :
    l.find? p = none := by
  rw [List.find?_eq_none]
  intro x hx
  simp [h x hx]

theorem UniqueKeys.byDiscordID {d : Database} (hu : UniqueKeys d) {r : Row} (hr : r ∈ d.rows) :
    d.GetUserByDiscordID r.discord_id = .ok (scanUser r) := by
  unfold Database.GetUserByDiscordID
  rw [find_of_pairwise (k := fun x => x.discord_id) (hu.imp (fun h => h.1)) hr]

theorem UniqueKeys.byEmail {d : Database} (hu : UniqueKeys d) {r : Row} (hr : r ∈ d.rows) :
    d.GetUserByEmail r.email = .ok (scanUser r) := by
  unfold Database.GetUserByEmail
  rw [find_of_pairwise (k := fun x => x.email) (hu.imp (fun h => h.2.1)) hr]

theorem UniqueKeys.byCode {d : Database} (hu : UniqueKeys d) {r : Row} (hr : r ∈ d.rows) :
    d.GetUserByVerificationCode r.verification_code = .ok (scanUserByCode r) := by
  unfold Database.GetUserByVerificationCode
  rw [find_of_pairwise (k := fun x => x.verification_code) (hu.imp (fun h => h.2.2)) hr]

theorem UniqueKeys.eq_of_discord_id {d : Database} (hu : UniqueKeys d) {r x : Row}
    (hr : r ∈ d.rows) (hx : x ∈ d.rows) (h : x.discord_id = r.discord_id) : x = r := by
  have h1 := find_of_pairwise (k := fun x => x.discord_id) (hu.imp (fun h => h.1)) hr
  have h2 := find_of_pairwise (k := fun x => x.discord_id) (hu.imp (fun h => h.1)) hx
  simp only [h] at h2
  rw [h1] at h2
  exact (Option.some.inj h2).symm

theorem UniqueKeys.update_eq {d : Database} (hu : UniqueKeys d) {r : Row} (hr : r ∈ d.rows)
    (f : Row → Row) :
    d.update r.discord_id f =
      { d with rows := d.rows.map (fun x => if x = r then f r else x) } := by
  unfold Database.update
  congr 1
  apply List.map_congr_left
  intro x hx
  by_cases hxr : x = r
  · subst hxr; simp
  · have : x.discord_id ≠ r.discord_id := fun h => hxr (hu.eq_of_discord_id hr hx h)
    simp [hxr, this]

theorem UniqueKeys.delete_eq {d : Database} (hu : UniqueKeys d) {r : Row} (hr : r ∈ d.rows) :
    (d.DeleteUser r.discord_id).1 =
      { d with rows := d.rows.filter (fun x => decide (x ≠ r)) } := by
  unfold Database.DeleteUser
  show Database.mk _ _ = Database.mk _ _
  congr 1
  apply List.filter_congr
  intro x hx
  by_cases hxr : x = r
  · subst hxr; simp
  · have : x.discord_id ≠ r.discord_id := fun h => hxr (hu.eq_of_discord_id hr hx h)
    simp [hxr, this]

theorem lookup_row {d : Database} {k : Row → String} {key : String} {r : Row}
    (h : d.rows.find? (fun x => k x == key) = some r) : r ∈ d.rows ∧ k r = key := by
  have h1 := List.find?_some h
  exact ⟨List.mem_of_find?_eq_some h, by simpa using h1⟩

/-! ## Web completion -/

theorem Row.state_pending {r : Row} (h : r.state = State.Pending) :
    r.verified = false ∧ r.unverified = false := by
  unfold Row.state at h
  cases hv : r.verified <;> cases hu : r.unverified <;> simp [hv, hu] at h ⊢

theorem Row.state_verified {r : Row} : r.state = State.Verified ↔ r.verified = true := by
  unfold Row.state
  cases hv : r.verified <;> cases hu : r.unverified <;> simp

theorem Row.state_restricted {r : Row} :
    r.state = State.Restricted ↔ r.verified = false ∧ r.unverified = true := by
  unfold Row.state
  cases hv : r.verified <;> cases hu : r.unverified <;> simp

/-- C6 (amended). In every reachable store state, `POST /api/verify` with the code of a
Pending record and a non-empty team that is in the configured mapping answers the success
JSON; the record becomes Verified with `team_role` the submitted team and `verified_at` the
current time, every other row and the id counter are unchanged, and the grants for the
members role and the team role are issued. Nothing depends on the outcome of the grants:
the statement holds for every `ext`. -/
theorem handleAPIVerify_pending (lower : Char → Char) (cfg : Config) (ext : Ext) (d : Database)
    (req : Request) (r : Row) (team roleID : String)
    (hreach : Reachable lower cfg d) (hr : r ∈ d.rows) (hp : r.state = State.Pending)
    (hm : req.Method = "POST")
    (hb : req.Body = some { Code := r.verification_code, Team := team })
    (hne : team ≠ "") (ht : cfg.team team = some roleID) :
    handleAPIVerify cfg ext d req =
      ({ d with rows := d.rows.map (fun x =>
          if x = r then
            { r with team_role := some team, verified := true, verified_at := some ext.now }
          else x) },
       successJSON,
       assignMembersRole cfg r.discord_id ++
         [AssignRole cfg r.discord_id roleID,
          Effect.SendDM r.discord_id
            ("✅ Verification complete! Welcome to the " ++ team ++
              " team. You now have access to the server.")]) ∧
    ({ r with team_role := some team, verified := true,
              verified_at := some ext.now } : Row).state = State.Verified := by
  have hu := hreach.uniqueKeys
  have hcode : r.verification_code ≠ "" := by
    intro h
    have := hreach.codesGenerated r hr
    rw [h] at this
    simp at this
  refine ⟨?_, Row.state_verified.mpr rfl⟩
  unfold handleAPIVerify
  simp only [hm, hb, hu.byCode hr, ht, Database.UpdateUserTeam, scanUserByCode,
    (Row.state_pending hp).1, hcode, hne, ne_eq, not_true_eq_false, if_false, or_self,
    Bool.false_eq_true]
  rw [hu.update_eq hr]
  rfl

theorem handleAPIVerify_verified_rejected (cfg : Config) (ext : Ext) (d : Database)
    (req : Request) (r : Row) (team : String) (hu : UniqueKeys d) (hr : r ∈ d.rows)
    (hv : r.verified = true) (hm : req.Method = "POST")
    (hb : req.Body = some { Code := r.verification_code, Team := team }) :
    (handleAPIVerify cfg ext d req).2.1.status = 400 ∧
    (handleAPIVerify cfg ext d req).1 = d ∧ (handleAPIVerify cfg ext d req).2.2 = [] := by
  unfold handleAPIVerify
  by_cases he : r.verification_code = "" ∨ team = ""
  · simp [hm, hb, he, httpError]
  · simp [hm, hb, he, hu.byCode hr, scanUserByCode, hv, httpError]

theorem handleAPIVerify_restricted_accepted (cfg : Config) (ext : Ext) (d : Database)
    (req : Request) (r : Row) (team roleID : String) (hu : UniqueKeys d) (hr : r ∈ d.rows)
    (hs : r.state = State.Restricted) (hm : req.Method = "POST")
    (hb : req.Body = some { Code := r.verification_code, Team := team })
    (hc : r.verification_code ≠ "") (hne : team ≠ "") (ht : cfg.team team = some roleID) :
    (handleAPIVerify cfg ext d req).2.1 = successJSON ∧
    (handleAPIVerify cfg ext d req).1 =
      { d with rows := d.rows.map (fun x =>
          if x = r then
            { r with team_role := some team, verified := true, verified_at := some ext.now }
          else x) } := by
  unfold handleAPIVerify
  simp only [hm, hb, hu.byCode hr, ht, Database.UpdateUserTeam, scanUserByCode,
    (Row.state_restricted.mp hs).1, hc, hne, ne_eq, not_true_eq_false, if_false, or_self,
    Bool.false_eq_true]
  rw [hu.update_eq hr]
  exact ⟨rfl, rfl⟩

/-- C7. `POST /api/verify` answers 405 for a method other than POST; then 400 for an
undecodable body; then 400 for an empty code or team; then 404 for a code that matches no
record; then 400 for a record already verified; then 400 for a team absent from the mapping.
Each case assumes only that the earlier checks passed. Every answer other than 200 leaves the
store unchanged and makes no outside call, so no role is granted. -/
theorem handleAPIVerify_rejections (cfg : Config) (ext : Ext) (d : Database) (r : Request) :
    (r.Method ≠ "POST" → (handleAPIVerify cfg ext d r).2.1.status = 405) ∧
    (r.Method = "POST" → r.Body = none → (handleAPIVerify cfg ext d r).2.1.status = 400) ∧
    (∀ req, r.Method = "POST" → r.Body = some req → req.Code = "" ∨ req.Team = "" →
      (handleAPIVerify cfg ext d r).2.1.status = 400) ∧
    (∀ req err, r.Method = "POST" → r.Body = some req → req.Code ≠ "" → req.Team ≠ "" →
      d.GetUserByVerificationCode req.Code = .error err →
      (handleAPIVerify cfg ext d r).2.1.status = 404) ∧
    (∀ req user, r.Method = "POST" → r.Body = some req → req.Code ≠ "" → req.Team ≠ "" →
      d.GetUserByVerificationCode req.Code = .ok user → user.Verified = true →
      (handleAPIVerify cfg ext d r).2.1.status = 400) ∧
    (∀ req user, r.Method = "POST" → r.Body = some req → req.Code ≠ "" → req.Team ≠ "" →
      d.GetUserByVerificationCode req.Code = .ok user → user.Verified = false →
      cfg.team req.Team = none →
      (handleAPIVerify cfg ext d r).2.1.status = 400) ∧
    ((handleAPIVerify cfg ext d r).2.1.status ≠ 200 →
      (handleAPIVerify cfg ext d r).1 = d ∧ (handleAPIVerify cfg ext d r).2.2 = []) := by
  refine ⟨?_, ?_, ?_, ?_, ?_, ?_, ?_⟩
  · intro h; simp [handleAPIVerify, h, httpError]
  · intro h1 h2; simp [handleAPIVerify, h1, h2, httpError]
  · intro req h1 h2 h3; simp [handleAPIVerify, h1, h2, h3, httpError]
  · intro req err h1 h2 h3 h4 h5; simp [handleAPIVerify, h1, h2, h3, h4, h5, httpError]
  · intro req user h1 h2 h3 h4 h5 h6
    simp [handleAPIVerify, h1, h2, h3, h4, h5, h6, httpError]
  · intro req user h1 h2 h3 h4 h5 h6 h7
    simp [handleAPIVerify, h1, h2, h3, h4, h5, h6, h7, httpError]
  · unfold handleAPIVerify
    simp only [Database.UpdateUserTeam]
    repeat' split
    all_goals simp [httpError]

/-- C8. `GET /verify` answers 400 when the `code` parameter is empty and 404 when no row has
that code; for the matching row it renders the already-verified view when the row is
Verified and the team-choice view otherwise; it never changes the store and makes no
outside call. -/
theorem handleVerify_views (cfg : Config) (d : Database) (r : Request) :
    (r.QueryCode = "" → (handleVerify cfg d r).2.1.status = 400) ∧
    (r.QueryCode ≠ "" → (∀ x ∈ d.rows, x.verification_code ≠ r.QueryCode) →
      (handleVerify cfg d r).2.1.status = 404) ∧
    (∀ row, r.QueryCode ≠ "" →
      d.rows.find? (fun x => x.verification_code == r.QueryCode) = some row →
      (row.state = State.Verified →
        (handleVerify cfg d r).2.1 =
          { status := 200, body := ResponseBody.alreadyVerifiedPage (row.team_role.getD "") }) ∧
      (row.state ≠ State.Verified →
        (handleVerify cfg d r).2.1 =
          { status := 200,
            body := ResponseBody.verificationPage row.discord_username row.email cfg.Teams })) ∧
    (handleVerify cfg d r).1 = d ∧ (handleVerify cfg d r).2.2 = [] := by
  refine ⟨?_, ?_, ?_, ?_, ?_⟩
  · intro h; simp [handleVerify, h, httpError]
  · intro h1 h2
    have : d.rows.find? (fun x => x.verification_code == r.QueryCode) = none :=
      find_none_of_forall (fun x hx => by simpa using h2 x hx)
    simp [handleVerify, h1, Database.GetUserByVerificationCode, this, httpError]
  · intro row h1 h2
    constructor
    · intro hs
      simp [handleVerify, h1, Database.GetUserByVerificationCode, h2, scanUserByCode,
        Row.state_verified.mp hs]
    · intro hs
      have : row.verified = false := by
        cases hv : row.verified
        · rfl
        · exact absurd (Row.state_verified.mpr hv) hs
      simp [handleVerify, h1, Database.GetUserByVerificationCode, h2, scanUserByCode, this]
  · unfold handleVerify
    dsimp only
    repeat' split
    all_goals rfl
  · unfold handleVerify
    dsimp only
    repeat' split
    all_goals rfl


/-! ## Purge and reset -/

theorem completed_append (a b : List Effect) :
    completed (a ++ b) = (completed a || completed b) := by
  simp [completed, List.any_append]

theorem completed_removeRoles (cfg : Config) (userID teamRole : String) :
    completed (removeRoles cfg userID teamRole) = false := by
  unfold removeRoles
  rw [completed_append]
  cases cfg.team teamRole <;> by_cases h : cfg.Discord.MembersRole = "" <;>
    simp [completed, h]

theorem completed_assignMembersRole (cfg : Config) (userID : String) :
    completed (assignMembersRole cfg userID) = false := by
  unfold assignMembersRole
  by_cases h : cfg.Discord.MembersRole = "" <;> simp [completed, h, AssignRole]

theorem GetUserByDiscordID_ok {d : Database} {discordID : String} {user : User}
    (h : d.GetUserByDiscordID discordID = .ok user) :
    ∃ r ∈ d.rows, r.discord_id = discordID ∧ user = scanUser r := by
  unfold Database.GetUserByDiscordID at h
  cases hf : d.rows.find? (fun r => r.discord_id == discordID) with
  | none => simp [hf] at h
  | some r =>
    simp only [hf, Except.ok.injEq] at h
    have := lookup_row (k := fun x => x.discord_id) hf
    exact ⟨r, this.1, this.2, h.symm⟩

theorem GetUserByEmail_ok {d : Database} {email : String} {user : User}
    (h : d.GetUserByEmail email = .ok user) :
    ∃ r ∈ d.rows, r.email = email ∧ user = scanUser r := by
  unfold Database.GetUserByEmail at h
  cases hf : d.rows.find? (fun r => r.email == email) with
  | none => simp [hf] at h
  | some r =>
    simp only [hf, Except.ok.injEq] at h
    have := lookup_row (k := fun x => x.email) hf
    exact ⟨r, this.1, this.2, h.symm⟩

theorem purgeLookup_ok {d : Database} : ∀ {opts : List CommandOption} {user : User}
    {ty ident : String}, purgeLookup d opts = some (.ok user, ty, ident) →
    ∃ r ∈ d.rows, user = scanUser r
  | [], _, _, _, h => by simp [purgeLookup] at h
  | o :: rest, user, ty, ident, h => by
    unfold purgeLookup at h
    split at h
    · simp only [Option.some.injEq, Prod.mk.injEq] at h
      obtain ⟨r, hr, -, hu⟩ := GetUserByDiscordID_ok h.1
      exact ⟨r, hr, hu⟩
    · split at h
      · simp only [Option.some.injEq, Prod.mk.injEq] at h
        obtain ⟨r, hr, -, hu⟩ := GetUserByEmail_ok h.1
        exact ⟨r, hr, hu⟩
      · exact purgeLookup_ok h

theorem UniqueKeys.erased {d : Database} (hu : UniqueKeys d) {r : Row} (hr : r ∈ d.rows) :
    Erased d (d.DeleteUser r.discord_id).1 r := by
  rw [hu.delete_eq hr]
  have key : ∀ x ∈ d.rows.filter (fun x => decide (x ≠ r)),
      x.discord_id ≠ r.discord_id ∧ x.email ≠ r.email ∧
        x.verification_code ≠ r.verification_code := by
    intro x hx
    simp only [List.mem_filter, decide_eq_true_eq] at hx
    have h1 := find_of_pairwise (k := fun x => x.discord_id) (hu.imp (fun h => h.1)) hx.1
    have h2 := find_of_pairwise (k := fun x => x.email) (hu.imp (fun h => h.2.1)) hx.1
    have h3 := find_of_pairwise (k := fun x => x.verification_code)
      (hu.imp (fun h => h.2.2)) hx.1
    have g1 := find_of_pairwise (k := fun x => x.discord_id) (hu.imp (fun h => h.1)) hr
    have g2 := find_of_pairwise (k := fun x => x.email) (hu.imp (fun h => h.2.1)) hr
    have g3 := find_of_pairwise (k := fun x => x.verification_code)
      (hu.imp (fun h => h.2.2)) hr
    refine ⟨?_, ?_, ?_⟩
    · intro h
      simp only [h] at h1
      rw [g1] at h1
      exact hx.2 (Option.some.inj h1).symm
    · intro h
      simp only [h] at h2
      rw [g2] at h2
      exact hx.2 (Option.some.inj h2).symm
    · intro h
      simp only [h] at h3
      rw [g3] at h3
      exact hx.2 (Option.some.inj h3).symm
  refine ⟨?_, ?_, ?_, rfl, rfl⟩
  · unfold Database.GetUserByDiscordID
    rw [find_none_of_forall (fun x hx => by simpa using (key x hx).1)]
  · unfold Database.GetUserByEmail
    rw [find_none_of_forall (fun x hx => by simpa using (key x hx).2.1)]
  · unfold Database.GetUserByVerificationCode
    rw [find_none_of_forall (fun x hx => by simpa using (key x hx).2.2)]

theorem handlePurge_found {cfg : Config} {ext : Ext} {d : Database} {i : InteractionCreate}
    {user : User} {ty ident : String} (ha : isAdmin cfg ext i.Member = true)
    (hl : purgeLookup d i.Options = some (.ok user, ty, ident)) :
    (handlePurge cfg ext d i).1 = (d.DeleteUser user.DiscordID).1 ∧
    completed (handlePurge cfg ext d i).2 = true := by
  have hne : i.Options.length ≠ 0 := by
    intro h
    rw [List.length_eq_zero] at h
    simp [h, purgeLookup] at hl
  unfold handlePurge
  simp [ha, hne, hl, Database.DeleteUser, completed]

theorem handlePurge_completed {cfg : Config} {ext : Ext} {d : Database} {i : InteractionCreate}
    (h : completed (handlePurge cfg ext d i).2 = true) :
    isAdmin cfg ext i.Member = true ∧
    ∃ user ty ident, purgeLookup d i.Options = some (.ok user, ty, ident) := by
  by_cases ha : isAdmin cfg ext i.Member = true
  swap
  · simp [handlePurge, ha, completed, permissionDenied] at h
  refine ⟨ha, ?_⟩
  by_cases hn : i.Options.length = 0
  · simp [handlePurge, ha, hn, completed] at h
  cases hl : purgeLookup d i.Options with
  | none => simp [handlePurge, ha, hn, hl, completed] at h
  | some res =>
    obtain ⟨res1, ty, ident⟩ := res
    cases res1 with
    | error e => cases e <;> simp [handlePurge, ha, hn, hl, completed] at h
    | ok user => exact ⟨user, ty, ident, rfl⟩

theorem handleReset_found {cfg : Config} {ext : Ext} {d : Database} {i : InteractionCreate}
    {o : CommandOption} {user : User} (ha : isAdmin cfg ext i.Member = true)
    (ho : i.Options[0]? = some o) (hl : d.GetUserByDiscordID o.UserValue.ID = .ok user) :
    (handleReset cfg ext d i).1 = (d.DeleteUser o.UserValue.ID).1 ∧
    completed (handleReset cfg ext d i).2 = true := by
  unfold handleReset
  simp [ha, ho, hl, Database.DeleteUser, completed]

theorem handleReset_completed {cfg : Config} {ext : Ext} {d : Database} {i : InteractionCreate}
    (h : completed (handleReset cfg ext d i).2 = true) :
    isAdmin cfg ext i.Member = true ∧
    ∃ o user, i.Options[0]? = some o ∧ d.GetUserByDiscordID o.UserValue.ID = .ok user := by
  by_cases ha : isAdmin cfg ext i.Member = true
  swap
  · simp [handleReset, ha, completed, permissionDenied] at h
  refine ⟨ha, ?_⟩
  cases ho : i.Options[0]? with
  | none => simp [handleReset, ha, ho, completed] at h
  | some o =>
    cases hl : d.GetUserByDiscordID o.UserValue.ID with
    | error e => cases e <;> simp [handleReset, ha, ho, hl, completed] at h
    | ok user => exact ⟨o, user, rfl, hl⟩

/-- C9. In a store that satisfies the UNIQUE constraints (every reachable store does, by
`Reachable.uniqueKeys`), a purge or a reset that ran to completion erased the record it
looked up: lookups by that record's platform ID, email and verification code return
`ErrNoRows` and every other row is unchanged. A purge by platform ID, a purge by email and a
reset issued by an admin for an existing record do run to completion. -/
theorem purge_reset_erase (cfg : Config) (ext : Ext) (d : Database) (i : InteractionCreate)
    (hu : UniqueKeys d) :
    (completed (handlePurge cfg ext d i).2 = true →
      ∃ r ∈ d.rows,
        (∃ ty ident, purgeLookup d i.Options = some (.ok (scanUser r), ty, ident)) ∧
        Erased d (handlePurge cfg ext d i).1 r) ∧
    (completed (handleReset cfg ext d i).2 = true →
      ∃ r ∈ d.rows, (∃ o, i.Options[0]? = some o ∧ o.UserValue.ID = r.discord_id) ∧
        Erased d (handleReset cfg ext d i).1 r) ∧
    (∀ o rest r, isAdmin cfg ext i.Member = true → i.Options = o :: rest → r ∈ d.rows →
      (o.Name = "user" ∧ o.UserValue.ID = r.discord_id ∨
        o.Name ≠ "user" ∧ o.Name = "email" ∧ o.StringValue = r.email) →
      completed (handlePurge cfg ext d i).2 = true ∧ Erased d (handlePurge cfg ext d i).1 r) ∧
    (∀ o r, isAdmin cfg ext i.Member = true → i.Options[0]? = some o → r ∈ d.rows →
      o.UserValue.ID = r.discord_id →
      completed (handleReset cfg ext d i).2 = true ∧ Erased d (handleReset cfg ext d i).1 r) := by
  refine ⟨?_, ?_, ?_, ?_⟩
  · intro h
    obtain ⟨ha, user, ty, ident, hl⟩ := handlePurge_completed h
    obtain ⟨r, hr, rfl⟩ := purgeLookup_ok hl
    refine ⟨r, hr, ⟨ty, ident, hl⟩, ?_⟩
    rw [(handlePurge_found ha hl).1]
    exact hu.erased hr
  · intro h
    obtain ⟨ha, o, user, ho, hl⟩ := handleReset_completed h
    obtain ⟨r, hr, hid, rfl⟩ := GetUserByDiscordID_ok hl
    refine ⟨r, hr, ⟨o, ho, hid.symm⟩, ?_⟩
    rw [(handleReset_found ha ho hl).1, ← hid]
    exact hu.erased hr
  · intro o rest r ha hopts hr hkey
    have hl : ∃ ty ident, purgeLookup d i.Options = some (.ok (scanUser r), ty, ident) := by
      rw [hopts]
      rcases hkey with ⟨h1, h2⟩ | ⟨h1, h2, h3⟩
      · exact ⟨"Discord user", o.UserValue.Username,
          by simp [purgeLookup, h1, h2, hu.byDiscordID hr]⟩
      · exact ⟨"email", o.StringValue, by simp [purgeLookup, h1, h2, h3, hu.byEmail hr]⟩
    obtain ⟨ty, ident, hl⟩ := hl
    have := handlePurge_found ha hl
    refine ⟨this.2, ?_⟩
    rw [this.1]
    exact hu.erased hr
  · intro o r ha ho hr hid
    have hl := hu.byDiscordID hr
    rw [← hid] at hl
    have := handleReset_found ha ho hl
    refine ⟨this.2, ?_⟩
    rw [this.1, hid]
    exact hu.erased hr

/-! ## Restrict and unrestrict -/

theorem handleRestrict_completed {cfg : Config} {ext : Ext} {d : Database}
    {i : InteractionCreate} (h : completed (handleRestrict cfg ext d i).2 = true) :
    ∃ o user, i.Options[0]? = some o ∧ d.GetUserByDiscordID o.UserValue.ID = .ok user ∧
      user.Verified = true ∧ user.Unverified = false ∧
      (handleRestrict cfg ext d i).1 = (d.UnverifyUser o.UserValue.ID).1 := by
  by_cases ha : isAdmin cfg ext i.Member = true
  swap
  · simp [handleRestrict, ha, completed, permissionDenied] at h
  cases ho : i.Options[0]? with
  | none => simp [handleRestrict, ha, ho, completed] at h
  | some o =>
    cases hl : d.GetUserByDiscordID o.UserValue.ID with
    | error e => cases e <;> simp [handleRestrict, ha, ho, hl, completed] at h
    | ok user =>
      cases hv : user.Verified with
      | false => simp [handleRestrict, ha, ho, hl, hv, completed] at h
      | true =>
        cases hn : user.Unverified with
        | true => simp [handleRestrict, ha, ho, hl, hv, hn, completed] at h
        | false =>
          refine ⟨o, user, rfl, hl, hv, hn, ?_⟩
          simp [handleRestrict, ha, ho, hl, hv, hn, Database.UnverifyUser]

theorem handleUnrestrict_completed {cfg : Config} {ext : Ext} {d : Database}
    {i : InteractionCreate} (h : completed (handleUnrestrict cfg ext d i).2 = true) :
    ∃ o user, i.Options[0]? = some o ∧ d.GetUserByDiscordID o.UserValue.ID = .ok user ∧
      user.Unverified = true ∧
      (handleUnrestrict cfg ext d i).1 = (d.ReverifyUser o.UserValue.ID ext.now).1 := by
  by_cases ha : isAdmin cfg ext i.Member = true
  swap
  · simp [handleUnrestrict, ha, completed, permissionDenied] at h
  cases ho : i.Options[0]? with
  | none => simp [handleUnrestrict, ha, ho, completed] at h
  | some o =>
    cases hl : d.GetUserByDiscordID o.UserValue.ID with
    | error e => cases e <;> simp [handleUnrestrict, ha, ho, hl, completed] at h
    | ok user =>
      cases hn : user.Unverified with
      | false => simp [handleUnrestrict, ha, ho, hl, hn, completed] at h
      | true =>
        refine ⟨o, user, rfl, hl, hn, ?_⟩
        cases ht : cfg.team user.TeamRole with
        | none => simp [handleUnrestrict, ha, ho, hl, hn, ht, Database.ReverifyUser]
        | some roleID =>
          cases hok : assignRoleOk cfg ext o.UserValue.ID roleID with
          | false =>
            simp only [handleUnrestrict, ha, ho, hl, hn, ht, hok, completed_append,
              completed_assignMembersRole, Bool.not_true, Bool.not_false, if_true, if_false,
              Bool.false_eq_true, List.append_assoc, Bool.false_or] at h
            simp [completed, AssignRole] at h
          | true => simp [handleUnrestrict, ha, ho, hl, hn, ht, hok, Database.ReverifyUser]

theorem UniqueKeys.update {d : Database} (hu : UniqueKeys d) (discordID : String)
    {f : Row → Row} (hf : KeepsKeys f) : UniqueKeys (d.update discordID f) :=
  hu.afterStatement (DBStep.update d discordID f hf)

theorem UniqueKeys.lookup_update {d : Database} (hu : UniqueKeys d) {r : Row}
    (hr : r ∈ d.rows) {f : Row → Row} (hf : KeepsKeys f) :
    (d.update r.discord_id f).GetUserByDiscordID r.discord_id = .ok (scanUser (f r)) := by
  have hu2 := hu.update r.discord_id hf
  have hmem : f r ∈ (d.update r.discord_id f).rows := by
    rw [hu.update_eq hr]
    exact List.mem_map.mpr ⟨r, hr, by simp⟩
  have := hu2.byDiscordID hmem
  rw [(hf r).1] at this
  exact this

/-- C10. For a Verified record `r` in a store that satisfies the UNIQUE constraints, a
restrict that ran to completion followed by an unrestrict that ran to completion: the
restrict turns `r` into a Restricted record (not Pending) and touches no other row; after
the unrestrict the record is Verified again, differs from `r` only in `verified_at`, and
the lookup by platform ID returns the same team, email and verification code as before. -/
theorem restrict_unrestrict_roundtrip (cfg : Config) (ext1 ext2 : Ext) (d : Database)
    (i1 i2 : InteractionCreate) (o1 o2 : CommandOption) (r : Row)
    (hu : UniqueKeys d) (hr : r ∈ d.rows) (hv : r.state = State.Verified)
    (h1 : i1.Options[0]? = some o1) (hid1 : o1.UserValue.ID = r.discord_id)
    (h2 : i2.Options[0]? = some o2) (hid2 : o2.UserValue.ID = r.discord_id)
    (hs1 : completed (handleRestrict cfg ext1 d i1).2 = true)
    (hs2 : completed (handleUnrestrict cfg ext2 (handleRestrict cfg ext1 d i1).1 i2).2 = true) :
    (handleRestrict cfg ext1 d i1).1 =
      { d with rows := d.rows.map (fun x =>
          if x = r then { r with verified := false, unverified := true } else x) } ∧
    ({ r with verified := false, unverified := true } : Row).state = State.Restricted ∧
    (handleUnrestrict cfg ext2 (handleRestrict cfg ext1 d i1).1 i2).1 =
      { d with rows := d.rows.map (fun x =>
          if x = r then
            { r with verified := true, unverified := false, verified_at := some ext2.now }
          else x) } ∧
    ({ r with verified := true, unverified := false,
              verified_at := some ext2.now } : Row).state = State.Verified ∧
    (handleUnrestrict cfg ext2 (handleRestrict cfg ext1 d i1).1 i2).1.GetUserByDiscordID
        r.discord_id =
      .ok { scanUser r with Verified := true, Unverified := false,
                            VerifiedAt := some ext2.now } := by
  obtain ⟨o, user, ho, -, -, -, hd1⟩ := handleRestrict_completed hs1
  rw [h1] at ho
  cases ho
  rw [hd1] at hs2 ⊢
  obtain ⟨o, user, ho, -, -, hd2⟩ := handleUnrestrict_completed hs2
  rw [h2] at ho
  cases ho
  rw [hd2, hid1, hid2]
  have e1 : (d.UnverifyUser r.discord_id).1 =
      { d with rows := d.rows.map (fun x =>
          if x = r then { r with verified := false, unverified := true } else x) } := by
    unfold Database.UnverifyUser
    exact hu.update_eq hr _
  have e2 : ((d.UnverifyUser r.discord_id).1.ReverifyUser r.discord_id ext2.now).1 =
      { d with rows := d.rows.map (fun x =>
          if x = r then
            { r with verified := true, unverified := false, verified_at := some ext2.now }
          else x) } := by
    unfold Database.ReverifyUser Database.UnverifyUser Database.update
    simp only [List.map_map]
    congr 1
    apply List.map_congr_left
    intro x hx
    by_cases hxr : x = r
    · subst hxr
      simp
    · have : x.discord_id ≠ r.discord_id := fun h => hxr (hu.eq_of_discord_id hr hx h)
      simp [hxr, this]
  refine ⟨e1, Row.state_restricted.mpr ⟨rfl, rfl⟩, e2, Row.state_verified.mpr rfl, ?_⟩
  rw [e2]
  have e3 := hu.update_eq hr (fun x =>
    { x with verified := true, unverified := false, verified_at := some ext2.now })
  rw [← e3]
  exact hu.lookup_update hr (fun _ => ⟨rfl, rfl, rfl⟩)

/-! ## The sample run -/

theorem pendingStore_reachable (cfg : Config) (h : cfg.ApprovedDomains = ["acme.com"]) :
    Reachable asciiLower cfg pendingStore := by
  have h1 : Reachable asciiLower cfg (step asciiLower cfg {} Database.empty
      (Event.message aliceDM)) := Reachable.step {} (Event.message aliceDM) Reachable.init
  have h2 : step asciiLower cfg {} Database.empty (Event.message aliceDM) = pendingStore := by
    unfold step onMessageCreate
    rw [h]
    rfl
  rwa [h2] at h1

theorem verifiedStore_reachable : Reachable asciiLower sampleConfig verifiedStore :=
  Reachable.step {} (Event.postAPIVerify (postVerify sampleCode "red"))
    (pendingStore_reachable sampleConfig rfl)

theorem restrictedStore_reachable : Reachable asciiLower sampleConfig restrictedStore :=
  Reachable.step {} (Event.interaction (onAlice "heimdall-restrict")) verifiedStore_reachable

/-- C1 (code bug). The store `restrictedStore` is reachable (DM, web completion with team
`red`, moderator restrict) and alice's record in it is Restricted; `POST /api/verify` with
her old code and team `blue` is answered with the success JSON and rewrites her record:
`verified` is set again and the team becomes `blue`. -/
theorem handleAPIVerify_restricted_replay :
    Reachable asciiLower sampleConfig restrictedStore ∧
    (∃ r ∈ restrictedStore.rows, r.state = State.Restricted ∧
      r.verification_code = sampleCode) ∧
    (handleAPIVerify sampleConfig {} restrictedStore (postVerify sampleCode "blue")).2.1 =
      successJSON ∧
    (handleAPIVerify sampleConfig {} restrictedStore (postVerify sampleCode "blue")).1 =
      replayedStore ∧
    replayedStore ≠ restrictedStore :=
  ⟨restrictedStore_reachable, by decide, by decide, by decide, by decide⟩

/-- C2 (code bug). The store `replayedStore` is reachable (DM, web completion, restrict,
web completion again with the old code) and holds a record with both the `verified` and the
`unverified` flag set. -/
theorem reachable_verified_and_unverified :
    Reachable asciiLower sampleConfig replayedStore ∧
    ∃ r ∈ replayedStore.rows, r.verified = true ∧ r.unverified = true :=
  ⟨Reachable.step {} (Event.postAPIVerify (postVerify sampleCode "blue"))
    restrictedStore_reachable, by decide⟩

/-! ## Uniqueness, and the properties at sample inputs -/

/-- C5. `CreateUser` returns a constraint error and leaves the store unchanged whenever a
row already has the same platform ID, the same email or the same verification code;
otherwise it appends exactly one row, in state Pending, with the given fields; and in every
reachable store state platform IDs, emails and verification codes are pairwise distinct. -/
theorem CreateUser_enforces_uniqueness (lower : Char → Char) (cfg : Config) (d : Database)
    (discordID username email code : String) (now : Nat) :
    ((∃ r ∈ d.rows, r.discord_id = discordID ∨ r.email = email ∨
        r.verification_code = code) →
      d.CreateUser discordID username email code now = (d, some DBError.constraint)) ∧
    ((∀ r ∈ d.rows, r.discord_id ≠ discordID ∧ r.email ≠ email ∧
        r.verification_code ≠ code) →
      ∃ r, d.CreateUser discordID username email code now =
          ({ rows := d.rows ++ [r], seq := d.seq + 1 }, none) ∧
        r.state = State.Pending ∧ r.discord_id = discordID ∧
        r.discord_username = username ∧ r.email = email ∧ r.verification_code = code) ∧
    (Reachable lower cfg d →
      d.rows.Pairwise (fun a b => a.discord_id ≠ b.discord_id ∧ a.email ≠ b.email ∧
        a.verification_code ≠ b.verification_code)) :=
  ⟨CreateUser_conflict,
   fun h => ⟨_, CreateUser_fresh h, rfl, rfl, rfl, rfl, rfl⟩,
   fun h => h.uniqueKeys⟩

/-- Witness for C5: a second member with alice's email is refused, alice's first insert
succeeds, and the keys of the reachable store `verifiedStore` are distinct. -/
theorem CreateUser_enforces_uniqueness_witness :
    pendingStore.CreateUser "2002" "bob" "alice@acme.com" "ff" 5 =
      (pendingStore, some DBError.constraint) ∧
    (∃ r, Database.empty.CreateUser "1001" "alice" "alice@acme.com" sampleCode 0 =
          ({ rows := Database.empty.rows ++ [r], seq := Database.empty.seq + 1 }, none) ∧
        r.state = State.Pending ∧ r.discord_id = "1001" ∧
        r.discord_username = "alice" ∧ r.email = "alice@acme.com" ∧
        r.verification_code = sampleCode) ∧
    verifiedStore.rows.Pairwise (fun a b => a.discord_id ≠ b.discord_id ∧ a.email ≠ b.email ∧
        a.verification_code ≠ b.verification_code) :=
  ⟨(CreateUser_enforces_uniqueness asciiLower sampleConfig pendingStore
      "2002" "bob" "alice@acme.com" "ff" 5).1 ⟨aliceRow, by decide, by decide⟩,
   (CreateUser_enforces_uniqueness asciiLower sampleConfig Database.empty
      "1001" "alice" "alice@acme.com" sampleCode 0).2.1 (by decide),
   (CreateUser_enforces_uniqueness asciiLower sampleConfig verifiedStore
      "" "" "" "" 0).2.2 verifiedStore_reachable⟩

/-- Witness for C6 (amended): alice, Pending after her DM, posts her code with team `red`. -/
theorem handleAPIVerify_pending_witness :
    handleAPIVerify sampleConfig {} pendingStore (postVerify sampleCode "red") =
      (verifiedStore, successJSON,
       [Effect.GuildMemberRoleAdd "guild" "1001" "role-red",
        Effect.SendDM "1001"
          "✅ Verification complete! Welcome to the red team. You now have access to the server."]) ∧
    (∃ r ∈ verifiedStore.rows, r.state = State.Verified ∧ r.team_role = some "red" ∧
      r.verified_at = some 0) :=
  ⟨(handleAPIVerify_pending asciiLower sampleConfig {} pendingStore
      (postVerify sampleCode "red") aliceRow "red" "role-red"
      (pendingStore_reachable sampleConfig rfl) (by decide) (by decide) rfl rfl
      (by decide) (by decide)).1, by decide⟩

/-- C6 (as stated) fails when the mapping has a team named by the empty string: alice's
record is Pending, the posted code is hers and the posted team `""` is in the mapping, yet
the answer is 400 and the store is unchanged. -/
theorem handleAPIVerify_empty_team_counterexample :
    Reachable asciiLower emptyTeamConfig pendingStore ∧
    aliceRow ∈ pendingStore.rows ∧ aliceRow.state = State.Pending ∧
    emptyTeamConfig.team "" = some "role-x" ∧
    handleAPIVerify emptyTeamConfig {} pendingStore
        (postVerify aliceRow.verification_code "") =
      (pendingStore, httpError "Code and team are required" 400, []) :=
  ⟨pendingStore_reachable emptyTeamConfig rfl, by decide, by decide, by decide, by decide⟩

/-- Witness for C7: one request for each rejection, on the sample stores. -/
theorem handleAPIVerify_rejections_witness :
    (handleAPIVerify sampleConfig {} pendingStore { Method := "GET" }).2.1.status = 405 ∧
    (handleAPIVerify sampleConfig {} pendingStore { Method := "POST" }).2.1.status = 400 ∧
    (handleAPIVerify sampleConfig {} pendingStore (postVerify sampleCode "")).2.1.status = 400 ∧
    (handleAPIVerify sampleConfig {} pendingStore (postVerify "deadbeef" "red")).2.1.status
      = 404 ∧
    (handleAPIVerify sampleConfig {} verifiedStore (postVerify sampleCode "blue")).2.1.status
      = 400 ∧
    (handleAPIVerify sampleConfig {} pendingStore (postVerify sampleCode "green")).2.1.status
      = 400 ∧
    ((handleAPIVerify sampleConfig {} verifiedStore (postVerify sampleCode "blue")).1
        = verifiedStore ∧
      (handleAPIVerify sampleConfig {} verifiedStore (postVerify sampleCode "blue")).2.2 = []) :=
  ⟨(handleAPIVerify_rejections sampleConfig {} pendingStore { Method := "GET" }).1 (by decide),
   (handleAPIVerify_rejections sampleConfig {} pendingStore { Method := "POST" }).2.1 rfl rfl,
   (handleAPIVerify_rejections sampleConfig {} pendingStore
      (postVerify sampleCode "")).2.2.1 _ rfl rfl (Or.inr rfl),
   (handleAPIVerify_rejections sampleConfig {} pendingStore
      (postVerify "deadbeef" "red")).2.2.2.1 _ DBError.ErrNoRows rfl rfl (by decide) (by decide)
      rfl,
   (handleAPIVerify_rejections sampleConfig {} verifiedStore
      (postVerify sampleCode "blue")).2.2.2.2.1 _
      (scanUserByCode { aliceRow with team_role := some "red", verified := true,
                                      verified_at := some 0 })
      rfl rfl (by decide) (by decide) rfl rfl,
   (handleAPIVerify_rejections sampleConfig {} pendingStore
      (postVerify sampleCode "green")).2.2.2.2.2.1 _ (scanUserByCode aliceRow)
      rfl rfl (by decide) (by decide) rfl rfl (by decide),
   (handleAPIVerify_rejections sampleConfig {} verifiedStore
      (postVerify sampleCode "blue")).2.2.2.2.2.2 (by decide)⟩

/-- Witness for C8: an empty code, `code=deadbeef` on the empty store, a Verified record
and a Restricted record. -/
theorem handleVerify_views_witness :
    (handleVerify sampleConfig pendingStore { Method := "GET" }).2.1.status = 400 ∧
    (handleVerify sampleConfig Database.empty
      { Method := "GET", QueryCode := "deadbeef" }).2.1.status = 404 ∧
    (handleVerify sampleConfig verifiedStore { Method := "GET", QueryCode := sampleCode }).2.1 =
      { status := 200, body := ResponseBody.alreadyVerifiedPage "red" } ∧
    (handleVerify sampleConfig restrictedStore
      { Method := "GET", QueryCode := sampleCode }).2.1 =
      { status := 200,
        body := ResponseBody.verificationPage "alice" "alice@acme.com" sampleConfig.Teams } :=
  ⟨(handleVerify_views sampleConfig pendingStore { Method := "GET" }).1 rfl,
   (handleVerify_views sampleConfig Database.empty
      { Method := "GET", QueryCode := "deadbeef" }).2.1 (by decide) (by decide),
   ((handleVerify_views sampleConfig verifiedStore
      { Method := "GET", QueryCode := sampleCode }).2.2.1 _ (by decide) rfl).1 (by decide),
   ((handleVerify_views sampleConfig restrictedStore
      { Method := "GET", QueryCode := sampleCode }).2.2.1 _ (by decide) rfl).2 (by decide)⟩

/-- Witness for C9: purge of alice by user, reset of alice, purge of alice by email. -/
theorem purge_reset_erase_witness :
    (∃ r ∈ verifiedStore.rows,
      (∃ ty ident, purgeLookup verifiedStore (onAlice "heimdall-purge").Options =
        some (.ok (scanUser r), ty, ident)) ∧
      Erased verifiedStore
        (handlePurge sampleConfig {} verifiedStore (onAlice "heimdall-purge")).1 r) ∧
    (∃ r ∈ pendingStore.rows,
      (∃ o, (onAlice "heimdall-reset").Options[0]? = some o ∧ o.UserValue.ID = r.discord_id) ∧
      Erased pendingStore
        (handleReset sampleConfig {} pendingStore (onAlice "heimdall-reset")).1 r) ∧
    (completed (handlePurge sampleConfig {} restrictedStore purgeByEmail).2 = true ∧
      Erased restrictedStore (handlePurge sampleConfig {} restrictedStore purgeByEmail).1
        { aliceRow with team_role := some "red", verified := false, unverified := true,
                        verified_at := some 0 }) ∧
    (completed (handleReset sampleConfig {} pendingStore (onAlice "heimdall-reset")).2 = true ∧
      Erased pendingStore
        (handleReset sampleConfig {} pendingStore (onAlice "heimdall-reset")).1 aliceRow) :=
  ⟨(purge_reset_erase sampleConfig {} verifiedStore (onAlice "heimdall-purge")
      (by decide)).1 (by decide),
   (purge_reset_erase sampleConfig {} pendingStore (onAlice "heimdall-reset")
      (by decide)).2.1 (by decide),
   (purge_reset_erase sampleConfig {} restrictedStore purgeByEmail (by decide)).2.2.1
      _ [] _ (by decide) rfl (by decide) (Or.inr ⟨by decide, rfl, rfl⟩),
   (purge_reset_erase sampleConfig {} pendingStore (onAlice "heimdall-reset")
      (by decide)).2.2.2 _ aliceRow (by decide) rfl (by decide) rfl⟩

/-- Witness for C10: a moderator restricts and then unrestricts alice. -/
theorem restrict_unrestrict_roundtrip_witness :
    (handleRestrict sampleConfig {} verifiedStore (onAlice "heimdall-restrict")).1 =
      restrictedStore ∧
    (handleUnrestrict sampleConfig { now := 7 } restrictedStore
        (onAlice "heimdall-unrestrict")).1.GetUserByDiscordID "1001" =
      .ok { ID := 1, DiscordID := "1001", DiscordUsername := "alice",
            Email := "alice@acme.com", VerificationCode := sampleCode, TeamRole := "red",
            Verified := true, Unverified := false, CreatedAt := 0, VerifiedAt := some 7 } :=
  have h := restrict_unrestrict_roundtrip sampleConfig {} { now := 7 } verifiedStore
    (onAlice "heimdall-restrict") (onAlice "heimdall-unrestrict")
    { Name := "user", UserValue := alice } { Name := "user", UserValue := alice }
    { aliceRow with team_role := some "red", verified := true, verified_at := some 0 }
    (by decide) (by decide) (by decide) rfl rfl rfl rfl (by decide) (by decide)
  ⟨h.1, h.2.2.2.2⟩

/-! ## The DM handler -/

theorem GetUserByDiscordID_none {d : Database} {discordID : String}
    (h : ∀ r ∈ d.rows, r.discord_id ≠ discordID) :
    d.GetUserByDiscordID discordID = .error DBError.ErrNoRows := by
  unfold Database.GetUserByDiscordID
  rw [find_none_of_forall (fun x hx => by simpa using h x hx)]

theorem EmailExists_false {d : Database} {email : String}
    (h : ∀ r ∈ d.rows, r.email ≠ email) : d.EmailExists email = false := by
  unfold Database.EmailExists
  rw [List.any_eq_false]
  intro x hx
  simpa using h x hx

theorem DiscordIDExists_false {d : Database} {discordID : String}
    (h : ∀ r ∈ d.rows, r.discord_id ≠ discordID) : d.DiscordIDExists discordID = false := by
  unfold Database.DiscordIDExists
  rw [List.any_eq_false]
  intro x hx
  simpa using h x hx

theorem DiscordIDExists_of_mem {d : Database} {r : Row} (hr : r ∈ d.rows) :
    d.DiscordIDExists r.discord_id = true := by
  unfold Database.DiscordIDExists
  rw [List.any_eq_true]
  exact ⟨r, hr, by simp⟩

theorem EmailExists_of_mem {d : Database} {r : Row} (hr : r ∈ d.rows) :
    d.EmailExists r.email = true := by
  unfold Database.EmailExists
  rw [List.any_eq_true]
  exact ⟨r, hr, by simp⟩

theorem onMessageCreate_no_email_of_invalid (lower : Char → Char) (cfg : Config) (ext : Ext)
    (d : Database) (m : MessageCreate)
    (h : isValidEmail (submittedEmail lower m) = false ∨
      isApprovedDomain lower cfg.ApprovedDomains (submittedEmail lower m) = false) :
    (onMessageCreate lower cfg ext d m).1 = d ∧
    sendsVerificationEmail (onMessageCreate lower cfg ext d m).2 = false := by
  unfold submittedEmail at h
  unfold onMessageCreate
  dsimp only
  by_cases h1 : m.Author.Bot = true
  · simp [h1, sendsVerificationEmail]
  by_cases h2 : ext.Channel m.ChannelID = some ChannelTypeDM
  swap
  · simp [h1, h2, sendsVerificationEmail]
  by_cases h3 : foundAnd (d.GetUserByDiscordID m.Author.ID) (fun user => user.Verified) = true
  · simp [h1, h2, h3, sendsVerificationEmail]
  by_cases h4 : foundAnd (d.GetUserByDiscordID m.Author.ID) (fun user => user.Unverified) = true
  · simp [h1, h2, h3, h4, sendsVerificationEmail]
  rcases h with h | h
  · simp [h1, h2, h3, h4, h, sendsVerificationEmail]
  · by_cases h5 : isValidEmail (TrimSpace (ToLower lower m.Content)) = true
    · simp [h1, h2, h3, h4, h5, h, sendsVerificationEmail]
    · simp [h1, h2, h3, h4, h5, sendsVerificationEmail]

/-! ## The code is the hex encoding of the bytes read -/

theorem hexDigit_inj : ∀ x < 16, ∀ y < 16, hexDigit x = hexDigit y → x = y := by
  decide

theorem hexPair_inj {a b : Nat}
    (h : [hexDigit (a % 256 / 16), hexDigit (a % 16)] =
      [hexDigit (b % 256 / 16), hexDigit (b % 16)]) : a % 256 = b % 256 := by
  simp only [List.cons.injEq, and_true] at h
  have h1 := hexDigit_inj _ (by omega) _ (by omega) h.1
  have h2 := hexDigit_inj _ (Nat.mod_lt _ (by omega)) _ (Nat.mod_lt _ (by omega)) h.2
  omega

theorem hexEncode_inj : ∀ l1 l2 : List Nat, l1.length = l2.length →
    hexEncode l1 = hexEncode l2 → l1.map (fun b => b % 256) = l2.map (fun b => b % 256) := by
  intro l1
  induction l1 with
  | nil =>
    intro l2 hlen _
    cases l2 with
    | nil => rfl
    | cons _ _ => simp at hlen
  | cons a t ih =>
    intro l2 hlen h
    cases l2 with
    | nil => simp at hlen
    | cons b t2 =>
      have h0 : (hexEncode (a :: t)).data = (hexEncode (b :: t2)).data := by rw [h]
      simp only [hexEncode, List.flatMap_cons, List.cons_append, List.nil_append,
        List.cons.injEq] at h0
      obtain ⟨e1, e2, e3⟩ := h0
      have hab : a % 256 = b % 256 := hexPair_inj (by rw [e1, e2])
      have ht := ih t2 (by simpa using hlen) (by
        unfold hexEncode
        rw [e3])
      simp [hab, ht]

theorem generateVerificationCode_bytes {ext1 ext2 : Ext} {bytes1 bytes2 : List Nat}
    (h1 : ext1.randRead = some bytes1) (h2 : ext2.randRead = some bytes2)
    (h : generateVerificationCode ext1 = generateVerificationCode ext2) :
    ∀ i < 32, bytes1.getD i 0 % 256 = bytes2.getD i 0 % 256 := by
  unfold generateVerificationCode at h
  simp only [h1, h2, Option.some.injEq] at h
  have := hexEncode_inj _ _ (by simp) h
  intro i hi
  have hget := congrArg (fun l => l.getD i 0) this
  simpa [List.getD_eq_getElem?_getD, hi] using hget

/-- C11. A member with no record sends a DM (not a bot, in a DM channel). If the trimmed,
lower-cased content is a well-formed email in an approved domain that no record uses,
`rand.Read` yields `bytes`, and no record carries the hex encoding of the 32 bytes read,
then exactly one row is appended to the store: a Pending record for that member with that
email, whose code is the hex encoding of those 32 bytes (64 digits), and the verification
email for that address and that code is issued. If the format is invalid or the domain is
not approved, the store is unchanged and no verification email is issued. The code
determines the bytes it was generated from: two reads that give the same code agree on
all 32 bytes. -/
theorem onMessageCreate_first_contact (lower : Char → Char) (cfg : Config) (ext : Ext)
    (d : Database) (m : MessageCreate) (bytes : List Nat)
    (hbot : m.Author.Bot = false) (hdm : ext.Channel m.ChannelID = some ChannelTypeDM)
    (hnew : ∀ r ∈ d.rows, r.discord_id ≠ m.Author.ID) :
    (isValidEmail (submittedEmail lower m) = true →
      isApprovedDomain lower cfg.ApprovedDomains (submittedEmail lower m) = true →
      (∀ r ∈ d.rows, r.email ≠ submittedEmail lower m) →
      ext.randRead = some bytes →
      (∀ r ∈ d.rows, r.verification_code ≠
        hexEncode ((List.range 32).map (fun i => bytes.getD i 0))) →
      ∃ r, (onMessageCreate lower cfg ext d m).1 =
          { rows := d.rows ++ [r], seq := d.seq + 1 } ∧
        r.state = State.Pending ∧ r.discord_id = m.Author.ID ∧
        r.email = submittedEmail lower m ∧
        r.verification_code = hexEncode ((List.range 32).map (fun i => bytes.getD i 0)) ∧
        r.verification_code.length = 64 ∧
        Effect.SendVerificationEmail (submittedEmail lower m) r.verification_code
            m.Author.Username ∈
          (onMessageCreate lower cfg ext d m).2) ∧
    (isValidEmail (submittedEmail lower m) = false ∨
      isApprovedDomain lower cfg.ApprovedDomains (submittedEmail lower m) = false →
      (onMessageCreate lower cfg ext d m).1 = d ∧
      sendsVerificationEmail (onMessageCreate lower cfg ext d m).2 = false) ∧
    (∀ (ext2 : Ext) (bytes2 : List Nat), ext.randRead = some bytes →
      ext2.randRead = some bytes2 →
      generateVerificationCode ext = generateVerificationCode ext2 →
      ∀ i < 32, bytes.getD i 0 % 256 = bytes2.getD i 0 % 256) := by
  refine ⟨?_, onMessageCreate_no_email_of_invalid lower cfg ext d m,
    fun ext2 bytes2 h1 h2 h => generateVerificationCode_bytes h1 h2 h⟩
  intro hv ha hfree hrand hfresh
  have hgen : generateVerificationCode ext =
      some (hexEncode ((List.range 32).map (fun i => bytes.getD i 0))) := by
    simp [generateVerificationCode, hrand]
  have hcreate := @CreateUser_fresh d m.Author.ID (displayName m.Author)
    (submittedEmail lower m) (hexEncode ((List.range 32).map (fun i => bytes.getD i 0)))
    ext.now (fun r hr => ⟨hnew r hr, hfree r hr, hfresh r hr⟩)
  unfold submittedEmail at hv ha hfree hcreate ⊢
  refine ⟨{ id := d.seq + 1, discord_id := m.Author.ID,
             discord_username := displayName m.Author,
             email := TrimSpace (ToLower lower m.Content),
             verification_code := hexEncode ((List.range 32).map (fun i => bytes.getD i 0)),
             team_role := none,
             verified := false, unverified := false,
             created_at := ext.now, verified_at := none }, ?_, rfl, rfl, rfl, rfl,
           generateVerificationCode_length hgen, ?_⟩
  · unfold onMessageCreate
    simp only [hbot, hdm, GetUserByDiscordID_none hnew, foundAnd, hv, ha,
      EmailExists_false hfree, DiscordIDExists_false hnew, hgen, hcreate, ne_eq,
      not_true_eq_false, if_false, Bool.false_eq_true, Bool.not_true]
    split <;> rfl
  · unfold onMessageCreate
    simp only [hbot, hdm, GetUserByDiscordID_none hnew, foundAnd, hv, ha,
      EmailExists_false hfree, DiscordIDExists_false hnew, hgen, hcreate, ne_eq,
      not_true_eq_false, if_false, Bool.false_eq_true, Bool.not_true]
    split <;> simp

/-- C12 (amended). A member who has a Pending record sends a DM with a well-formed email in
an approved domain: the store is unchanged and no verification email is issued; the reply
is "already in progress" when no record holds that email, and "already registered" when
some record holds it, which is the case for the email the member registered. -/
theorem onMessageCreate_pending (lower : Char → Char) (cfg : Config) (ext : Ext)
    (d : Database) (m : MessageCreate) (r : Row)
    (hu : UniqueKeys d) (hr : r ∈ d.rows) (hid : r.discord_id = m.Author.ID)
    (hs : r.state = State.Pending)
    (hbot : m.Author.Bot = false) (hdm : ext.Channel m.ChannelID = some ChannelTypeDM)
    (hv : isValidEmail (submittedEmail lower m) = true)
    (ha : isApprovedDomain lower cfg.ApprovedDomains (submittedEmail lower m) = true) :
    (onMessageCreate lower cfg ext d m).1 = d ∧
    sendsVerificationEmail (onMessageCreate lower cfg ext d m).2 = false ∧
    ((∀ x ∈ d.rows, x.email ≠ submittedEmail lower m) →
      (onMessageCreate lower cfg ext d m).2 =
        [Effect.ChannelMessageSend m.ChannelID inProgressReply]) ∧
    ((∃ x ∈ d.rows, x.email = submittedEmail lower m) →
      (onMessageCreate lower cfg ext d m).2 =
        [Effect.ChannelMessageSend m.ChannelID alreadyRegisteredReply]) := by
  have hlook := hu.byDiscordID hr
  rw [hid] at hlook
  have hex := DiscordIDExists_of_mem hr
  rw [hid] at hex
  obtain ⟨hf1, hf2⟩ := Row.state_pending hs
  unfold submittedEmail at hv ha ⊢
  have key : onMessageCreate lower cfg ext d m =
      (d, [Effect.ChannelMessageSend m.ChannelID
        (if d.EmailExists (TrimSpace (ToLower lower m.Content)) = true
          then alreadyRegisteredReply else inProgressReply)]) := by
    unfold onMessageCreate
    simp only [hbot, hdm, hlook, foundAnd, scanUser, hf1, hf2, hv, ha, hex, ne_eq,
      not_true_eq_false, if_false, Bool.false_eq_true, Bool.not_true, if_true]
    split <;> rfl
  rw [key]
  refine ⟨rfl, by simp [sendsVerificationEmail], ?_, ?_⟩
  · intro hfree
    simp [EmailExists_false hfree]
  · rintro ⟨x, hx, hxe⟩
    have := EmailExists_of_mem hx
    rw [hxe] at this
    simp [this]

/-- C12 (as stated) fails: alice has a Pending record and sends the address she registered;
the reply is "already registered", not "already in progress". -/
theorem onMessageCreate_pending_counterexample :
    aliceRow ∈ pendingStore.rows ∧ aliceRow.state = State.Pending ∧
    aliceRow.discord_id = aliceDM.Author.ID ∧
    isValidEmail (submittedEmail asciiLower aliceDM) = true ∧
    isApprovedDomain asciiLower sampleConfig.ApprovedDomains
      (submittedEmail asciiLower aliceDM) = true ∧
    onMessageCreate asciiLower sampleConfig {} pendingStore aliceDM =
      (pendingStore, [Effect.ChannelMessageSend "dm-1001" alreadyRegisteredReply]) ∧
    alreadyRegisteredReply ≠ inProgressReply := by
  decide

/-- C13. For a member whose record is Verified and every DM content, the handler replies
"already verified" and nothing else happens: the store is unchanged. -/
theorem onMessageCreate_verified (lower : Char → Char) (cfg : Config) (ext : Ext)
    (d : Database) (m : MessageCreate) (r : Row)
    (hu : UniqueKeys d) (hr : r ∈ d.rows) (hid : r.discord_id = m.Author.ID)
    (hs : r.state = State.Verified)
    (hbot : m.Author.Bot = false) (hdm : ext.Channel m.ChannelID = some ChannelTypeDM) :
    onMessageCreate lower cfg ext d m =
      (d, [Effect.ChannelMessageSend m.ChannelID alreadyVerifiedReply]) := by
  have hlook := hu.byDiscordID hr
  rw [hid] at hlook
  unfold onMessageCreate
  simp only [hbot, hdm, hlook, foundAnd, scanUser, Row.state_verified.mp hs, ne_eq,
    not_true_eq_false, if_false, Bool.false_eq_true, if_true]
  rfl

/-- C14. For a member whose record is Restricted and every DM content, valid email or not,
the only effect is the contact-a-moderator reply: the store is unchanged and no verification
email is issued. -/
theorem onMessageCreate_restricted (lower : Char → Char) (cfg : Config) (ext : Ext)
    (d : Database) (m : MessageCreate) (r : Row)
    (hu : UniqueKeys d) (hr : r ∈ d.rows) (hid : r.discord_id = m.Author.ID)
    (hs : r.state = State.Restricted)
    (hbot : m.Author.Bot = false) (hdm : ext.Channel m.ChannelID = some ChannelTypeDM) :
    onMessageCreate lower cfg ext d m =
      (d, [Effect.ChannelMessageSend m.ChannelID contactModeratorReply]) ∧
    sendsVerificationEmail (onMessageCreate lower cfg ext d m).2 = false := by
  have hlook := hu.byDiscordID hr
  rw [hid] at hlook
  obtain ⟨hf1, hf2⟩ := Row.state_restricted.mp hs
  have key : onMessageCreate lower cfg ext d m =
      (d, [Effect.ChannelMessageSend m.ChannelID contactModeratorReply]) := by
    unfold onMessageCreate
    simp only [hbot, hdm, hlook, foundAnd, scanUser, hf1, hf2, ne_eq,
      not_true_eq_false, if_false, Bool.false_eq_true, if_true]
    rfl
  rw [key]
  exact ⟨rfl, by simp [sendsVerificationEmail]⟩

/-! ## Manual verify, change-team, guards of restrict and unrestrict -/

/-- C15 (code bug). Alice has a Pending record holding `alice@acme.com` and no other record
holds that address; a moderator runs manual verify for alice with that address and the
configured team `red`. The command is refused with "already registered to another user" and
the store is unchanged, so alice stays Pending. -/
theorem handleManualVerify_own_email_rejected :
    Reachable asciiLower sampleConfig pendingStore ∧
    isAdmin sampleConfig {} verifyAlice.Member = true ∧
    (∀ r ∈ pendingStore.rows, r.email = "alice@acme.com" →
      r.discord_id = "1001" ∧ r.state = State.Pending) ∧
    sampleConfig.team "red" = some "role-red" ∧
    handleManualVerify asciiLower sampleConfig {} pendingStore verifyAlice =
      (pendingStore,
       [Effect.respondEphemeral
         "❌ This email address is already registered to another user."]) :=
  ⟨pendingStore_reachable sampleConfig rfl, by decide, by decide, by decide, by decide⟩

theorem handleChangeTeam_unchanged_of_unknown_team {cfg : Config} {ext : Ext} {d : Database}
    {i : InteractionCreate} {o1 : CommandOption} (h1 : i.Options[1]? = some o1)
    (ht : cfg.team o1.StringValue = none) : (handleChangeTeam cfg ext d i).1 = d := by
  unfold handleChangeTeam
  by_cases ha : isAdmin cfg ext i.Member = true
  · cases h0 : i.Options[0]? with
    | none => simp [ha]
    | some o0 => simp [ha, h1, ht]
  · simp [ha]

theorem handleChangeTeam_unchanged_of_lookup {cfg : Config} {ext : Ext} {d : Database}
    {i : InteractionCreate} {o0 o1 : CommandOption} (h0 : i.Options[0]? = some o0)
    (h1 : i.Options[1]? = some o1)
    (h : ∀ user, d.GetUserByDiscordID o0.UserValue.ID = .ok user →
      user.Verified = false ∨ user.TeamRole = o1.StringValue) :
    (handleChangeTeam cfg ext d i).1 = d := by
  unfold handleChangeTeam
  by_cases ha : isAdmin cfg ext i.Member = true
  swap
  · simp [ha]
  cases ht : cfg.team o1.StringValue with
  | none => simp [ha, h0, h1, ht]
  | some newRoleID =>
    cases hl : d.GetUserByDiscordID o0.UserValue.ID with
    | error e => cases e <;> simp [ha, h0, h1, ht, hl]
    | ok user =>
      rcases h user hl with hv | hsame
      · simp [ha, h0, h1, ht, hl, hv]
      · by_cases hv : user.Verified = true
        · simp [ha, h0, h1, ht, hl, hv, hsame]
        · simp [ha, h0, h1, ht, hl, hv]

/-- C16 (amended). Change-team by an admin on a Verified target, with a configured new team
different from the current one and a successful role grant, replaces the target row by the
same row with `team_role` the new team and `verified_at` the current time; flags, email and
code are unchanged, the state stays Verified, and no other row changes. If the target has no
record or is not Verified, or the new team is unknown or equals the current team, the store
is unchanged. -/
theorem handleChangeTeam_effect (cfg : Config) (ext : Ext) (d : Database)
    (i : InteractionCreate) (o0 o1 : CommandOption) (hu : UniqueKeys d)
    (h0 : i.Options[0]? = some o0) (h1 : i.Options[1]? = some o1) :
    (∀ r newRoleID, isAdmin cfg ext i.Member = true → r ∈ d.rows →
      r.discord_id = o0.UserValue.ID → r.state = State.Verified →
      cfg.team o1.StringValue = some newRoleID → r.team_role.getD "" ≠ o1.StringValue →
      assignRoleOk cfg ext o0.UserValue.ID newRoleID = true →
      (handleChangeTeam cfg ext d i).1 =
        { d with rows := d.rows.map (fun x =>
            if x = r then
              { r with team_role := some o1.StringValue, verified_at := some ext.now }
            else x) } ∧
      ({ r with team_role := some o1.StringValue,
                verified_at := some ext.now } : Row).state = State.Verified) ∧
    ((∀ r ∈ d.rows, r.discord_id ≠ o0.UserValue.ID) → (handleChangeTeam cfg ext d i).1 = d) ∧
    (∀ r ∈ d.rows, r.discord_id = o0.UserValue.ID → r.state ≠ State.Verified →
      (handleChangeTeam cfg ext d i).1 = d) ∧
    (cfg.team o1.StringValue = none → (handleChangeTeam cfg ext d i).1 = d) ∧
    (∀ r ∈ d.rows, r.discord_id = o0.UserValue.ID → r.team_role.getD "" = o1.StringValue →
      (handleChangeTeam cfg ext d i).1 = d) := by
  refine ⟨?_, ?_, ?_, ?_, ?_⟩
  · intro r newRoleID ha hr hid hs ht hne hok
    have hv := Row.state_verified.mp hs
    have hlook := hu.byDiscordID hr
    rw [hid] at hlook
    have hne2 : ¬ (scanUser r).TeamRole = o1.StringValue := hne
    refine ⟨?_, Row.state_verified.mpr hv⟩
    unfold handleChangeTeam
    simp only [ha, h0, h1, ht, hlook, hne2, hok, Database.UpdateUserTeam, Bool.not_true,
      Bool.false_eq_true, if_false, show (scanUser r).Verified = true from hv]
    rw [← hid, hu.update_eq hr]
    have : ({ r with team_role := some o1.StringValue, verified := true,
                     verified_at := some ext.now } : Row) =
        { r with team_role := some o1.StringValue, verified_at := some ext.now } := by
      rw [← hv]
    rw [this]
  · intro hnone
    apply handleChangeTeam_unchanged_of_lookup h0 h1
    intro user hl
    rw [GetUserByDiscordID_none hnone] at hl
    cases hl
  · intro r hr hid hs
    apply handleChangeTeam_unchanged_of_lookup h0 h1
    intro user hl
    have hlook := hu.byDiscordID hr
    rw [hid, hl] at hlook
    cases hlook
    left
    cases hv : r.verified
    · exact hv
    · exact absurd (Row.state_verified.mpr hv) hs
  · exact handleChangeTeam_unchanged_of_unknown_team h1
  · intro r hr hid hsame
    apply handleChangeTeam_unchanged_of_lookup h0 h1
    intro user hl
    have hlook := hu.byDiscordID hr
    rw [hid, hl] at hlook
    cases hlook
    right
    exact hsame

/-- C16 (as stated) fails: alice was verified at time 0; after change-team at time 7 her
row has `verified_at = 7`. -/
theorem handleChangeTeam_verifiedAt_counterexample :
    isAdmin sampleConfig { now := 7 } (changeTeamAlice "blue").Member = true ∧
    verifiedStore.rows =
      [{ aliceRow with team_role := some "red", verified := true, verified_at := some 0 }] ∧
    (handleChangeTeam sampleConfig { now := 7 } verifiedStore (changeTeamAlice "blue")).1.rows =
      [{ aliceRow with team_role := some "blue", verified := true, verified_at := some 7 }] ∧
    completed
      (handleChangeTeam sampleConfig { now := 7 } verifiedStore (changeTeamAlice "blue")).2
      = true := by
  decide

/-- Witness for C16 (amended): alice moves from `red` to `blue`; the four no-op cases. -/
theorem handleChangeTeam_effect_witness :
    ((handleChangeTeam sampleConfig { now := 7 } verifiedStore (changeTeamAlice "blue")).1 =
        { verifiedStore with rows := verifiedStore.rows.map (fun x =>
            if x = { aliceRow with team_role := some "red", verified := true,
                                   verified_at := some 0 } then
              { aliceRow with team_role := some "blue", verified := true,
                              verified_at := some 7 }
            else x) } ∧
      ({ aliceRow with team_role := some "blue", verified := true,
                       verified_at := some 7 } : Row).state = State.Verified) ∧
    (handleChangeTeam sampleConfig {} Database.empty (changeTeamAlice "blue")).1
      = Database.empty ∧
    (handleChangeTeam sampleConfig {} pendingStore (changeTeamAlice "blue")).1 = pendingStore ∧
    (handleChangeTeam sampleConfig {} verifiedStore (changeTeamAlice "green")).1
      = verifiedStore ∧
    (handleChangeTeam sampleConfig {} verifiedStore (changeTeamAlice "red")).1
      = verifiedStore :=
  ⟨(handleChangeTeam_effect sampleConfig { now := 7 } verifiedStore (changeTeamAlice "blue")
      _ _ (by decide) rfl rfl).1
      { aliceRow with team_role := some "red", verified := true, verified_at := some 0 }
      "role-blue" (by decide) (by decide) rfl (by decide) (by decide) (by decide) (by decide),
   (handleChangeTeam_effect sampleConfig {} Database.empty (changeTeamAlice "blue")
      _ _ (by decide) rfl rfl).2.1 (by decide),
   (handleChangeTeam_effect sampleConfig {} pendingStore (changeTeamAlice "blue")
      _ _ (by decide) rfl rfl).2.2.1 aliceRow (by decide) rfl (by decide),
   (handleChangeTeam_effect sampleConfig {} verifiedStore (changeTeamAlice "green")
      _ _ (by decide) rfl rfl).2.2.2.1 (by decide),
   (handleChangeTeam_effect sampleConfig {} verifiedStore (changeTeamAlice "red")
      _ _ (by decide) rfl rfl).2.2.2.2
      { aliceRow with team_role := some "red", verified := true, verified_at := some 0 }
      (by decide) rfl (by decide)⟩

theorem replayedStore_reachable : Reachable asciiLower sampleConfig replayedStore :=
  Reachable.step {} (Event.postAPIVerify (postVerify sampleCode "blue"))
    restrictedStore_reachable

theorem handleRestrict_changed {cfg : Config} {ext : Ext} {d : Database}
    {i : InteractionCreate} (h : (handleRestrict cfg ext d i).1 ≠ d) :
    ∃ o user, i.Options[0]? = some o ∧ d.GetUserByDiscordID o.UserValue.ID = .ok user ∧
      user.Verified = true ∧ user.Unverified = false ∧
      (handleRestrict cfg ext d i).1 = (d.UnverifyUser o.UserValue.ID).1 := by
  by_cases ha : isAdmin cfg ext i.Member = true
  swap
  · simp [handleRestrict, ha] at h
  cases ho : i.Options[0]? with
  | none => simp [handleRestrict, ha, ho] at h
  | some o =>
    cases hl : d.GetUserByDiscordID o.UserValue.ID with
    | error e => cases e <;> simp [handleRestrict, ha, ho, hl] at h
    | ok user =>
      cases hv : user.Verified with
      | false => simp [handleRestrict, ha, ho, hl, hv] at h
      | true =>
        cases hn : user.Unverified with
        | true => simp [handleRestrict, ha, ho, hl, hv, hn] at h
        | false =>
          refine ⟨o, user, rfl, hl, hv, hn, ?_⟩
          simp [handleRestrict, ha, ho, hl, hv, hn, Database.UnverifyUser]

theorem handleUnrestrict_changed {cfg : Config} {ext : Ext} {d : Database}
    {i : InteractionCreate} (h : (handleUnrestrict cfg ext d i).1 ≠ d) :
    ∃ o user, i.Options[0]? = some o ∧ d.GetUserByDiscordID o.UserValue.ID = .ok user ∧
      user.Unverified = true ∧
      (handleUnrestrict cfg ext d i).1 = (d.ReverifyUser o.UserValue.ID ext.now).1 := by
  by_cases ha : isAdmin cfg ext i.Member = true
  swap
  · simp [handleUnrestrict, ha] at h
  cases ho : i.Options[0]? with
  | none => simp [handleUnrestrict, ha, ho] at h
  | some o =>
    cases hl : d.GetUserByDiscordID o.UserValue.ID with
    | error e => cases e <;> simp [handleUnrestrict, ha, ho, hl] at h
    | ok user =>
      cases hn : user.Unverified with
      | false => simp [handleUnrestrict, ha, ho, hl, hn] at h
      | true =>
        refine ⟨o, user, rfl, hl, hn, ?_⟩
        cases ht : cfg.team user.TeamRole with
        | none => simp [handleUnrestrict, ha, ho, hl, hn, ht, Database.ReverifyUser]
        | some roleID =>
          cases hok : assignRoleOk cfg ext o.UserValue.ID roleID with
          | false => simp [handleUnrestrict, ha, ho, hl, hn, ht, hok] at h
          | true => simp [handleUnrestrict, ha, ho, hl, hn, ht, hok, Database.ReverifyUser]

theorem restrict_unrestrict_guarded (cfg : Config) (ext : Ext) (d : Database)
    (i : InteractionCreate) (hu : UniqueKeys d) :
    ((handleRestrict cfg ext d i).1 ≠ d →
      ∃ o r, i.Options[0]? = some o ∧ r ∈ d.rows ∧ r.discord_id = o.UserValue.ID ∧
        r.state = State.Verified ∧ r.unverified = false ∧
        (handleRestrict cfg ext d i).1 =
          { d with rows := d.rows.map (fun x =>
              if x = r then { r with verified := false, unverified := true } else x) }) ∧
    ((handleUnrestrict cfg ext d i).1 ≠ d →
      ∃ o r, i.Options[0]? = some o ∧ r ∈ d.rows ∧ r.discord_id = o.UserValue.ID ∧
        r.unverified = true ∧
        (handleUnrestrict cfg ext d i).1 =
          { d with rows := d.rows.map (fun x =>
              if x = r then
                { r with verified := true, unverified := false, verified_at := some ext.now }
              else x) }) := by
  constructor
  · intro h
    obtain ⟨o, user, ho, hl, hv, hn, hd⟩ := handleRestrict_changed h
    obtain ⟨r, hr, hid, rfl⟩ := GetUserByDiscordID_ok hl
    refine ⟨o, r, ho, hr, hid, Row.state_verified.mpr hv, hn, ?_⟩
    rw [hd, ← hid]
    exact hu.update_eq hr _
  · intro h
    obtain ⟨o, user, ho, hl, hn, hd⟩ := handleUnrestrict_changed h
    obtain ⟨r, hr, hid, rfl⟩ := GetUserByDiscordID_ok hl
    refine ⟨o, r, ho, hr, hid, hn, ?_⟩
    rw [hd, ← hid]
    exact hu.update_eq hr _

/-- C17 (code bug). In the reachable store `replayedStore` alice's record is in state
Verified (it also carries the `unverified` flag left by the replayed code); unrestrict on
alice is not rejected: it runs to completion and rewrites her row. -/
theorem handleUnrestrict_acts_on_verified :
    Reachable asciiLower sampleConfig replayedStore ∧
    (∀ r ∈ replayedStore.rows, r.discord_id = "1001" ∧ r.state = State.Verified) ∧
    (handleUnrestrict sampleConfig { now := 7 } replayedStore
        (onAlice "heimdall-unrestrict")).1.rows =
      [{ aliceRow with team_role := some "blue", verified := true, unverified := false,
                       verified_at := some 7 }] ∧
    (handleUnrestrict sampleConfig { now := 7 } replayedStore
        (onAlice "heimdall-unrestrict")).1 ≠ replayedStore ∧
    completed (handleUnrestrict sampleConfig { now := 7 } replayedStore
        (onAlice "heimdall-unrestrict")).2 = true :=
  ⟨replayedStore_reachable, by decide, by decide, by decide, by decide⟩

/-- C18 (code bug). With team selection disabled, alice is Pending and posts her valid code
without a team: the answer is 400 and her record stays Pending. With this configuration
every posted team is answered 400 and leaves the store unchanged. -/
theorem handleAPIVerify_needs_team_when_disabled :
    disabledConfig.Features.EnableTeamSelection = false ∧
    Reachable asciiLower disabledConfig pendingStore ∧
    aliceRow ∈ pendingStore.rows ∧ aliceRow.state = State.Pending ∧
    handleAPIVerify disabledConfig {} pendingStore (postVerify aliceRow.verification_code "") =
      (pendingStore, httpError "Code and team are required" 400, []) ∧
    (∀ team, (handleAPIVerify disabledConfig {} pendingStore
        (postVerify aliceRow.verification_code team)).2.1.status = 400 ∧
      (handleAPIVerify disabledConfig {} pendingStore
        (postVerify aliceRow.verification_code team)).1 = pendingStore) := by
  refine ⟨rfl, pendingStore_reachable disabledConfig rfl, by decide, by decide, by decide, ?_⟩
  intro team
  by_cases ht : team = ""
  · subst ht
    exact ⟨by decide, by decide⟩
  · have hl : pendingStore.GetUserByVerificationCode aliceRow.verification_code =
        .ok (scanUserByCode aliceRow) := rfl
    have hc : aliceRow.verification_code ≠ "" := by decide
    have hteam : disabledConfig.team team = none := rfl
    have hv : aliceRow.verified = false := rfl
    constructor <;>
      simp [handleAPIVerify, postVerify, hl, hc, ht, hteam, scanUserByCode, hv, httpError]

/-! ## Store operations on a missing platform ID, and statistics -/

theorem update_missing {d : Database} {discordID : String} (f : Row → Row)
    (h : ∀ r ∈ d.rows, r.discord_id ≠ discordID) : d.update discordID f = d := by
  unfold Database.update
  have : d.rows.map (fun r => if (r.discord_id == discordID) = true then f r else r)
      = d.rows := by
    conv_rhs => rw [← List.map_id d.rows]
    apply List.map_congr_left
    intro r hr
    simp [h r hr]
  rw [this]

/-- C19 (amended). `UpdateUserTeam`, `MarkUserVerified`, `UnverifyUser`, `ReverifyUser` and
`DeleteUser`, called with a platform ID that has no record, leave the store unchanged and
return no error; they return no error in every case, so the result does not tell a missing
record from a successful change. -/
theorem transitions_on_missing_id (d : Database) (discordID teamRole : String) (now : Nat) :
    ((∀ r ∈ d.rows, r.discord_id ≠ discordID) →
      d.UpdateUserTeam discordID teamRole now = (d, none) ∧
      d.MarkUserVerified discordID now = (d, none) ∧
      d.UnverifyUser discordID = (d, none) ∧
      d.ReverifyUser discordID now = (d, none) ∧
      d.DeleteUser discordID = (d, none)) ∧
    (d.UpdateUserTeam discordID teamRole now).2 = none ∧
    (d.MarkUserVerified discordID now).2 = none ∧
    (d.UnverifyUser discordID).2 = none ∧
    (d.ReverifyUser discordID now).2 = none ∧
    (d.DeleteUser discordID).2 = none := by
  refine ⟨?_, rfl, rfl, rfl, rfl, rfl⟩
  intro h
  refine ⟨?_, ?_, ?_, ?_, ?_⟩
  · unfold Database.UpdateUserTeam; rw [update_missing _ h]
  · unfold Database.MarkUserVerified; rw [update_missing _ h]
  · unfold Database.UnverifyUser; rw [update_missing _ h]
  · unfold Database.ReverifyUser; rw [update_missing _ h]
  · unfold Database.DeleteUser
    have : d.rows.filter (fun r => !(r.discord_id == discordID)) = d.rows := by
      rw [List.filter_eq_self]
      intro r hr
      simp [h r hr]
    rw [this]

/-- Witness for C19 (amended): the five operations on the unknown ID `9999`. -/
theorem transitions_on_missing_id_witness :
    pendingStore.UpdateUserTeam "9999" "red" 5 = (pendingStore, none) ∧
    pendingStore.MarkUserVerified "9999" 5 = (pendingStore, none) ∧
    pendingStore.UnverifyUser "9999" = (pendingStore, none) ∧
    pendingStore.ReverifyUser "9999" 5 = (pendingStore, none) ∧
    pendingStore.DeleteUser "9999" = (pendingStore, none) :=
  (transitions_on_missing_id pendingStore "9999" "red" 5).1 (by decide)

/-- C19 (as stated) fails: on the unknown ID `9999` each operation returns the same nil
error as on alice's ID `1001`. -/
theorem transitions_on_missing_id_counterexample :
    (∀ r ∈ pendingStore.rows, r.discord_id ≠ "9999") ∧
    (pendingStore.UpdateUserTeam "9999" "red" 5).2 = none ∧
    (pendingStore.UpdateUserTeam "1001" "red" 5).2 = none ∧
    (pendingStore.MarkUserVerified "9999" 5).2 = (pendingStore.MarkUserVerified "1001" 5).2 ∧
    (pendingStore.UnverifyUser "9999").2 = (pendingStore.UnverifyUser "1001").2 ∧
    (pendingStore.ReverifyUser "9999" 5).2 = (pendingStore.ReverifyUser "1001" 5).2 ∧
    (pendingStore.DeleteUser "9999").2 = (pendingStore.DeleteUser "1001").2 := by
  decide

theorem length_filter_unverified (l : List Row) :
    (l.filter (fun r => !r.verified)).length =
      (l.filter (fun r => decide (r.state = State.Pending))).length +
      (l.filter (fun r => decide (r.state = State.Restricted))).length := by
  induction l with
  | nil => rfl
  | cons a l ih =>
    cases hv : a.verified <;> cases hn : a.unverified <;>
      simp [List.filter_cons, Row.state, hv, hn, ih] <;> omega

theorem filter_verified_eq (l : List Row) :
    l.filter (fun r => r.verified) = l.filter (fun r => decide (r.state = State.Verified)) := by
  apply List.filter_congr
  intro r _
  cases hv : r.verified <;> cases hn : r.unverified <;> simp [Row.state, hv, hn]

/-- C20 (amended). `GetStats` returns the number of rows, the number of rows in state
Verified, and the number of rows whose `verified` flag is false, which is the number of
Pending rows plus the number of Restricted rows; the last two results add up to the first. -/
theorem GetStats_counts (d : Database) :
    d.GetStats =
      (d.rows.length, countState d State.Verified,
        countState d State.Pending + countState d State.Restricted) ∧
    d.rows.length =
      countState d State.Verified + (countState d State.Pending + countState d State.Restricted) := by
  have h1 : d.GetStats =
      (d.rows.length, countState d State.Verified,
        countState d State.Pending + countState d State.Restricted) := by
    unfold Database.GetStats countState
    rw [length_filter_unverified, filter_verified_eq]
  refine ⟨h1, ?_⟩
  unfold countState
  rw [← length_filter_unverified, ← filter_verified_eq]
  induction d.rows with
  | nil => rfl
  | cons a l ih =>
    cases hv : a.verified <;> simp [List.filter_cons, hv] <;> omega

/-- C20 (as stated) fails: the store with one Restricted record and no Pending record has
statistics `(1, 0, 1)`. -/
theorem GetStats_restricted_counterexample :
    restrictedStore.GetStats = (1, 0, 1) ∧
    countState restrictedStore State.Pending = 0 ∧
    countState restrictedStore State.Restricted = 1 := by
  decide

/-! ## The DM handler at sample inputs -/

/-- Witness for C11: `rand.Read` yields the bytes `de ad be ef` followed by zeros;
`alice@acme.com` with approved domains `[acme.com]` creates the Pending record with the
code `deadbeef00...`; `alice@evil.com` and `alice at acme` create nothing and send
nothing. -/
theorem onMessageCreate_first_contact_witness :
    (∃ r, (onMessageCreate asciiLower sampleConfig { randRead := some [222, 173, 190, 239] }
          Database.empty aliceDM).1 =
        { rows := Database.empty.rows ++ [r], seq := Database.empty.seq + 1 } ∧
      r.state = State.Pending ∧ r.discord_id = aliceDM.Author.ID ∧
      r.email = submittedEmail asciiLower aliceDM ∧
      r.verification_code =
        hexEncode ((List.range 32).map (fun i => [222, 173, 190, 239].getD i 0)) ∧
      r.verification_code.length = 64 ∧
      Effect.SendVerificationEmail (submittedEmail asciiLower aliceDM) r.verification_code
          aliceDM.Author.Username ∈
        (onMessageCreate asciiLower sampleConfig { randRead := some [222, 173, 190, 239] }
          Database.empty aliceDM).2) ∧
    hexEncode ((List.range 32).map (fun i => [222, 173, 190, 239].getD i 0)) =
      "deadbeef00000000000000000000000000000000000000000000000000000000" ∧
    ((onMessageCreate asciiLower sampleConfig {} Database.empty evilDM).1 = Database.empty ∧
      sendsVerificationEmail
        (onMessageCreate asciiLower sampleConfig {} Database.empty evilDM).2 = false) ∧
    ((onMessageCreate asciiLower sampleConfig {} Database.empty
        { aliceDM with Content := "alice at acme" }).1 = Database.empty ∧
      sendsVerificationEmail
        (onMessageCreate asciiLower sampleConfig {} Database.empty
          { aliceDM with Content := "alice at acme" }).2 = false) :=
  ⟨(onMessageCreate_first_contact asciiLower sampleConfig
      { randRead := some [222, 173, 190, 239] } Database.empty aliceDM [222, 173, 190, 239]
      rfl rfl (by decide)).1 (by decide) (by decide) (by decide) rfl (by decide),
   by decide,
   (onMessageCreate_first_contact asciiLower sampleConfig {} Database.empty evilDM []
      rfl rfl (by decide)).2.1 (Or.inr (by decide)),
   (onMessageCreate_first_contact asciiLower sampleConfig {} Database.empty
      { aliceDM with Content := "alice at acme" } []
      rfl rfl (by decide)).2.1 (Or.inl (by decide))⟩

/-- Witness for C12 (amended): alice, Pending, sends her registered address and then a
different one. -/
theorem onMessageCreate_pending_witness :
    ((onMessageCreate asciiLower sampleConfig {} pendingStore aliceDM).1 = pendingStore ∧
      sendsVerificationEmail
        (onMessageCreate asciiLower sampleConfig {} pendingStore aliceDM).2 = false) ∧
    (onMessageCreate asciiLower sampleConfig {} pendingStore aliceDM).2 =
      [Effect.ChannelMessageSend aliceDM.ChannelID alreadyRegisteredReply] ∧
    (onMessageCreate asciiLower sampleConfig {} pendingStore
        { aliceDM with Content := "  Alice.Other@ACME.com " }).2 =
      [Effect.ChannelMessageSend aliceDM.ChannelID inProgressReply] :=
  have h1 := onMessageCreate_pending asciiLower sampleConfig {} pendingStore aliceDM aliceRow
    (by decide) (by decide) rfl (by decide) rfl rfl (by decide) (by decide)
  have h2 := onMessageCreate_pending asciiLower sampleConfig {} pendingStore
    { aliceDM with Content := "  Alice.Other@ACME.com " } aliceRow
    (by decide) (by decide) rfl (by decide) rfl rfl (by decide) (by decide)
  ⟨⟨h1.1, h1.2.1⟩, h1.2.2.2 ⟨aliceRow, by decide, by decide⟩, h2.2.2.1 (by decide)⟩

/-- Witness for C13: alice, Verified, sends `hello?`. -/
theorem onMessageCreate_verified_witness :
    onMessageCreate asciiLower sampleConfig {} verifiedStore
        { aliceDM with Content := "hello?" } =
      (verifiedStore, [Effect.ChannelMessageSend "dm-1001" alreadyVerifiedReply]) :=
  onMessageCreate_verified asciiLower sampleConfig {} verifiedStore
    { aliceDM with Content := "hello?" }
    { aliceRow with team_role := some "red", verified := true, verified_at := some 0 }
    (by decide) (by decide) rfl (by decide) rfl rfl

/-- Witness for C14: alice, Restricted, sends a well-formed approved address. -/
theorem onMessageCreate_restricted_witness :
    onMessageCreate asciiLower sampleConfig {} restrictedStore
        { aliceDM with Content := "bob@acme.com" } =
      (restrictedStore, [Effect.ChannelMessageSend "dm-1001" contactModeratorReply]) ∧
    sendsVerificationEmail (onMessageCreate asciiLower sampleConfig {} restrictedStore
        { aliceDM with Content := "bob@acme.com" }).2 = false :=
  onMessageCreate_restricted asciiLower sampleConfig {} restrictedStore
    { aliceDM with Content := "bob@acme.com" }
    { aliceRow with team_role := some "red", verified := false, unverified := true,
                    verified_at := some 0 }
    (by decide) (by decide) rfl (by decide) rfl rfl

/-! ## Permissions -/

/-- C29. When the configured admin role is empty, `isAdmin` is false for every member,
whatever `UserChannelPermissions` answers, so also for a member with the Administrator
permission; when it is non-empty, `isAdmin` is true for every member whose role list
contains that role. -/
theorem isAdmin_by_role (cfg : Config) (ext : Ext) (member : Member) :
    (cfg.Discord.AdminRole = "" → isAdmin cfg ext member = false) ∧
    (cfg.Discord.AdminRole ≠ "" → cfg.Discord.AdminRole ∈ member.Roles →
      isAdmin cfg ext member = true) := by
  constructor
  · intro h
    simp [isAdmin, h]
  · intro h hmem
    have : member.Roles.any (fun roleID => roleID == cfg.Discord.AdminRole) = true := by
      rw [List.any_eq_true]
      exact ⟨_, hmem, by simp⟩
    simp [isAdmin, h, this]

/-- Witness for C29: with an empty admin role the moderator is refused although the
permission lookup answers Administrator; with admin role `moderators` the moderator, who
holds it, is admitted. -/
theorem isAdmin_by_role_witness :
    isAdmin { sampleConfig with Discord := { AdminRole := "" } }
        { UserChannelPermissions := fun _ _ => some PermissionAdministrator } moderator
      = false ∧
    isAdmin sampleConfig {} moderator = true :=
  ⟨(isAdmin_by_role { sampleConfig with Discord := { AdminRole := "" } }
      { UserChannelPermissions := fun _ _ => some PermissionAdministrator } moderator).1 rfl,
   (isAdmin_by_role sampleConfig {} moderator).2 (by decide) (by decide)⟩

theorem onInteractionCreate_denied (lower : Char → Char) (cfg : Config) (ext : Ext)
    (d : Database) (i : InteractionCreate)
    (hty : i.InteractionType = InteractionApplicationCommand)
    (ha : isAdmin cfg ext i.Member = false) (hn : i.Name ∈ guardedCommands) :
    onInteractionCreate lower cfg ext d i = (d, [permissionDenied]) := by
  obtain ⟨ty, mem, name, opts⟩ := i
  simp only at hty ha hn
  subst hty
  simp only [guardedCommands, List.mem_cons, List.mem_singleton, List.not_mem_nil,
    or_false] at hn
  rcases hn with h | h | h | h | h | h | h | h | h <;> subst h
  · simp [onInteractionCreate, handleStats, ha]
  · simp [onInteractionCreate, handleList, ha]
  · simp [onInteractionCreate, handleReset, ha]
  · simp [onInteractionCreate, handleManualVerify, ha]
  · simp [onInteractionCreate, handleChangeTeam, ha]
  · simp [onInteractionCreate, handleRestrict, ha]
  · simp [onInteractionCreate, handleUnrestrict, ha]
  · simp [onInteractionCreate, handleDomains, ha]
  · simp [onInteractionCreate, handlePurge, ha]

/-- C21 (amended). A member for whom `isAdmin` is false invokes a command. For the nine
commands stats, list, reset, verify, changeteam, restrict, unrestrict, domains and purge the
handler answers the permission-denied reply and nothing else, and the store is unchanged.
For help the handler answers the help embed with its two general fields (the moderator
section is left out); the store is unchanged and no role is granted or revoked. -/
theorem commands_require_admin (lower : Char → Char) (cfg : Config) (ext : Ext)
    (d : Database) (i : InteractionCreate)
    (hty : i.InteractionType = InteractionApplicationCommand)
    (ha : isAdmin cfg ext i.Member = false) :
    (i.Name ∈ guardedCommands →
      onInteractionCreate lower cfg ext d i = (d, [permissionDenied])) ∧
    (i.Name = "heimdall-help" →
      (∃ title description fields,
        onInteractionCreate lower cfg ext d i =
          (d, [Effect.respondEmbed title description fields]) ∧ fields.length = 2) ∧
      (onInteractionCreate lower cfg ext d i).1 = d ∧
      touchesRoles (onInteractionCreate lower cfg ext d i).2 = false) := by
  refine ⟨onInteractionCreate_denied lower cfg ext d i hty ha, ?_⟩
  intro hn
  obtain ⟨ty, mem, name, opts⟩ := i
  simp only at hty ha hn
  subst hty hn
  have key : onInteractionCreate lower cfg ext d
      { InteractionType := InteractionApplicationCommand, Member := mem,
        Name := "heimdall-help", Options := opts } =
      handleHelp cfg ext d
        { InteractionType := InteractionApplicationCommand, Member := mem,
          Name := "heimdall-help", Options := opts } := by
    simp [onInteractionCreate]
  rw [key]
  refine ⟨?_, rfl, ?_⟩
  · unfold handleHelp
    simp only [ha, Bool.false_eq_true, if_false, List.append_nil]
    exact ⟨_, _, _, rfl, rfl⟩
  · simp [handleHelp, touchesRoles]

/-- Witness for C21 (amended): a visitor without the admin role invokes purge and gets the
permission-denied reply; the same visitor invokes help, which leaves the store unchanged
and touches no role. -/
theorem commands_require_admin_witness :
    onInteractionCreate asciiLower sampleConfig {} verifiedStore
        (visitorRuns "heimdall-purge") = (verifiedStore, [permissionDenied]) ∧
    (onInteractionCreate asciiLower sampleConfig {} verifiedStore
        (visitorRuns "heimdall-help")).1 = verifiedStore ∧
    touchesRoles (onInteractionCreate asciiLower sampleConfig {} verifiedStore
        (visitorRuns "heimdall-help")).2 = false :=
  ⟨(commands_require_admin asciiLower sampleConfig {} verifiedStore
      (visitorRuns "heimdall-purge") rfl (by decide)).1 (by decide),
   ((commands_require_admin asciiLower sampleConfig {} verifiedStore
      (visitorRuns "heimdall-help") rfl (by decide)).2 rfl).2⟩

/-- C21 (as stated) fails: a visitor for whom `isAdmin` is false invokes help; the answer
is not the permission-denied reply but one help embed. -/
theorem help_not_guarded_counterexample :
    isAdmin sampleConfig {} (visitorRuns "heimdall-help").Member = false ∧
    onInteractionCreate asciiLower sampleConfig {} verifiedStore
        (visitorRuns "heimdall-help") ≠ (verifiedStore, [permissionDenied]) ∧
    completed (onInteractionCreate asciiLower sampleConfig {} verifiedStore
        (visitorRuns "heimdall-help")).2 = false ∧
    (∃ title description fields,
      (onInteractionCreate asciiLower sampleConfig {} verifiedStore
        (visitorRuns "heimdall-help")).2 =
          [Effect.respondEmbed title description fields]) :=
  ⟨by decide, by decide, by decide, by
    unfold onInteractionCreate
    simp only [visitorRuns]
    exact ⟨_, _, _, rfl⟩⟩

/-! ## Re-join, and approval of well-formed emails -/

/-- C23. A member whose record is Verified joins the server again: the store is unchanged;
the calls made are the grant of the members role when one is configured, then the grant
of the role the mapping gives for the recorded team; no message is sent to a channel, so
no welcome prompt. -/
theorem onGuildMemberAdd_verified (cfg : Config) (ext : Ext) (d : Database)
    (m : DiscordUser) (r : Row) (hu : UniqueKeys d) (hr : r ∈ d.rows)
    (hid : r.discord_id = m.ID) (hs : r.state = State.Verified) :
    (onGuildMemberAdd cfg ext d m).1 = d ∧
    (onGuildMemberAdd cfg ext d m).2 =
      assignMembersRole cfg m.ID ++
        (match cfg.team (r.team_role.getD "") with
         | some roleID => [AssignRole cfg m.ID roleID]
         | none => []) ∧
    (cfg.Discord.MembersRole ≠ "" →
      AssignRole cfg m.ID cfg.Discord.MembersRole ∈ (onGuildMemberAdd cfg ext d m).2) ∧
    (∀ roleID, cfg.team (r.team_role.getD "") = some roleID →
      AssignRole cfg m.ID roleID ∈ (onGuildMemberAdd cfg ext d m).2) ∧
    sendsChannelMessage (onGuildMemberAdd cfg ext d m).2 = false := by
  have hlook := hu.byDiscordID hr
  rw [hid] at hlook
  have hv : (scanUser r).Verified = true := Row.state_verified.mp hs
  have key : onGuildMemberAdd cfg ext d m =
      (d, assignMembersRole cfg m.ID ++
        (match cfg.team (r.team_role.getD "") with
         | some roleID => [AssignRole cfg m.ID roleID]
         | none => [])) := by
    unfold onGuildMemberAdd
    simp only [hlook, hv, if_true]
    rfl
  rw [key]
  refine ⟨rfl, rfl, ?_, ?_, ?_⟩
  · intro hm
    simp [assignMembersRole, hm]
  · intro roleID ht
    simp [ht]
  · unfold assignMembersRole sendsChannelMessage
    by_cases hm : cfg.Discord.MembersRole = "" <;>
      cases cfg.team (r.team_role.getD "") <;> simp [hm, AssignRole]

/-- Witness for C23: alice, Verified with team `red`, joins again under a configuration
with a members role; both roles are granted and the store is unchanged. -/
theorem onGuildMemberAdd_verified_witness :
    (onGuildMemberAdd membersConfig {} verifiedStore alice).1 = verifiedStore ∧
    (onGuildMemberAdd membersConfig {} verifiedStore alice).2 =
      [Effect.GuildMemberRoleAdd "guild" "1001" "role-members",
       Effect.GuildMemberRoleAdd "guild" "1001" "role-red"] :=
  have h := onGuildMemberAdd_verified membersConfig {} verifiedStore alice
    { aliceRow with team_role := some "red", verified := true, verified_at := some 0 }
    (by decide) (by decide) rfl (by decide)
  ⟨h.1, h.2.1⟩

/-- C27. For every string `e` accepted by `isValidEmail`, `strings.Split(e, "@")` has
exactly two parts, and `isApprovedDomain` agrees on `e` with the reference definition: the
lower-cased text after the last `@` is one of the approved domains, lower-cased. -/
theorem isApprovedDomain_on_valid (lower : Char → Char) (approved : List String)
    (e : String) (hv : isValidEmail e = true) :
    (splitOnAt e).length = 2 ∧
    isApprovedDomain lower approved e = approvedAfterLastAt lower approved e := by
  have hcount := ((isValidEmail_iff_shape e).mp hv).count_at
  have hlen := splitRunes_length '@' e.data
  rw [hcount] at hlen
  refine ⟨by simp [splitOnAt, hlen], ?_⟩
  rw [isApprovedDomain_eq]
  unfold approvedAfterLastAt
  rcases hsp : splitRunes '@' e.data with _ | ⟨a, _ | ⟨b, _ | ⟨c, t⟩⟩⟩
  · simp [hsp] at hlen
  · simp [hsp] at hlen
  · simp [splitRunes_eq_pair '@' hsp]
  · simp [hsp] at hlen

/-- Witness for C27: `alice@Acme.com` is accepted by `isValidEmail`, splits in two parts,
and both definitions of approval agree on it. -/
theorem isApprovedDomain_on_valid_witness :
    (splitOnAt "alice@Acme.com").length = 2 ∧
    isApprovedDomain asciiLower ["acme.com"] "alice@Acme.com" =
      approvedAfterLastAt asciiLower ["acme.com"] "alice@Acme.com" :=
  isApprovedDomain_on_valid asciiLower ["acme.com"] "alice@Acme.com" (by decide)

/-! ## Every handler issues its statements under their guards -/

theorem Runs.same (lower : Char → Char) (cfg : Config) (d : Database) : Runs lower cfg d d :=
  Relation.ReflTransGen.refl

theorem Runs.of_create {lower : Char → Char} {cfg : Config} {d d0 d1 : Database}
    {discordID username raw code : String} {now : Nat} {o : Option DBError}
    (h : Runs lower cfg d d0) (hgen : ∃ ext, generateVerificationCode ext = some code)
    (heq : d0.CreateUser discordID username (TrimSpace (ToLower lower raw)) code now = (d1, o)) :
    Runs lower cfg d d1 := by
  have h1 := Relation.ReflTransGen.tail h
    (GuardedStep.create d0 discordID username raw code now hgen)
  unfold canonicalEmail at h1
  rw [heq] at h1
  exact h1

theorem Runs.then_delete {lower : Char → Char} {cfg : Config} {d d1 : Database}
    (h : Runs lower cfg d d1) (discordID : String) :
    Runs lower cfg d (d1.DeleteUser discordID).1 :=
  Relation.ReflTransGen.tail h (GuardedStep.delete d1 discordID)

theorem Runs.then_setTeam {lower : Char → Char} {cfg : Config} {d d1 : Database}
    (h : Runs lower cfg d d1) (discordID : String) {team : String} (now : Nat)
    (ht : cfg.team team ≠ none) :
    Runs lower cfg d (d1.UpdateUserTeam discordID team now).1 :=
  Relation.ReflTransGen.tail h (GuardedStep.setTeam d1 discordID team now ht)

theorem Runs.afterReplace (lower : Char → Char) (cfg : Config) (d : Database)
    (existingUser : Except DBError User) (discordID : String) :
    Runs lower cfg d (match existingUser with
      | .ok _ => (d.DeleteUser discordID).1
      | .error _ => d) := by
  cases existingUser with
  | ok _ => exact (Runs.same lower cfg d).then_delete _
  | error _ => exact Runs.same lower cfg d

theorem Runs.of_verifyWrite {lower : Char → Char} {cfg : Config} {d d1 d2 : Database}
    {discordID team : String} {now : Nat} {o : Option DBError} (h : Runs lower cfg d d1)
    (hg : ¬(cfg.Features.EnableTeamSelection = true ∧ cfg.team team = none))
    (heq : (if cfg.Features.EnableTeamSelection = true then
              d1.UpdateUserTeam discordID team now
            else d1.MarkUserVerified discordID now) = (d2, o)) : Runs lower cfg d d2 := by
  by_cases he : cfg.Features.EnableTeamSelection = true
  · rw [if_pos he] at heq
    have ht : cfg.team team ≠ none := fun hn => hg ⟨he, hn⟩
    have := h.then_setTeam discordID now ht
    rw [heq] at this
    exact this
  · rw [if_neg he] at heq
    have := Relation.ReflTransGen.tail h
      (GuardedStep.markVerified d1 discordID now (by simpa using he))
    rw [heq] at this
    exact this

theorem handleAPIVerify_runs (lower : Char → Char) (cfg : Config) (ext : Ext) (d : Database)
    (r : Request) : Runs lower cfg d (handleAPIVerify cfg ext d r).1 := by
  unfold handleAPIVerify
  simp only [Database.UpdateUserTeam]
  repeat' split
  all_goals first
    | exact Runs.same lower cfg d
    | exact (Runs.same lower cfg d).then_setTeam _ _ (by simp [*])

theorem handleChangeTeam_runs (lower : Char → Char) (cfg : Config) (ext : Ext)
    (d : Database) (i : InteractionCreate) :
    Runs lower cfg d (handleChangeTeam cfg ext d i).1 := by
  unfold handleChangeTeam
  simp only [Database.UpdateUserTeam]
  repeat' split
  all_goals first
    | exact Runs.same lower cfg d
    | exact (Runs.same lower cfg d).then_setTeam _ _ (by simp [*])

theorem onMessageCreate_runs (lower : Char → Char) (cfg : Config) (ext : Ext) (d : Database)
    (m : MessageCreate) : Runs lower cfg d (onMessageCreate lower cfg ext d m).1 := by
  unfold onMessageCreate
  try dsimp only
  repeat' split
  all_goals first
    | exact Runs.same lower cfg d
    | exact Runs.of_create (Runs.same lower cfg d) ⟨ext, by assumption⟩ (by assumption)

theorem handleReset_runs (lower : Char → Char) (cfg : Config) (ext : Ext) (d : Database)
    (i : InteractionCreate) : Runs lower cfg d (handleReset cfg ext d i).1 := by
  unfold handleReset
  simp only [Database.DeleteUser]
  repeat' split
  all_goals first
    | exact Runs.same lower cfg d
    | exact (Runs.same lower cfg d).then_delete _

theorem handlePurge_runs (lower : Char → Char) (cfg : Config) (ext : Ext) (d : Database)
    (i : InteractionCreate) : Runs lower cfg d (handlePurge cfg ext d i).1 := by
  unfold handlePurge
  simp only [Database.DeleteUser]
  repeat' split
  all_goals first
    | exact Runs.same lower cfg d
    | exact (Runs.same lower cfg d).then_delete _

theorem handleRestrict_runs (lower : Char → Char) (cfg : Config) (ext : Ext) (d : Database)
    (i : InteractionCreate) : Runs lower cfg d (handleRestrict cfg ext d i).1 := by
  by_cases h : (handleRestrict cfg ext d i).1 = d
  · rw [h]; exact Runs.same lower cfg d
  · obtain ⟨o, user, -, hl, hv, -, hd⟩ := handleRestrict_changed h
    rw [hd]
    exact Relation.ReflTransGen.single (GuardedStep.unverify d _ user hl hv)

theorem handleUnrestrict_runs (lower : Char → Char) (cfg : Config) (ext : Ext)
    (d : Database) (i : InteractionCreate) :
    Runs lower cfg d (handleUnrestrict cfg ext d i).1 := by
  by_cases h : (handleUnrestrict cfg ext d i).1 = d
  · rw [h]; exact Runs.same lower cfg d
  · obtain ⟨o, user, -, hl, hn, hd⟩ := handleUnrestrict_changed h
    rw [hd]
    exact Relation.ReflTransGen.single (GuardedStep.reverify d _ user ext.now hl hn)

theorem handleManualVerify_runs (lower : Char → Char) (cfg : Config) (ext : Ext)
    (d : Database) (i : InteractionCreate) :
    Runs lower cfg d (handleManualVerify lower cfg ext d i).1 := by
  unfold handleManualVerify
  dsimp only
  repeat' split
  all_goals first
    | exact Runs.same lower cfg d
    | exact Runs.of_create (Runs.afterReplace lower cfg d _ _) ⟨ext, by assumption⟩
        (by assumption)
    | exact Runs.of_verifyWrite
        (Runs.of_create (Runs.afterReplace lower cfg d _ _) ⟨ext, by assumption⟩
          (by assumption)) (by assumption) (by assumption)


theorem handleVerify_runs (lower : Char → Char) (cfg : Config) (d : Database) (r : Request) :
    Runs lower cfg d (handleVerify cfg d r).1 := by
  unfold handleVerify
  try dsimp only
  repeat' split
  all_goals exact Runs.same lower cfg d

theorem onGuildMemberAdd_runs (lower : Char → Char) (cfg : Config) (ext : Ext) (d : Database)
    (m : DiscordUser) : Runs lower cfg d (onGuildMemberAdd cfg ext d m).1 := by
  unfold onGuildMemberAdd
  try dsimp only
  repeat' split
  all_goals exact Runs.same lower cfg d

theorem handleStats_runs (lower : Char → Char) (cfg : Config) (ext : Ext) (d : Database)
    (i : InteractionCreate) : Runs lower cfg d (handleStats cfg ext d i).1 := by
  unfold handleStats
  split
  · exact Runs.same lower cfg d
  · exact Runs.same lower cfg d

theorem handleList_runs (lower : Char → Char) (cfg : Config) (ext : Ext) (d : Database)
    (i : InteractionCreate) : Runs lower cfg d (handleList cfg ext d i).1 := by
  unfold handleList
  dsimp only
  split
  · exact Runs.same lower cfg d
  · split
    · exact Runs.same lower cfg d
    · exact Runs.same lower cfg d

theorem handleDomains_runs (lower : Char → Char) (cfg : Config) (ext : Ext) (d : Database)
    (i : InteractionCreate) : Runs lower cfg d (handleDomains cfg ext d i).1 := by
  unfold handleDomains
  split
  · exact Runs.same lower cfg d
  · exact Runs.same lower cfg d

theorem handleHelp_runs (lower : Char → Char) (cfg : Config) (ext : Ext) (d : Database)
    (i : InteractionCreate) : Runs lower cfg d (handleHelp cfg ext d i).1 :=
  Runs.same lower cfg d

theorem onInteractionCreate_runs (lower : Char → Char) (cfg : Config) (ext : Ext)
    (d : Database) (i : InteractionCreate) :
    Runs lower cfg d (onInteractionCreate lower cfg ext d i).1 := by
  unfold onInteractionCreate
  by_cases h0 : i.InteractionType ≠ InteractionApplicationCommand
  · rw [if_pos h0]; exact Runs.same lower cfg d
  rw [if_neg h0]
  by_cases h1 : i.Name = "heimdall-stats"
  · rw [if_pos h1]; exact handleStats_runs lower cfg ext d i
  rw [if_neg h1]
  by_cases h2 : i.Name = "heimdall-list"
  · rw [if_pos h2]; exact handleList_runs lower cfg ext d i
  rw [if_neg h2]
  by_cases h3 : i.Name = "heimdall-reset"
  · rw [if_pos h3]; exact handleReset_runs lower cfg ext d i
  rw [if_neg h3]
  by_cases h4 : i.Name = "heimdall-verify"
  · rw [if_pos h4]; exact handleManualVerify_runs lower cfg ext d i
  rw [if_neg h4]
  by_cases h5 : i.Name = "heimdall-changeteam"
  · rw [if_pos h5]; exact handleChangeTeam_runs lower cfg ext d i
  rw [if_neg h5]
  by_cases h6 : i.Name = "heimdall-restrict"
  · rw [if_pos h6]; exact handleRestrict_runs lower cfg ext d i
  rw [if_neg h6]
  by_cases h7 : i.Name = "heimdall-unrestrict"
  · rw [if_pos h7]; exact handleUnrestrict_runs lower cfg ext d i
  rw [if_neg h7]
  by_cases h8 : i.Name = "heimdall-domains"
  · rw [if_pos h8]; exact handleDomains_runs lower cfg ext d i
  rw [if_neg h8]
  by_cases h9 : i.Name = "heimdall-purge"
  · rw [if_pos h9]; exact handlePurge_runs lower cfg ext d i
  rw [if_neg h9]
  by_cases h10 : i.Name = "heimdall-help"
  · rw [if_pos h10]; exact handleHelp_runs lower cfg ext d i
  rw [if_neg h10]
  exact Runs.same lower cfg d

theorem step_runs (lower : Char → Char) (cfg : Config) (ext : Ext) (d : Database)
    (e : Event) : Runs lower cfg d (step lower cfg ext d e) := by
  cases e with
  | memberAdd user => exact onGuildMemberAdd_runs lower cfg ext d user
  | message m => exact onMessageCreate_runs lower cfg ext d m
  | interaction i => exact onInteractionCreate_runs lower cfg ext d i
  | getVerify r => exact handleVerify_runs lower cfg d r
  | postAPIVerify r => exact handleAPIVerify_runs lower cfg ext d r

theorem Reachable.runs {lower : Char → Char} {cfg : Config} {d : Database}
    (h : Reachable lower cfg d) : Runs lower cfg Database.empty d := by
  induction h with
  | init => exact Runs.same lower cfg _
  | step ext e _ ih => exact Relation.ReflTransGen.trans ih (step_runs lower cfg ext _ e)

/-! ## Canonical emails -/

theorem dropWhile_append_stop {p : Char → Bool} {h : Char} (hp : p h = false) :
    ∀ xs : List Char, (xs ++ [h]).dropWhile p = xs.dropWhile p ++ [h]
  | [] => by simp [List.dropWhile, hp]
  | x :: xs => by
    by_cases hx : p x = true
    · simp [List.dropWhile, hx, dropWhile_append_stop hp xs]
    · simp [List.dropWhile, hx]

theorem trimRunes_fixed (p : Char → Bool) (l : List Char) :
    (((((l.dropWhile p).reverse.dropWhile p).reverse).dropWhile p).reverse.dropWhile p).reverse
      = ((l.dropWhile p).reverse.dropWhile p).reverse := by
  cases ha : l.dropWhile p with
  | nil => simp
  | cons h tl =>
    have hp : p h = false := by
      have := List.head_dropWhile_not p l (by simp [ha])
      simpa [ha] using this
    have e1 : ((h :: tl).reverse.dropWhile p).reverse =
        h :: ((tl.reverse.dropWhile p).reverse) := by
      rw [List.reverse_cons, dropWhile_append_stop hp]
      simp
    rw [e1]
    have e2 : (h :: (tl.reverse.dropWhile p).reverse).dropWhile p =
        h :: (tl.reverse.dropWhile p).reverse := by
      simp [List.dropWhile, hp]
    rw [e2, List.reverse_cons, List.reverse_reverse, dropWhile_append_stop hp]
    have e3 : (tl.reverse.dropWhile p).dropWhile p = tl.reverse.dropWhile p := by
      cases hb : tl.reverse.dropWhile p with
      | nil => rfl
      | cons y ys =>
        have hy : p y = false := by
          have := List.head_dropWhile_not p tl.reverse (by simp [hb])
          simpa [hb] using this
        simp [List.dropWhile, hy]
    rw [e3]
    simp

theorem TrimSpace_idem (s : String) : TrimSpace (TrimSpace s) = TrimSpace s := by
  unfold TrimSpace
  simp only
  rw [trimRunes_fixed]

theorem mem_trim {p : Char → Bool} {l : List Char} {c : Char}
    (h : c ∈ ((l.dropWhile p).reverse.dropWhile p).reverse) : c ∈ l := by
  rw [List.mem_reverse] at h
  have h1 := (List.dropWhile_sublist p).subset h
  rw [List.mem_reverse] at h1
  exact (List.dropWhile_sublist p).subset h1

theorem ToLower_canonical {lower : Char → Char} (hl : ∀ c, lower (lower c) = lower c)
    (raw : String) :
    ToLower lower (canonicalEmail lower raw) = canonicalEmail lower raw := by
  unfold canonicalEmail TrimSpace ToLower
  simp only
  congr 1
  conv_rhs => rw [← List.map_id (((raw.data.map lower).dropWhile IsSpace).reverse.dropWhile
    IsSpace).reverse]
  apply List.map_congr_left
  intro c hc
  have := mem_trim hc
  obtain ⟨c0, -, rfl⟩ := List.mem_map.mp this
  simp [hl]

theorem canonicalEmail_fixed {lower : Char → Char} (hl : ∀ c, lower (lower c) = lower c)
    (raw : String) :
    ToLower lower (canonicalEmail lower raw) = canonicalEmail lower raw ∧
    TrimSpace (canonicalEmail lower raw) = canonicalEmail lower raw :=
  ⟨ToLower_canonical hl raw, by unfold canonicalEmail; exact TrimSpace_idem _⟩

theorem EmailsCanonical.afterGuarded {lower : Char → Char} {cfg : Config} {d d2 : Database}
    (hl : ∀ c, lower (lower c) = lower c) (h : GuardedStep lower cfg d d2)
    (hinv : EmailsCanonical lower d) : EmailsCanonical lower d2 := by
  have hupd : ∀ (discordID : String) (f : Row → Row), (∀ r, (f r).email = r.email) →
      EmailsCanonical lower (d.update discordID f) := by
    intro discordID f hf r hr
    simp only [Database.update, List.mem_map] at hr
    obtain ⟨a, ha, rfl⟩ := hr
    split
    · rw [hf a]; exact hinv a ha
    · exact hinv a ha
  cases h with
  | create discordID username raw code now _ =>
    rcases CreateUser_cases d discordID (canonicalEmail lower raw) code with hc | hc
    · rw [CreateUser_conflict hc]; exact hinv
    · rw [CreateUser_fresh hc]
      intro r hr
      simp only [List.mem_append, List.mem_singleton] at hr
      rcases hr with hr | rfl
      · exact hinv r hr
      · exact canonicalEmail_fixed hl raw
  | delete discordID =>
    intro r hr
    simp only [Database.DeleteUser, List.mem_filter] at hr
    exact hinv r hr.1
  | setTeam discordID team now _ => exact hupd _ _ (fun _ => rfl)
  | markVerified discordID now _ => exact hupd _ _ (fun _ => rfl)
  | unverify discordID user _ _ => exact hupd _ _ (fun _ => rfl)
  | reverify discordID user now _ _ => exact hupd _ _ (fun _ => rfl)

theorem Runs.keepsEmailsCanonical {lower : Char → Char} {cfg : Config} {d d2 : Database}
    (hl : ∀ c, lower (lower c) = lower c) (h : Runs lower cfg d d2)
    (hinv : EmailsCanonical lower d) : EmailsCanonical lower d2 := by
  unfold Runs at h
  induction h with
  | refl => exact hinv
  | tail _ hstep ih => exact ih.afterGuarded hl hstep

theorem Reachable.emailsCanonical {lower : Char → Char} {cfg : Config} {d : Database}
    (hl : ∀ c, lower (lower c) = lower c) (h : Reachable lower cfg d) :
    EmailsCanonical lower d :=
  h.runs.keepsEmailsCanonical hl (fun r hr => by simp [Database.empty] at hr)

/-! ## Canonical emails, verbatim purge, and teams -/

theorem asciiLower_idem (c : Char) : asciiLower (asciiLower c) = asciiLower c := by
  by_cases h : 65 ≤ c.toNat ∧ c.toNat ≤ 90
  · have hc : c = Char.ofNat c.toNat := (Char.ofNat_toNat c).symm
    generalize c.toNat = n at h hc
    subst hc
    obtain ⟨h1, h2⟩ := h
    interval_cases n <;> decide
  · have : asciiLower c = c := by simp [asciiLower, h]
    rw [this, this]

/-- C25. In every reachable store state every record's email is in canonical form: it is
unchanged by lower-casing and by trimming surrounding white space, so it is a fixed point
of the canonicalisation `TrimSpace(ToLower(·))` that the member DM and the moderator
manual-verify apply before their checks and their insert. The rune map `lower` stands for
`unicode.ToLower` and is assumed idempotent. -/
theorem stored_emails_canonical (lower : Char → Char) (cfg : Config) (d : Database)
    (hl : ∀ c, lower (lower c) = lower c) (hreach : Reachable lower cfg d) :
    ∀ r ∈ d.rows, ToLower lower r.email = r.email ∧ TrimSpace r.email = r.email ∧
      canonicalEmail lower r.email = r.email := by
  intro r hr
  obtain ⟨h1, h2⟩ := hreach.emailsCanonical hl r hr
  refine ⟨h1, h2, ?_⟩
  unfold canonicalEmail
  rw [h1, h2]

/-- Witness for C25: the store in which alice is Verified is reachable, and her email is
canonical for the ASCII lower-casing. -/
theorem stored_emails_canonical_witness :
    ToLower asciiLower aliceRow.email = aliceRow.email ∧
      TrimSpace aliceRow.email = aliceRow.email ∧
      canonicalEmail asciiLower aliceRow.email = aliceRow.email :=
  stored_emails_canonical asciiLower sampleConfig verifiedStore asciiLower_idem
    verifiedStore_reachable
    { aliceRow with team_role := some "red", verified := true, verified_at := some 0 }
    (by decide)

/-- C30. Purge by email looks the option value up verbatim. In a reachable store with a
record `r`, a purge whose first option is `email` with a value that canonicalises to
`r.email` but is not `r.email` itself (it differs in letter case or surrounding white
space) finds no user: the lookup answers no rows, the reply is "No user found", the store
is unchanged so `r` is still there, and no role is granted or revoked. -/
theorem handlePurge_email_verbatim (lower : Char → Char) (cfg : Config) (ext : Ext)
    (d : Database) (i : InteractionCreate) (o : CommandOption) (rest : List CommandOption)
    (r : Row) (hl : ∀ c, lower (lower c) = lower c) (hreach : Reachable lower cfg d)
    (ha : isAdmin cfg ext i.Member = true) (hopts : i.Options = o :: rest)
    (h2 : o.Name = "email") (hr : r ∈ d.rows)
    (hsame : canonicalEmail lower o.StringValue = r.email)
    (hdiff : o.StringValue ≠ r.email) :
    d.GetUserByEmail o.StringValue = .error DBError.ErrNoRows ∧
    handlePurge cfg ext d i =
      (d, [Effect.respondEphemeral
        ("❌ No user found with email: `" ++ o.StringValue ++ "`")]) ∧
    r ∈ (handlePurge cfg ext d i).1.rows ∧
    touchesRoles (handlePurge cfg ext d i).2 = false := by
  have hnone : ∀ x ∈ d.rows, x.email ≠ o.StringValue := by
    intro x hx he
    obtain ⟨e1, e2⟩ := hreach.emailsCanonical hl x hx
    have : canonicalEmail lower o.StringValue = o.StringValue := by
      unfold canonicalEmail
      rw [← he, e1, e2]
    rw [this] at hsame
    exact hdiff hsame
  have hlook : d.GetUserByEmail o.StringValue = .error DBError.ErrNoRows := by
    unfold Database.GetUserByEmail
    rw [find_none_of_forall (fun x hx => by simpa using hnone x hx)]
  have key : handlePurge cfg ext d i =
      (d, [Effect.respondEphemeral
        ("❌ No user found with email: `" ++ o.StringValue ++ "`")]) := by
    unfold handlePurge
    simp [ha, hopts, purgeLookup, h2, hlook]
  refine ⟨hlook, key, ?_, ?_⟩
  · rw [key]
    exact hr
  · rw [key]
    simp [touchesRoles]

/-- Witness for C30: alice is stored with `alice@acme.com`; the purge of ` Alice@ACME.com`
by a moderator finds no user and changes nothing. -/
theorem handlePurge_email_verbatim_witness :
    verifiedStore.GetUserByEmail " Alice@ACME.com" = .error DBError.ErrNoRows ∧
    handlePurge sampleConfig {} verifiedStore
        { purgeByEmail with Options := [{ Name := "email", StringValue := " Alice@ACME.com" }] } =
      (verifiedStore, [Effect.respondEphemeral
        ("❌ No user found with email: `" ++ " Alice@ACME.com" ++ "`")]) ∧
    { aliceRow with team_role := some "red", verified := true, verified_at := some 0 } ∈
      (handlePurge sampleConfig {} verifiedStore
        { purgeByEmail with
          Options := [{ Name := "email", StringValue := " Alice@ACME.com" }] }).1.rows ∧
    touchesRoles (handlePurge sampleConfig {} verifiedStore
        { purgeByEmail with
          Options := [{ Name := "email", StringValue := " Alice@ACME.com" }] }).2 = false :=
  handlePurge_email_verbatim asciiLower sampleConfig {} verifiedStore
    { purgeByEmail with Options := [{ Name := "email", StringValue := " Alice@ACME.com" }] }
    { Name := "email", StringValue := " Alice@ACME.com" } []
    { aliceRow with team_role := some "red", verified := true, verified_at := some 0 }
    asciiLower_idem verifiedStore_reachable (by decide) rfl rfl (by decide)
    (by decide) (by decide)

/-! ## Teams of verified and restricted records -/

theorem GuardedStep.toDBStep {lower : Char → Char} {cfg : Config} {d d2 : Database}
    (h : GuardedStep lower cfg d d2) : DBStep d d2 := by
  cases h with
  | create discordID username raw code now hgen =>
    obtain ⟨ext, hgen⟩ := hgen
    exact DBStep.create d _ _ _ _ _ (generateVerificationCode_length hgen)
  | delete discordID => exact DBStep.delete d _
  | setTeam discordID team now _ => exact DBStep.update d _ _ (fun _ => ⟨rfl, rfl, rfl⟩)
  | markVerified discordID now _ => exact DBStep.update d _ _ (fun _ => ⟨rfl, rfl, rfl⟩)
  | unverify discordID user _ _ => exact DBStep.update d _ _ (fun _ => ⟨rfl, rfl, rfl⟩)
  | reverify discordID user now _ _ => exact DBStep.update d _ _ (fun _ => ⟨rfl, rfl, rfl⟩)

theorem lookup_empty_name {teams : List (String × String)} (h : ∀ p ∈ teams, p.1 ≠ "") :
    teams.lookup "" = none := by
  induction teams with
  | nil => rfl
  | cons p ps ih =>
    obtain ⟨k, v⟩ := p
    have hk : k ≠ "" := h (k, v) (by simp)
    have hb : ("" == k) = false := by simpa using fun e : "" = k => hk e.symm
    rw [List.lookup, hb]
    exact ih (fun q hq => h q (by simp [hq]))

theorem TeamsAssigned.keptByGuarded {lower : Char → Char} {cfg : Config} {d d2 : Database}
    (hen : cfg.Features.EnableTeamSelection = true) (hnames : cfg.team "" = none)
    (h : GuardedStep lower cfg d d2) (hu : UniqueKeys d) (hinv : TeamsAssigned cfg d) :
    TeamsAssigned cfg d2 := by
  cases h with
  | create discordID username raw code now _ =>
    rcases CreateUser_cases d discordID (canonicalEmail lower raw) code with hc | hc
    · rw [CreateUser_conflict hc]; exact hinv
    · rw [CreateUser_fresh hc]
      intro r hr
      simp only [List.mem_append, List.mem_singleton] at hr
      rcases hr with hr | rfl
      · exact hinv r hr
      · exact Or.inl ⟨rfl, rfl⟩
  | delete discordID =>
    intro r hr
    simp only [Database.DeleteUser, List.mem_filter] at hr
    exact hinv r hr.1
  | setTeam discordID team now ht =>
    intro r hr
    simp only [Database.UpdateUserTeam, Database.update, List.mem_map] at hr
    obtain ⟨a, ha, rfl⟩ := hr
    split
    · right
      refine ⟨?_, team, rfl, ?_, ht⟩
      · simp [Row.state]
      · rintro rfl
        exact ht hnames
    · exact hinv a ha
  | markVerified discordID now hoff =>
    rw [hen] at hoff
    cases hoff
  | unverify discordID user hl hv =>
    obtain ⟨r0, hr0, hid, rfl⟩ := GetUserByDiscordID_ok hl
    intro r hr
    simp only [Database.UnverifyUser, Database.update, List.mem_map] at hr
    obtain ⟨a, ha, rfl⟩ := hr
    split
    · rename_i hmatch
      have ha0 : a = r0 := hu.eq_of_discord_id hr0 ha (by rw [hid]; simpa using hmatch)
      subst ha0
      rcases hinv a ha with ⟨hp, -⟩ | ⟨-, t, ht, hne, hmap⟩
      · have := (Row.state_pending hp).1
        rw [show a.verified = true from hv] at this
        cases this
      · exact Or.inr ⟨by simp [Row.state], t, ht, hne, hmap⟩
    · exact hinv a ha
  | reverify discordID user now hl hn =>
    obtain ⟨r0, hr0, hid, rfl⟩ := GetUserByDiscordID_ok hl
    intro r hr
    simp only [Database.ReverifyUser, Database.update, List.mem_map] at hr
    obtain ⟨a, ha, rfl⟩ := hr
    split
    · rename_i hmatch
      have ha0 : a = r0 := hu.eq_of_discord_id hr0 ha (by rw [hid]; simpa using hmatch)
      subst ha0
      rcases hinv a ha with ⟨hp, -⟩ | ⟨-, t, ht, hne, hmap⟩
      · have := (Row.state_pending hp).2
        rw [show a.unverified = true from hn] at this
        cases this
      · exact Or.inr ⟨by simp [Row.state], t, ht, hne, hmap⟩
    · exact hinv a ha

theorem Runs.keepsTeamsAssigned {lower : Char → Char} {cfg : Config} {d d2 : Database}
    (hen : cfg.Features.EnableTeamSelection = true) (hnames : cfg.team "" = none)
    (h : Runs lower cfg d d2) (hu : UniqueKeys d) (hinv : TeamsAssigned cfg d) :
    UniqueKeys d2 ∧ TeamsAssigned cfg d2 := by
  unfold Runs at h
  induction h with
  | refl => exact ⟨hu, hinv⟩
  | tail _ hstep ih =>
    exact ⟨ih.1.afterStatement hstep.toDBStep, ih.2.keptByGuarded hen hnames hstep ih.1⟩

theorem overtakenRestrict_nil (lower : Char → Char) (cfg : Config) (ext : Ext)
    (d : Database) (i : InteractionCreate) :
    overtakenRestrict lower cfg ext i [] d = handleRestrict cfg ext d i := by
  unfold overtakenRestrict handleRestrict
  by_cases h1 : isAdmin cfg ext i.Member = true
  swap
  · simp [stepRestrict, h1]
  cases h2 : i.Options[0]? with
  | none => simp [stepRestrict, h1, h2]
  | some opt0 =>
    cases h3 : d.GetUserByDiscordID opt0.UserValue.ID with
    | error e => cases e <;> simp [stepRestrict, h1, h2, h3]
    | ok user =>
      by_cases h4 : user.Verified = true
      swap
      · simp [stepRestrict, h1, h2, h3, h4]
      by_cases h5 : user.Unverified = true
      · simp [stepRestrict, h1, h2, h3, h4, h5]
      cases h6 : i.Options[1]? <;>
        simp [stepRestrict, h1, h2, h3, h4, h5, h6, Database.UnverifyUser]

theorem teamsAssigned_of_runs {lower : Char → Char} {cfg : Config} {d : Database}
    (hen : cfg.Features.EnableTeamSelection = true) (hnames : ∀ p ∈ cfg.Teams, p.1 ≠ "")
    (hruns : Runs lower cfg Database.empty d) :
    ∀ r ∈ d.rows,
      ((scanUser r).TeamRole = "" ↔ r.state = State.Pending) ∧
      (r.state ≠ State.Pending → cfg.team (scanUser r).TeamRole ≠ none) := by
  have hinv := (hruns.keepsTeamsAssigned hen (lookup_empty_name hnames)
    List.Pairwise.nil (fun r hr => by simp [Database.empty] at hr)).2
  intro r hr
  rcases hinv r hr with ⟨hp, hnone⟩ | ⟨hp, t, ht, hne, hmap⟩
  · refine ⟨⟨fun _ => hp, fun _ => by simp [scanUser, hnone]⟩, fun h => absurd hp h⟩
  · have e : (scanUser r).TeamRole = t := by simp [scanUser, ht]
    rw [e]
    exact ⟨⟨fun h => absurd h hne, fun h => absurd h hp⟩, fun _ => hmap⟩

/-- C22 (as stated) fails. The handlers hold no transaction and no lock, and
`handleRestrict` issues its lookup and its UPDATE as two statements (cut in two pieces
that, run one after the other, are `handleRestrict`). Team selection is enabled and both
team names are non-empty. Alice is Verified with team `red`; a restrict of alice reads her
record; before its UPDATE a reset deletes the record and alice sends her address again,
which inserts a Pending record; the UPDATE then flags that record. The restrict reports
success, and the store holds a Restricted record whose team is empty. No sequence of
handler runs executed one at a time reaches that store. -/
theorem handleRestrict_overtaken_counterexample :
    (∀ (lower : Char → Char) (cfg : Config) (ext : Ext) (d : Database)
        (i : InteractionCreate),
      overtakenRestrict lower cfg ext i [] d = handleRestrict cfg ext d i) ∧
    sampleConfig.Features.EnableTeamSelection = true ∧
    (∀ p ∈ sampleConfig.Teams, p.1 ≠ "") ∧
    Reachable asciiLower sampleConfig verifiedStore ∧
    (overtakenRestrict asciiLower sampleConfig {} (onAlice "heimdall-restrict")
        [({}, Event.interaction (onAlice "heimdall-reset")), ({}, Event.message aliceDM)]
        verifiedStore).1 = teamlessStore ∧
    completed (overtakenRestrict asciiLower sampleConfig {} (onAlice "heimdall-restrict")
        [({}, Event.interaction (onAlice "heimdall-reset")), ({}, Event.message aliceDM)]
        verifiedStore).2 = true ∧
    (∀ r ∈ teamlessStore.rows,
      r.state = State.Restricted ∧ (scanUser r).TeamRole = "" ∧ r.team_role = none) ∧
    ¬ Reachable asciiLower sampleConfig teamlessStore := by
  refine ⟨overtakenRestrict_nil, rfl, by decide, verifiedStore_reachable, by decide, by decide,
    by decide, ?_⟩
  intro hreach
  have h := (teamsAssigned_of_runs rfl (by decide) hreach.runs
    { aliceRow with id := 2, unverified := true } (by decide)).1
  exact absurd (h.mp (by decide)) (by decide)

/-- C22 (amended). With team selection enabled and every configured team name non-empty,
a record's team (`User.TeamRole`, the empty string when the column is NULL) is empty if
and only if the record is Pending, and the team of every record that is not Pending is a
name of the configured mapping: in every store state reached by handler runs executed one
at a time, and more generally in every store state reached by the handlers' store
statements in any order, as long as the UPDATE of a restrict or an unrestrict acts on the
store its lookup read. -/
theorem teamRole_empty_iff_pending (lower : Char → Char) (cfg : Config)
    (hen : cfg.Features.EnableTeamSelection = true) (hnames : ∀ p ∈ cfg.Teams, p.1 ≠ "") :
    (∀ d : Database, Reachable lower cfg d →
      ∀ r ∈ d.rows,
        ((scanUser r).TeamRole = "" ↔ r.state = State.Pending) ∧
        (r.state ≠ State.Pending → cfg.team (scanUser r).TeamRole ≠ none)) ∧
    (∀ d : Database, Runs lower cfg Database.empty d →
      ∀ r ∈ d.rows,
        ((scanUser r).TeamRole = "" ↔ r.state = State.Pending) ∧
        (r.state ≠ State.Pending → cfg.team (scanUser r).TeamRole ≠ none)) :=
  ⟨fun _ hreach => teamsAssigned_of_runs hen hnames hreach.runs,
   fun _ hruns => teamsAssigned_of_runs hen hnames hruns⟩

/-- Witness for C22 (amended): in the reachable store where alice is Restricted her team
`red` is non-empty and in the mapping; in the store after the INSERT of her record she is
Pending with no team. -/
theorem teamRole_empty_iff_pending_witness :
    (((scanUser { aliceRow with team_role := some "red", verified := false, unverified := true,
                                verified_at := some 0 }).TeamRole = "" ↔
      ({ aliceRow with team_role := some "red", verified := false, unverified := true,
                       verified_at := some 0 } : Row).state = State.Pending) ∧
    (({ aliceRow with team_role := some "red", verified := false, unverified := true,
                      verified_at := some 0 } : Row).state ≠ State.Pending →
      sampleConfig.team
        (scanUser { aliceRow with team_role := some "red", verified := false,
                                  unverified := true, verified_at := some 0 }).TeamRole ≠ none)) ∧
    (((scanUser aliceRow).TeamRole = "" ↔ aliceRow.state = State.Pending) ∧
      (aliceRow.state ≠ State.Pending →
        sampleConfig.team (scanUser aliceRow).TeamRole ≠ none)) :=
  ⟨(teamRole_empty_iff_pending asciiLower sampleConfig rfl (by decide)).1 restrictedStore
      restrictedStore_reachable
      { aliceRow with team_role := some "red", verified := false, unverified := true,
                      verified_at := some 0 }
      (by decide),
   (teamRole_empty_iff_pending asciiLower sampleConfig rfl (by decide)).2 pendingStore
      (Relation.ReflTransGen.single
        (GuardedStep.create Database.empty "1001" "alice" " Alice@Acme.com " sampleCode 0
          ⟨{}, rfl⟩))
      aliceRow (by decide)⟩

/-! ## Failure of an outside call after the store was written -/

theorem onMessageCreate_of_pending {lower : Char → Char} {cfg : Config} {ext : Ext}
    {d : Database} {m : MessageCreate} {r : Row}
    (hu : UniqueKeys d) (hr : r ∈ d.rows) (hid : r.discord_id = m.Author.ID)
    (hs : r.state = State.Pending)
    (hbot : m.Author.Bot = false) (hdm : ext.Channel m.ChannelID = some ChannelTypeDM)
    (hv : isValidEmail (submittedEmail lower m) = true)
    (ha : isApprovedDomain lower cfg.ApprovedDomains (submittedEmail lower m) = true) :
    onMessageCreate lower cfg ext d m =
      (d, [Effect.ChannelMessageSend m.ChannelID
        (if d.EmailExists (submittedEmail lower m) = true
          then alreadyRegisteredReply else inProgressReply)]) := by
  have hlook := hu.byDiscordID hr
  rw [hid] at hlook
  have hex := DiscordIDExists_of_mem hr
  rw [hid] at hex
  obtain ⟨hf1, hf2⟩ := Row.state_pending hs
  unfold submittedEmail at hv ha ⊢
  unfold onMessageCreate
  simp only [hbot, hdm, hlook, foundAnd, scanUser, hf1, hf2, hv, ha, hex, ne_eq,
    not_true_eq_false, if_false, Bool.false_eq_true, Bool.not_true, if_true]
  split <;> rfl

/-- C28. A first contact passes every check and its record is inserted, but sending the
verification email fails: the handler keeps the inserted row (Pending, with its code and
the submitted email), and replies that sending failed. The store keeps its unique keys.
From then on, in every store that still holds that row, a DM of that member with a
well-formed approved email leaves the store unchanged, issues no verification email, and
is answered "already registered" or "already in progress". -/
theorem onMessageCreate_send_failure (lower : Char → Char) (cfg : Config) (ext : Ext)
    (d : Database) (m : MessageCreate) (code : String) (hu : UniqueKeys d)
    (hbot : m.Author.Bot = false) (hdm : ext.Channel m.ChannelID = some ChannelTypeDM)
    (hnew : ∀ r ∈ d.rows, r.discord_id ≠ m.Author.ID)
    (hv : isValidEmail (submittedEmail lower m) = true)
    (ha : isApprovedDomain lower cfg.ApprovedDomains (submittedEmail lower m) = true)
    (hfree : ∀ r ∈ d.rows, r.email ≠ submittedEmail lower m)
    (hgen : generateVerificationCode ext = some code)
    (hfresh : ∀ r ∈ d.rows, r.verification_code ≠ code)
    (hfail : ext.SendVerificationEmail (submittedEmail lower m) code m.Author.Username = false) :
    ∃ r, onMessageCreate lower cfg ext d m =
        ({ rows := d.rows ++ [r], seq := d.seq + 1 },
         [Effect.SendVerificationEmail (submittedEmail lower m) code m.Author.Username,
          Effect.ChannelMessageSend m.ChannelID
            "❌ Failed to send verification email. Please contact an administrator."]) ∧
      r.state = State.Pending ∧ r.discord_id = m.Author.ID ∧
      r.email = submittedEmail lower m ∧ r.verification_code = code ∧
      UniqueKeys { rows := d.rows ++ [r], seq := d.seq + 1 } ∧
      ∀ (ext2 : Ext) (d2 : Database) (m2 : MessageCreate),
        UniqueKeys d2 → r ∈ d2.rows → m2.Author.ID = m.Author.ID → m2.Author.Bot = false →
        ext2.Channel m2.ChannelID = some ChannelTypeDM →
        isValidEmail (submittedEmail lower m2) = true →
        isApprovedDomain lower cfg.ApprovedDomains (submittedEmail lower m2) = true →
        (onMessageCreate lower cfg ext2 d2 m2).1 = d2 ∧
        sendsVerificationEmail (onMessageCreate lower cfg ext2 d2 m2).2 = false ∧
        ((onMessageCreate lower cfg ext2 d2 m2).2 =
            [Effect.ChannelMessageSend m2.ChannelID alreadyRegisteredReply] ∨
         (onMessageCreate lower cfg ext2 d2 m2).2 =
            [Effect.ChannelMessageSend m2.ChannelID inProgressReply]) := by
  have hcreate := @CreateUser_fresh d m.Author.ID (displayName m.Author)
    (submittedEmail lower m) code ext.now (fun r hr => ⟨hnew r hr, hfree r hr, hfresh r hr⟩)
  refine ⟨{ id := d.seq + 1, discord_id := m.Author.ID,
             discord_username := displayName m.Author,
             email := submittedEmail lower m,
             verification_code := code, team_role := none,
             verified := false, unverified := false,
             created_at := ext.now, verified_at := none }, ?_, rfl, rfl, rfl, rfl, ?_, ?_⟩
  · unfold submittedEmail at hv ha hfree hcreate hfail ⊢
    unfold onMessageCreate
    simp only [hbot, hdm, GetUserByDiscordID_none hnew, foundAnd, hv, ha,
      EmailExists_false hfree, DiscordIDExists_false hnew, hgen, hcreate, hfail, ne_eq,
      not_true_eq_false, if_false, Bool.false_eq_true, Bool.not_true, Bool.not_false, if_true]
  · have hstep := hu.afterStatement (DBStep.create d m.Author.ID (displayName m.Author)
      (submittedEmail lower m) code ext.now (generateVerificationCode_length hgen))
    rw [hcreate] at hstep
    exact hstep
  · intro ext2 d2 m2 hu2 hr2 hid2 hbot2 hdm2 hv2 ha2
    rw [onMessageCreate_of_pending hu2 hr2 hid2.symm rfl hbot2 hdm2 hv2 ha2]
    refine ⟨rfl, by simp [sendsVerificationEmail], ?_⟩
    by_cases he : d2.EmailExists (submittedEmail lower m2) = true
    · left; simp [he]
    · right; simp [he]

theorem handleManualVerify_written {lower : Char → Char} {cfg : Config} {ext : Ext}
    {d : Database} {i : InteractionCreate} {o0 o1 o2 : CommandOption}
    {rest : List CommandOption} {roleID code : String}
    (hadm : isAdmin cfg ext i.Member = true) (hopts : i.Options = o0 :: o1 :: o2 :: rest)
    (hen : cfg.Features.EnableTeamSelection = true)
    (hv : isValidEmail (canonicalEmail lower o1.StringValue) = true)
    (ha : isApprovedDomain lower cfg.ApprovedDomains (canonicalEmail lower o1.StringValue) = true)
    (ht : cfg.team o2.StringValue = some roleID)
    (hnotv : ∀ x ∈ d.rows, x.discord_id = o0.UserValue.ID → x.verified = false)
    (hfree : ∀ x ∈ d.rows, x.email ≠ canonicalEmail lower o1.StringValue)
    (hgen : generateVerificationCode ext = some code)
    (hfresh : ∀ x ∈ d.rows, x.verification_code ≠ code) :
    ∃ d0 : Database, (∀ x ∈ d0.rows, x ∈ d.rows ∧ x.discord_id ≠ o0.UserValue.ID) ∧
      handleManualVerify lower cfg ext d i =
        ({ rows := d0.rows ++
            [{ id := d0.seq + 1, discord_id := o0.UserValue.ID,
               discord_username := displayName o0.UserValue,
               email := canonicalEmail lower o1.StringValue,
               verification_code := code, team_role := some o2.StringValue,
               verified := true, unverified := false,
               created_at := ext.now, verified_at := some ext.now }],
           seq := d0.seq + 1 },
         assignMembersRole cfg o0.UserValue.ID ++
           AssignRole cfg o0.UserValue.ID roleID ::
           (if assignRoleOk cfg ext o0.UserValue.ID roleID = true then
              [Effect.respondEphemeral ("✅ Successfully verified <@" ++ o0.UserValue.ID ++
                 "> with email `" ++ canonicalEmail lower o1.StringValue ++
                 "` and assigned to **" ++ o2.StringValue ++ "** team."),
               Effect.SendDM o0.UserValue.ID
                 ("✅ You have been manually verified by a moderator! Welcome to the **" ++
                   o2.StringValue ++ "** team. You now have access to the server.")]
            else
              [Effect.respondEphemeral "⚠️ User verified in database but failed to assign Discord role. Please assign manually."])) := by
  have hnv : foundAnd (d.GetUserByDiscordID o0.UserValue.ID) (fun u => u.Verified) = false := by
    cases hlook : d.GetUserByDiscordID o0.UserValue.ID with
    | error e => rfl
    | ok u =>
      obtain ⟨r, hr, hid, rfl⟩ := GetUserByDiscordID_ok hlook
      simpa [foundAnd, scanUser] using hnotv r hr hid
  have main : ∀ d0 : Database, (∀ x ∈ d0.rows, x ∈ d.rows ∧ x.discord_id ≠ o0.UserValue.ID) →
      d0.CreateUser o0.UserValue.ID (displayName o0.UserValue)
          (canonicalEmail lower o1.StringValue) code ext.now =
        ({ rows := d0.rows ++ [{ id := d0.seq + 1, discord_id := o0.UserValue.ID,
                                 discord_username := displayName o0.UserValue,
                                 email := canonicalEmail lower o1.StringValue,
                                 verification_code := code, team_role := none,
                                 verified := false, unverified := false,
                                 created_at := ext.now, verified_at := none }],
           seq := d0.seq + 1 }, none) ∧
      d0.rows.map (fun x => if (x.discord_id == o0.UserValue.ID) = true then
        ({ x with team_role := some o2.StringValue, verified := true,
                  verified_at := some ext.now } : Row) else x) = d0.rows := by
    intro d0 hd0
    refine ⟨CreateUser_fresh
      (fun r hr => ⟨(hd0 r hr).2, hfree r (hd0 r hr).1, hfresh r (hd0 r hr).1⟩), ?_⟩
    conv_rhs => rw [← List.map_id d0.rows]
    apply List.map_congr_left
    intro x hx
    simp [(hd0 x hx).2]
  unfold canonicalEmail at hv ha hfree main ⊢
  cases hlook : d.GetUserByDiscordID o0.UserValue.ID with
  | ok u =>
    have hd0 : ∀ x ∈ (d.DeleteUser o0.UserValue.ID).1.rows,
        x ∈ d.rows ∧ x.discord_id ≠ o0.UserValue.ID := by
      intro x hx
      simp only [Database.DeleteUser, List.mem_filter] at hx
      exact ⟨hx.1, by simpa using hx.2⟩
    obtain ⟨hcreate, hupd⟩ := main _ hd0
    rw [hlook] at hnv
    refine ⟨_, hd0, ?_⟩
    unfold handleManualVerify
    simp only [hadm, hopts, hen, hv, ha, ht, hnv, hlook, EmailExists_false hfree, hgen,
      hcreate, Database.UpdateUserTeam, Database.update, List.getElem?_cons_zero,
      List.getElem?_cons_succ, Option.map_some', Bool.not_true, Bool.false_eq_true, if_false,
      if_true, and_false, true_and, Option.getD_some, List.map_append, List.map_cons,
      List.map_nil, beq_self_eq_true, reduceCtorEq, hupd]
    cases hok : assignRoleOk cfg ext o0.UserValue.ID roleID <;> simp
  | error e =>
    have hd0 : ∀ x ∈ d.rows, x ∈ d.rows ∧ x.discord_id ≠ o0.UserValue.ID := by
      intro x hx
      refine ⟨hx, fun hid => ?_⟩
      unfold Database.GetUserByDiscordID at hlook
      cases hf : d.rows.find? (fun r => r.discord_id == o0.UserValue.ID) with
      | some r => simp [hf] at hlook
      | none =>
        rw [List.find?_eq_none] at hf
        exact hf x hx (by simpa using hid)
    obtain ⟨hcreate, hupd⟩ := main _ hd0
    rw [hlook] at hnv
    refine ⟨_, hd0, ?_⟩
    unfold handleManualVerify
    simp only [hadm, hopts, hen, hv, ha, ht, hnv, hlook, EmailExists_false hfree, hgen,
      hcreate, Database.UpdateUserTeam, Database.update, List.getElem?_cons_zero,
      List.getElem?_cons_succ, Option.map_some', Bool.not_true, Bool.false_eq_true, if_false,
      if_true, and_false, true_and, Option.getD_some, List.map_append, List.map_cons,
      List.map_nil, beq_self_eq_true, reduceCtorEq, hupd]
    cases hok : assignRoleOk cfg ext o0.UserValue.ID roleID <;> simp

theorem handleManualVerify_marked {lower : Char → Char} {cfg : Config} {ext : Ext}
    {d : Database} {i : InteractionCreate} {o0 o1 : CommandOption}
    {rest : List CommandOption} {code : String}
    (hadm : isAdmin cfg ext i.Member = true) (hopts : i.Options = o0 :: o1 :: rest)
    (hoff : cfg.Features.EnableTeamSelection = false)
    (hv : isValidEmail (canonicalEmail lower o1.StringValue) = true)
    (ha : isApprovedDomain lower cfg.ApprovedDomains (canonicalEmail lower o1.StringValue) = true)
    (hnotv : ∀ x ∈ d.rows, x.discord_id = o0.UserValue.ID → x.verified = false)
    (hfree : ∀ x ∈ d.rows, x.email ≠ canonicalEmail lower o1.StringValue)
    (hgen : generateVerificationCode ext = some code)
    (hfresh : ∀ x ∈ d.rows, x.verification_code ≠ code) :
    ∃ d0 : Database, (∀ x ∈ d0.rows, x ∈ d.rows ∧ x.discord_id ≠ o0.UserValue.ID) ∧
      handleManualVerify lower cfg ext d i =
        ({ rows := d0.rows ++
            [{ id := d0.seq + 1, discord_id := o0.UserValue.ID,
               discord_username := displayName o0.UserValue,
               email := canonicalEmail lower o1.StringValue,
               verification_code := code, team_role := none,
               verified := true, unverified := false,
               created_at := ext.now, verified_at := some ext.now }],
           seq := d0.seq + 1 },
         assignMembersRole cfg o0.UserValue.ID ++
           [Effect.respondEphemeral ("✅ Successfully verified <@" ++ o0.UserValue.ID ++
              "> with email `" ++ canonicalEmail lower o1.StringValue ++ "`."),
            Effect.SendDM o0.UserValue.ID
              "✅ You have been manually verified by a moderator! You now have access to the server."]) := by
  have hnv : foundAnd (d.GetUserByDiscordID o0.UserValue.ID) (fun u => u.Verified) = false := by
    cases hlook : d.GetUserByDiscordID o0.UserValue.ID with
    | error e => rfl
    | ok u =>
      obtain ⟨r, hr, hid, rfl⟩ := GetUserByDiscordID_ok hlook
      simpa [foundAnd, scanUser] using hnotv r hr hid
  have main : ∀ d0 : Database, (∀ x ∈ d0.rows, x ∈ d.rows ∧ x.discord_id ≠ o0.UserValue.ID) →
      d0.CreateUser o0.UserValue.ID (displayName o0.UserValue)
          (canonicalEmail lower o1.StringValue) code ext.now =
        ({ rows := d0.rows ++ [{ id := d0.seq + 1, discord_id := o0.UserValue.ID,
                                 discord_username := displayName o0.UserValue,
                                 email := canonicalEmail lower o1.StringValue,
                                 verification_code := code, team_role := none,
                                 verified := false, unverified := false,
                                 created_at := ext.now, verified_at := none }],
           seq := d0.seq + 1 }, none) ∧
      d0.rows.map (fun x => if (x.discord_id == o0.UserValue.ID) = true then
        ({ x with verified := true, verified_at := some ext.now } : Row) else x) = d0.rows := by
    intro d0 hd0
    refine ⟨CreateUser_fresh
      (fun r hr => ⟨(hd0 r hr).2, hfree r (hd0 r hr).1, hfresh r (hd0 r hr).1⟩), ?_⟩
    conv_rhs => rw [← List.map_id d0.rows]
    apply List.map_congr_left
    intro x hx
    simp [(hd0 x hx).2]
  unfold canonicalEmail at hv ha hfree main ⊢
  cases hlook : d.GetUserByDiscordID o0.UserValue.ID with
  | ok u =>
    have hd0 : ∀ x ∈ (d.DeleteUser o0.UserValue.ID).1.rows,
        x ∈ d.rows ∧ x.discord_id ≠ o0.UserValue.ID := by
      intro x hx
      simp only [Database.DeleteUser, List.mem_filter] at hx
      exact ⟨hx.1, by simpa using hx.2⟩
    obtain ⟨hcreate, hupd⟩ := main _ hd0
    rw [hlook] at hnv
    refine ⟨_, hd0, ?_⟩
    unfold handleManualVerify
    simp only [hadm, hopts, hoff, hv, ha, hnv, hlook, EmailExists_false hfree, hgen,
      hcreate, Database.MarkUserVerified, Database.update, List.getElem?_cons_zero,
      List.getElem?_cons_succ, Bool.not_true, Bool.false_eq_true, if_false,
      if_true, false_and, List.map_append, List.map_cons,
      List.map_nil, beq_self_eq_true, hupd]
  | error e =>
    have hd0 : ∀ x ∈ d.rows, x ∈ d.rows ∧ x.discord_id ≠ o0.UserValue.ID := by
      intro x hx
      refine ⟨hx, fun hid => ?_⟩
      unfold Database.GetUserByDiscordID at hlook
      cases hf : d.rows.find? (fun r => r.discord_id == o0.UserValue.ID) with
      | some r => simp [hf] at hlook
      | none =>
        rw [List.find?_eq_none] at hf
        exact hf x hx (by simpa using hid)
    obtain ⟨hcreate, hupd⟩ := main _ hd0
    rw [hlook] at hnv
    refine ⟨_, hd0, ?_⟩
    unfold handleManualVerify
    simp only [hadm, hopts, hoff, hv, ha, hnv, hlook, EmailExists_false hfree, hgen,
      hcreate, Database.MarkUserVerified, Database.update, List.getElem?_cons_zero,
      List.getElem?_cons_succ, Bool.not_true, Bool.false_eq_true, if_false,
      if_true, false_and, List.map_append, List.map_cons,
      List.map_nil, beq_self_eq_true, hupd]

/-- C24 (as stated) fails: alice is Pending and posts her code with team `red` while every
role grant fails; the record becomes Verified and the answer is the plain success JSON
with the plain welcome DM, not a degraded-success message. -/
theorem web_grant_failure_counterexample :
    Reachable asciiLower membersConfig pendingStore ∧
    assignRoleOk membersConfig grantsFail "1001" "role-members" = false ∧
    assignRoleOk membersConfig grantsFail "1001" "role-red" = false ∧
    handleAPIVerify membersConfig grantsFail pendingStore (postVerify sampleCode "red") =
      (verifiedStore, successJSON,
       [AssignRole membersConfig "1001" "role-members",
        AssignRole membersConfig "1001" "role-red",
        Effect.SendDM "1001"
          "✅ Verification complete! Welcome to the red team. You now have access to the server."]) :=
  ⟨pendingStore_reachable membersConfig rfl, rfl, rfl, rfl⟩

/-- C24 (amended). Whatever the role grants answer, a write that moved a record to
Verified is kept; each of the three parts assumes only what its own handler checks.
Web completion: posting the code of a record that is not yet verified with a team of the
mapping answers the plain success JSON and sends the plain welcome DM for every outcome
of its two grants, and the record is Verified with that team. Manual verify with team
selection enabled, by an admin, for a member with no verified record and a well-formed
approved address that no record uses: the member has a Verified record with the chosen
team; when the grant of the team role fails the last call is the reply "User verified in
database but failed to assign Discord role", and when it succeeds the reply reports plain
success and the DM is sent, in both cases whatever the grant of the members role answers.
Manual verify with team selection disabled makes no team-role grant: the member has a
Verified record and the reply reports plain success whatever the grant of the members
role answers. -/
theorem grant_failure_keeps_verified (lower : Char → Char) (cfg : Config) :
    (∀ (ext : Ext) (d : Database) (r : Row) (req : Request) (team roleID : String),
      UniqueKeys d → r ∈ d.rows → r.verified = false → r.verification_code ≠ "" →
      req.Method = "POST" →
      req.Body = some { Code := r.verification_code, Team := team } →
      team ≠ "" → cfg.team team = some roleID →
      (handleAPIVerify cfg ext d req).2.1 = successJSON ∧
      (handleAPIVerify cfg ext d req).2.2 =
        assignMembersRole cfg r.discord_id ++
          [AssignRole cfg r.discord_id roleID,
           Effect.SendDM r.discord_id
             ("✅ Verification complete! Welcome to the " ++ team ++
               " team. You now have access to the server.")] ∧
      ∃ x ∈ (handleAPIVerify cfg ext d req).1.rows,
        x.discord_id = r.discord_id ∧ x.state = State.Verified ∧ x.team_role = some team) ∧
    (∀ (ext : Ext) (d : Database) (i : InteractionCreate) (o0 o1 o2 : CommandOption)
        (rest : List CommandOption) (teamRoleID code : String),
      isAdmin cfg ext i.Member = true → i.Options = o0 :: o1 :: o2 :: rest →
      cfg.Features.EnableTeamSelection = true →
      isValidEmail (canonicalEmail lower o1.StringValue) = true →
      isApprovedDomain lower cfg.ApprovedDomains (canonicalEmail lower o1.StringValue) = true →
      cfg.team o2.StringValue = some teamRoleID →
      (∀ x ∈ d.rows, x.discord_id = o0.UserValue.ID → x.verified = false) →
      (∀ x ∈ d.rows, x.email ≠ canonicalEmail lower o1.StringValue) →
      generateVerificationCode ext = some code →
      (∀ x ∈ d.rows, x.verification_code ≠ code) →
      (∃ x ∈ (handleManualVerify lower cfg ext d i).1.rows,
        x.discord_id = o0.UserValue.ID ∧ x.state = State.Verified ∧
        x.team_role = some o2.StringValue) ∧
      (assignRoleOk cfg ext o0.UserValue.ID teamRoleID = false →
        (handleManualVerify lower cfg ext d i).2 =
          assignMembersRole cfg o0.UserValue.ID ++
            [AssignRole cfg o0.UserValue.ID teamRoleID,
             Effect.respondEphemeral "⚠️ User verified in database but failed to assign Discord role. Please assign manually."]) ∧
      (assignRoleOk cfg ext o0.UserValue.ID teamRoleID = true →
        (handleManualVerify lower cfg ext d i).2 =
          assignMembersRole cfg o0.UserValue.ID ++
            [AssignRole cfg o0.UserValue.ID teamRoleID,
             Effect.respondEphemeral ("✅ Successfully verified <@" ++ o0.UserValue.ID ++
               "> with email `" ++ canonicalEmail lower o1.StringValue ++
               "` and assigned to **" ++ o2.StringValue ++ "** team."),
             Effect.SendDM o0.UserValue.ID
               ("✅ You have been manually verified by a moderator! Welcome to the **" ++
                 o2.StringValue ++ "** team. You now have access to the server.")])) ∧
    (∀ (ext : Ext) (d : Database) (i : InteractionCreate) (o0 o1 : CommandOption)
        (rest : List CommandOption) (code : String),
      isAdmin cfg ext i.Member = true → i.Options = o0 :: o1 :: rest →
      cfg.Features.EnableTeamSelection = false →
      isValidEmail (canonicalEmail lower o1.StringValue) = true →
      isApprovedDomain lower cfg.ApprovedDomains (canonicalEmail lower o1.StringValue) = true →
      (∀ x ∈ d.rows, x.discord_id = o0.UserValue.ID → x.verified = false) →
      (∀ x ∈ d.rows, x.email ≠ canonicalEmail lower o1.StringValue) →
      generateVerificationCode ext = some code →
      (∀ x ∈ d.rows, x.verification_code ≠ code) →
      (∃ x ∈ (handleManualVerify lower cfg ext d i).1.rows,
        x.discord_id = o0.UserValue.ID ∧ x.state = State.Verified) ∧
      (handleManualVerify lower cfg ext d i).2 =
        assignMembersRole cfg o0.UserValue.ID ++
          [Effect.respondEphemeral ("✅ Successfully verified <@" ++ o0.UserValue.ID ++
             "> with email `" ++ canonicalEmail lower o1.StringValue ++ "`."),
           Effect.SendDM o0.UserValue.ID
             "✅ You have been manually verified by a moderator! You now have access to the server."]) := by
  refine ⟨?_, ?_, ?_⟩
  · intro ext d r req team roleID hu hr hnv hc hm hb hne ht
    have key : handleAPIVerify cfg ext d req =
        ({ d with rows := d.rows.map (fun x =>
            if x = r then
              { r with team_role := some team, verified := true, verified_at := some ext.now }
            else x) },
         successJSON,
         assignMembersRole cfg r.discord_id ++
           [AssignRole cfg r.discord_id roleID,
            Effect.SendDM r.discord_id
              ("✅ Verification complete! Welcome to the " ++ team ++
                " team. You now have access to the server.")]) := by
      unfold handleAPIVerify
      simp only [hm, hb, hu.byCode hr, ht, Database.UpdateUserTeam, scanUserByCode,
        hnv, hc, hne, ne_eq, not_true_eq_false, if_false, or_self, Bool.false_eq_true]
      rw [hu.update_eq hr]
      rfl
    rw [key]
    refine ⟨rfl, rfl, _, List.mem_map.mpr ⟨r, hr, if_pos rfl⟩, rfl,
      Row.state_verified.mpr rfl, rfl⟩
  · intro ext d i o0 o1 o2 rest teamRoleID code hadm hopts hen hv ha ht2 hnotv hfree hgen hfresh
    obtain ⟨d0, -, hrun⟩ := handleManualVerify_written hadm hopts hen hv ha ht2 hnotv hfree
      hgen hfresh
    rw [hrun]
    refine ⟨⟨_, List.mem_append_right _ (List.mem_singleton.mpr rfl), rfl,
      Row.state_verified.mpr rfl, rfl⟩, ?_, ?_⟩
    · intro hf
      simp [hf]
    · intro hs
      simp [hs]
  · intro ext d i o0 o1 rest code hadm hopts hoff hv ha hnotv hfree hgen hfresh
    obtain ⟨d0, -, hrun⟩ := handleManualVerify_marked hadm hopts hoff hv ha hnotv hfree
      hgen hfresh
    rw [hrun]
    exact ⟨⟨_, List.mem_append_right _ (List.mem_singleton.mpr rfl), rfl,
      Row.state_verified.mpr rfl⟩, rfl⟩

/-- Witness for C24 (amended), with every grant failing: alice, Pending, completes on the
web with team `red`; a moderator verifies alice on an empty store with team `red`; and
the same with team selection disabled. -/
theorem grant_failure_keeps_verified_witness :
    ((handleAPIVerify membersConfig grantsFail pendingStore
        (postVerify sampleCode "red")).2.1 = successJSON ∧
      (handleAPIVerify membersConfig grantsFail pendingStore
        (postVerify sampleCode "red")).2.2 =
        assignMembersRole membersConfig aliceRow.discord_id ++
          [AssignRole membersConfig aliceRow.discord_id "role-red",
           Effect.SendDM aliceRow.discord_id
             ("✅ Verification complete! Welcome to the " ++ "red" ++
               " team. You now have access to the server.")] ∧
      ∃ x ∈ (handleAPIVerify membersConfig grantsFail pendingStore
          (postVerify sampleCode "red")).1.rows,
        x.discord_id = aliceRow.discord_id ∧ x.state = State.Verified ∧
        x.team_role = some "red") ∧
    ((∃ x ∈ (handleManualVerify asciiLower membersConfig grantsFail Database.empty
          verifyAlice).1.rows,
        x.discord_id = alice.ID ∧ x.state = State.Verified ∧ x.team_role = some "red") ∧
      (handleManualVerify asciiLower membersConfig grantsFail Database.empty verifyAlice).2 =
        assignMembersRole membersConfig alice.ID ++
          [AssignRole membersConfig alice.ID "role-red",
           Effect.respondEphemeral "⚠️ User verified in database but failed to assign Discord role. Please assign manually."]) ∧
    ((∃ x ∈ (handleManualVerify asciiLower
          { disabledConfig with Discord := membersConfig.Discord } grantsFail Database.empty
          verifyAlice).1.rows,
        x.discord_id = alice.ID ∧ x.state = State.Verified) ∧
      (handleManualVerify asciiLower
          { disabledConfig with Discord := membersConfig.Discord } grantsFail Database.empty
          verifyAlice).2 =
        assignMembersRole { disabledConfig with Discord := membersConfig.Discord } alice.ID ++
          [Effect.respondEphemeral ("✅ Successfully verified <@" ++ alice.ID ++
             "> with email `" ++ canonicalEmail asciiLower "alice@acme.com" ++ "`."),
           Effect.SendDM alice.ID
             "✅ You have been manually verified by a moderator! You now have access to the server."]) :=
  have hmanual := (grant_failure_keeps_verified asciiLower membersConfig).2.1 grantsFail
    Database.empty verifyAlice { Name := "user", UserValue := alice }
    { Name := "email", StringValue := "alice@acme.com" }
    { Name := "team", StringValue := "red" } [] "role-red" sampleCode
    (by decide) rfl rfl (by decide) (by decide) rfl (by decide) (by decide) rfl (by decide)
  ⟨(grant_failure_keeps_verified asciiLower membersConfig).1 grantsFail pendingStore aliceRow
      (postVerify sampleCode "red") "red" "role-red"
      (by decide) (by decide) rfl (by decide) rfl rfl (by decide) rfl,
   ⟨hmanual.1, hmanual.2.1 rfl⟩,
   (grant_failure_keeps_verified asciiLower
      { disabledConfig with Discord := membersConfig.Discord }).2.2 grantsFail
    Database.empty verifyAlice { Name := "user", UserValue := alice }
    { Name := "email", StringValue := "alice@acme.com" }
    [{ Name := "team", StringValue := "red" }] sampleCode
    (by decide) rfl rfl (by decide) (by decide) (by decide) (by decide) rfl (by decide)⟩

/-- Witness for C28: alice sends her email to an empty store while the mail server
refuses every message. -/
theorem onMessageCreate_send_failure_witness :
    ∃ r, onMessageCreate asciiLower sampleConfig
          { SendVerificationEmail := fun _ _ _ => false } Database.empty aliceDM =
        ({ rows := Database.empty.rows ++ [r], seq := Database.empty.seq + 1 },
         [Effect.SendVerificationEmail (submittedEmail asciiLower aliceDM) sampleCode
            aliceDM.Author.Username,
          Effect.ChannelMessageSend aliceDM.ChannelID
            "❌ Failed to send verification email. Please contact an administrator."]) ∧
      r.state = State.Pending ∧ r.discord_id = aliceDM.Author.ID ∧
      r.email = submittedEmail asciiLower aliceDM ∧ r.verification_code = sampleCode ∧
      UniqueKeys { rows := Database.empty.rows ++ [r], seq := Database.empty.seq + 1 } ∧
      ∀ (ext2 : Ext) (d2 : Database) (m2 : MessageCreate),
        UniqueKeys d2 → r ∈ d2.rows → m2.Author.ID = aliceDM.Author.ID →
        m2.Author.Bot = false →
        ext2.Channel m2.ChannelID = some ChannelTypeDM →
        isValidEmail (submittedEmail asciiLower m2) = true →
        isApprovedDomain asciiLower sampleConfig.ApprovedDomains
          (submittedEmail asciiLower m2) = true →
        (onMessageCreate asciiLower sampleConfig ext2 d2 m2).1 = d2 ∧
        sendsVerificationEmail (onMessageCreate asciiLower sampleConfig ext2 d2 m2).2 = false ∧
        ((onMessageCreate asciiLower sampleConfig ext2 d2 m2).2 =
            [Effect.ChannelMessageSend m2.ChannelID alreadyRegisteredReply] ∨
         (onMessageCreate asciiLower sampleConfig ext2 d2 m2).2 =
            [Effect.ChannelMessageSend m2.ChannelID inProgressReply]) :=
  onMessageCreate_send_failure asciiLower sampleConfig
    { SendVerificationEmail := fun _ _ _ => false } Database.empty aliceDM sampleCode
    (by decide) rfl rfl (by decide) (by decide) (by decide) (by decide) rfl (by decide) rfl

/-! ## Two first contacts with one address -/

theorem runDM_eq_onMessageCreate (lower : Char → Char) (cfg : Config) (ext : Ext)
    (d : Database) (m : MessageCreate) :
    runDM lower cfg ext d m = onMessageCreate lower cfg ext d m := by
  unfold runDM onMessageCreate
  by_cases h1 : m.Author.Bot = true
  · simp [stepDM, h1]
  by_cases h2 : ext.Channel m.ChannelID ≠ some ChannelTypeDM
  · simp [stepDM, h1, h2]
  by_cases h3 : foundAnd (d.GetUserByDiscordID m.Author.ID) (fun user => user.Verified) = true
  · simp [stepDM, h1, h2, h3]
  by_cases h4 : foundAnd (d.GetUserByDiscordID m.Author.ID) (fun user => user.Unverified) = true
  · simp [stepDM, h1, h2, h3, h4]
  by_cases h5 : isValidEmail (TrimSpace (ToLower lower m.Content)) = true
  swap
  · simp [stepDM, h1, h2, h3, h4, h5]
  by_cases h6 : isApprovedDomain lower cfg.ApprovedDomains (TrimSpace (ToLower lower m.Content)) = true
  swap
  · simp [stepDM, h1, h2, h3, h4, h5, h6]
  by_cases h7 : d.EmailExists (TrimSpace (ToLower lower m.Content)) = true
  · simp [stepDM, h1, h2, h3, h4, h5, h6, h7]
  by_cases h8 : d.DiscordIDExists m.Author.ID = true
  · simp [stepDM, h1, h2, h3, h4, h5, h6, h7, h8]
  cases h9 : generateVerificationCode ext with
  | none => simp [stepDM, h1, h2, h3, h4, h5, h6, h7, h8, h9]
  | some code =>
    rcases h10 : d.CreateUser m.Author.ID (displayName m.Author)
      (TrimSpace (ToLower lower m.Content)) code ext.now with ⟨d1, _ | e⟩
    · by_cases h11 : ext.SendVerificationEmail (TrimSpace (ToLower lower m.Content)) code
        m.Author.Username = true
      · simp [stepDM, h1, h2, h3, h4, h5, h6, h7, h8, h9, h10, h11]
      · simp [stepDM, h1, h2, h3, h4, h5, h6, h7, h8, h9, h10, h11]
    · simp [stepDM, h1, h2, h3, h4, h5, h6, h7, h8, h9, h10]

theorem stepDM_rank (lower : Char → Char) (cfg : Config) (ext : Ext) (m : MessageCreate)
    (pc : DMPhase) (d : Database) :
    min 4 (pc.rank + 1) ≤ (stepDM lower cfg ext m pc d).1.rank := by
  cases pc <;> unfold stepDM <;> dsimp only <;> repeat' split
  all_goals simp [DMPhase.rank]

theorem stepDM_open {lower : Char → Char} {cfg : Config} {ext : Ext} {m : MessageCreate}
    {d : Database} {email code : String} (h : FirstContact lower cfg ext m d email code)
    (pc : DMPhase) (hpc : pc.running = true) :
    ((stepDM lower cfg ext m pc d).2 = d ∧ (stepDM lower cfg ext m pc d).1.running = true) ∨
    ((stepDM lower cfg ext m pc d).2 = d.appended (pendingRow d ext m email code) ∧
      ∃ eff, (stepDM lower cfg ext m pc d).1 = .done eff ∧ sendsVerificationEmail eff = true) := by
  obtain ⟨hbot, hdm, he, hv, ha, hnew, hfree, hgen, hfresh⟩ := h
  unfold submittedEmail at he
  cases pc with
  | start =>
    left
    simp [stepDM, hbot, hdm, GetUserByDiscordID_none hnew, foundAnd, he, hv, ha,
      DMPhase.running]
  | checkedUser =>
    left
    simp [stepDM, he, EmailExists_false hfree, DMPhase.running]
  | checkedEmail =>
    left
    simp [stepDM, DiscordIDExists_false hnew, DMPhase.running]
  | checkedID =>
    right
    have hcreate := @CreateUser_fresh d m.Author.ID (displayName m.Author) email code ext.now
      (fun r hr => ⟨hnew r hr, hfree r hr, hfresh r hr⟩)
    simp only [stepDM, he, hgen, hcreate]
    split <;> exact ⟨rfl, _, rfl, by simp [sendsVerificationEmail]⟩
  | done eff => simp [DMPhase.running] at hpc

theorem stepDM_closed {lower : Char → Char} {cfg : Config} {ext : Ext} {m : MessageCreate}
    {d : Database} {email code : String} (h : FirstContact lower cfg ext m d email code)
    (row : Row) (hrow : row.email = email) (hid : row.discord_id ≠ m.Author.ID)
    (pc : DMPhase) (hpc : pc.running = true) :
    (stepDM lower cfg ext m pc (d.appended row)).2 = d.appended row ∧
    ((stepDM lower cfg ext m pc (d.appended row)).1.running = true ∨
      ∃ eff ∈ conflictReplies m, (stepDM lower cfg ext m pc (d.appended row)).1 = .done eff) := by
  obtain ⟨hbot, hdm, he, hv, ha, hnew, hfree, hgen, hfresh⟩ := h
  unfold submittedEmail at he
  have hnew2 : ∀ r ∈ (d.appended row).rows, r.discord_id ≠ m.Author.ID := by
    intro r hr
    simp only [Database.appended, List.mem_append, List.mem_singleton] at hr
    rcases hr with hr | rfl
    · exact hnew r hr
    · exact hid
  have hmem : row ∈ (d.appended row).rows := by simp [Database.appended]
  have hex : (d.appended row).EmailExists email = true := by
    have := EmailExists_of_mem hmem
    rwa [hrow] at this
  cases pc with
  | start =>
    simp [stepDM, hbot, hdm, GetUserByDiscordID_none hnew2, foundAnd, he, hv, ha,
      DMPhase.running]
  | checkedUser =>
    refine ⟨?_, Or.inr ?_⟩
    · simp [stepDM, he, hex]
    · simp [stepDM, he, hex, conflictReplies, alreadyRegisteredReply]
  | checkedEmail =>
    simp [stepDM, DiscordIDExists_false hnew2, DMPhase.running]
  | checkedID =>
    have hcreate := @CreateUser_conflict (d.appended row) m.Author.ID (displayName m.Author)
      email code ext.now ⟨row, hmem, Or.inr (Or.inl hrow)⟩
    refine ⟨?_, Or.inr ?_⟩
    · simp [stepDM, he, hgen, hcreate]
    · simp [stepDM, he, hgen, hcreate, conflictReplies]
  | done eff => simp [DMPhase.running] at hpc

theorem RaceInv.afterStep {lower : Char → Char} {cfg : Config} {extA extB : Ext}
    {mA mB : MessageCreate} {d : Database} {email codeA codeB : String}
    (hA : FirstContact lower cfg extA mA d email codeA)
    (hB : FirstContact lower cfg extB mB d email codeB)
    (hne : mA.Author.ID ≠ mB.Author.ID) (turn : Bool) {c : Race}
    (h : RaceInv d mA mB (pendingRow d extA mA email codeA) (pendingRow d extB mB email codeB) c) :
    RaceInv d mA mB (pendingRow d extA mA email codeA) (pendingRow d extB mB email codeB)
      (raceStep lower cfg extA mA extB mB turn c) := by
  obtain ⟨a, b, dc⟩ := c
  cases turn with
  | true =>
    simp only [raceStep, if_true]
    rcases h with ⟨hd, ha, hb⟩ | ⟨hd, ⟨ea, ha, hs⟩, hb⟩ | ⟨hd, hb, ha⟩
    · simp only at hd ha hb
      subst hd
      rcases stepDM_open hA a ha with ⟨h1, h2⟩ | ⟨h1, eff, h2, h3⟩
      · exact Or.inl ⟨h1, h2, hb⟩
      · exact Or.inr (Or.inl ⟨h1, ⟨eff, h2, h3⟩, Or.inl hb⟩)
    · simp only at hd ha hb
      subst hd ha
      exact Or.inr (Or.inl ⟨by simp [stepDM], ⟨ea, by simp [stepDM], hs⟩, hb⟩)
    · simp only at hd ha hb
      subst hd
      rcases ha with ha | ⟨eff, hm, ha⟩
      · obtain ⟨h1, h2⟩ := stepDM_closed hA (pendingRow d extB mB email codeB) rfl
          (fun e => hne e.symm) a ha
        exact Or.inr (Or.inr ⟨h1, hb, h2⟩)
      · subst ha
        exact Or.inr (Or.inr ⟨by simp [stepDM], hb, Or.inr ⟨eff, hm, by simp [stepDM]⟩⟩)
  | false =>
    simp only [raceStep, Bool.false_eq_true, if_false]
    rcases h with ⟨hd, ha, hb⟩ | ⟨hd, ha, hb⟩ | ⟨hd, ⟨eb, hb, hs⟩, ha⟩
    · simp only at hd ha hb
      subst hd
      rcases stepDM_open hB b hb with ⟨h1, h2⟩ | ⟨h1, eff, h2, h3⟩
      · exact Or.inl ⟨h1, ha, h2⟩
      · exact Or.inr (Or.inr ⟨h1, ⟨eff, h2, h3⟩, Or.inl ha⟩)
    · simp only at hd ha hb
      subst hd
      rcases hb with hb | ⟨eff, hm, hb⟩
      · obtain ⟨h1, h2⟩ := stepDM_closed hB (pendingRow d extA mA email codeA) rfl hne b hb
        exact Or.inr (Or.inl ⟨h1, ha, h2⟩)
      · subst hb
        exact Or.inr (Or.inl ⟨by simp [stepDM], ha, Or.inr ⟨eff, hm, by simp [stepDM]⟩⟩)
    · simp only at hd ha hb
      subst hd hb
      exact Or.inr (Or.inr ⟨by simp [stepDM], ⟨eb, by simp [stepDM], hs⟩, ha⟩)

theorem RaceInv.afterRace {lower : Char → Char} {cfg : Config} {extA extB : Ext}
    {mA mB : MessageCreate} {d : Database} {email codeA codeB : String}
    (hA : FirstContact lower cfg extA mA d email codeA)
    (hB : FirstContact lower cfg extB mB d email codeB)
    (hne : mA.Author.ID ≠ mB.Author.ID) (schedule : List Bool) :
    ∀ c : Race,
      RaceInv d mA mB (pendingRow d extA mA email codeA) (pendingRow d extB mB email codeB) c →
      RaceInv d mA mB (pendingRow d extA mA email codeA) (pendingRow d extB mB email codeB)
        (race lower cfg extA mA extB mB schedule c) := by
  induction schedule with
  | nil => intro c h; exact h
  | cons turn rest ih => intro c h; exact ih _ (h.afterStep hA hB hne turn)

theorem race_rank (lower : Char → Char) (cfg : Config) (extA : Ext) (mA : MessageCreate)
    (extB : Ext) (mB : MessageCreate) (schedule : List Bool) :
    ∀ c : Race,
      min 4 (c.a.rank + schedule.count true) ≤
        (race lower cfg extA mA extB mB schedule c).a.rank ∧
      min 4 (c.b.rank + schedule.count false) ≤
        (race lower cfg extA mA extB mB schedule c).b.rank := by
  induction schedule with
  | nil => intro c; simp [race]
  | cons turn rest ih =>
    intro c
    obtain ⟨h1, h2⟩ := ih (raceStep lower cfg extA mA extB mB turn c)
    have ra := stepDM_rank lower cfg extA mA c.a c.d
    have rb := stepDM_rank lower cfg extB mB c.b c.d
    cases turn with
    | true =>
      simp only [raceStep, if_true] at h1 h2
      simp only [race, List.count_cons_self, raceStep, if_true]
      have : List.count false (true :: rest) = List.count false rest := by simp
      rw [this]
      omega
    | false =>
      simp only [raceStep, Bool.false_eq_true, if_false] at h1 h2
      simp only [race, List.count_cons_self, raceStep, Bool.false_eq_true, if_false]
      have : List.count true (false :: rest) = List.count true rest := by simp
      rw [this]
      omega

theorem rank_done {pc : DMPhase} (h : 4 ≤ pc.rank) : ∃ eff, pc = .done eff := by
  cases pc <;> simp [DMPhase.rank] at h
  exact ⟨_, rfl⟩

theorem count_email_appended {d : Database} {email : String} (row : Row)
    (hfree : ∀ r ∈ d.rows, r.email ≠ email) (hrow : row.email = email) :
    ((d.appended row).rows.filter (fun r => r.email == email)).length = 1 := by
  have : d.rows.filter (fun r => r.email == email) = [] := by
    rw [List.filter_eq_nil_iff]
    intro r hr
    simpa using hfree r hr
  simp [Database.appended, List.filter_append, this, hrow]

/-- C26. Two first contacts carry the same canonical address from two distinct platform
IDs, and each would pass if handled alone. Their handler runs are cut at the four store
statements (run one after the other, the four pieces are `onMessageCreate`) and interleaved
by an arbitrary schedule. After every schedule the store holds at most one record with
that address. Once both runs have had their four turns both have ended: the store is the
initial one with exactly one more row, a Pending record with that address; it is the row of
one of the two runs, which issued its verification email, and the other run ended with a
conflict reply: "already registered" after `EmailExists`, or the error reply after its
INSERT failed on the UNIQUE constraint. -/
theorem concurrent_first_contact (lower : Char → Char) (cfg : Config) (extA extB : Ext)
    (mA mB : MessageCreate) (d : Database) (email codeA codeB : String)
    (schedule : List Bool)
    (hA : FirstContact lower cfg extA mA d email codeA)
    (hB : FirstContact lower cfg extB mB d email codeB)
    (hne : mA.Author.ID ≠ mB.Author.ID) :
    runDM lower cfg extA d mA = onMessageCreate lower cfg extA d mA ∧
    runDM lower cfg extB d mB = onMessageCreate lower cfg extB d mB ∧
    ((race lower cfg extA mA extB mB schedule ⟨.start, .start, d⟩).d.rows.filter
        (fun r => r.email == email)).length ≤ 1 ∧
    (4 ≤ schedule.count true → 4 ≤ schedule.count false →
      ∃ ea eb r,
        race lower cfg extA mA extB mB schedule ⟨.start, .start, d⟩ =
          ⟨.done ea, .done eb, d.appended r⟩ ∧
        r.state = State.Pending ∧ r.email = email ∧
        ((r = pendingRow d extA mA email codeA ∧ sendsVerificationEmail ea = true ∧
            eb ∈ conflictReplies mB) ∨
         (r = pendingRow d extB mB email codeB ∧ sendsVerificationEmail eb = true ∧
            ea ∈ conflictReplies mA))) := by
  have hinv := RaceInv.afterRace hA hB hne schedule ⟨.start, .start, d⟩ (Or.inl ⟨rfl, rfl, rfl⟩)
  have hrank := race_rank lower cfg extA mA extB mB schedule ⟨.start, .start, d⟩
  have hfree := hA.2.2.2.2.2.2.1
  generalize race lower cfg extA mA extB mB schedule ⟨.start, .start, d⟩ = c at hinv hrank
  obtain ⟨a, b, dc⟩ := c
  have r0 : DMPhase.start.rank = 0 := rfl
  simp only [r0, Nat.zero_add] at hrank
  refine ⟨runDM_eq_onMessageCreate lower cfg extA d mA,
    runDM_eq_onMessageCreate lower cfg extB d mB, ?_, ?_⟩
  · rcases hinv with ⟨hd, -, -⟩ | ⟨hd, -, -⟩ | ⟨hd, -, -⟩
    · simp only at hd
      rw [hd]
      have : d.rows.filter (fun r => r.email == email) = [] := by
        rw [List.filter_eq_nil_iff]
        intro r hr
        simpa using hfree r hr
      simp [this]
    · simp only at hd
      subst hd
      exact (count_email_appended _ hfree rfl).le
    · simp only at hd
      subst hd
      exact (count_email_appended _ hfree rfl).le
  · intro h1 h2
    obtain ⟨ea, rfl⟩ := @rank_done a (by omega)
    obtain ⟨eb, rfl⟩ := @rank_done b (by omega)
    rcases hinv with ⟨-, ha, -⟩ | ⟨hd, ⟨ea2, ha, hs⟩, hb⟩ | ⟨hd, ⟨eb2, hb, hs⟩, ha⟩
    · simp [DMPhase.running] at ha
    · simp only [DMPhase.running, Bool.false_eq_true, false_or, DMPhase.done.injEq] at hd ha hb
      subst hd ha
      obtain ⟨eff, hm, rfl⟩ := hb
      exact ⟨_, _, _, rfl, rfl, rfl, Or.inl ⟨rfl, hs, hm⟩⟩
    · simp only [DMPhase.running, Bool.false_eq_true, false_or, DMPhase.done.injEq] at hd ha hb
      subst hd hb
      obtain ⟨eff, hm, rfl⟩ := ha
      exact ⟨_, _, _, rfl, rfl, rfl, Or.inr ⟨rfl, hs, hm⟩⟩

/-- Witness for C26: alice and mallory both send alice's address to an empty store; the
schedule lets both pass `EmailExists` before either inserts. -/
theorem concurrent_first_contact_witness :
    runDM asciiLower sampleConfig {} Database.empty aliceDM =
      onMessageCreate asciiLower sampleConfig {} Database.empty aliceDM ∧
    runDM asciiLower sampleConfig { randRead := some [1] } Database.empty malloryDM =
      onMessageCreate asciiLower sampleConfig { randRead := some [1] } Database.empty malloryDM ∧
    ((race asciiLower sampleConfig {} aliceDM { randRead := some [1] } malloryDM
        [true, false, true, false, true, false, false, true]
        ⟨.start, .start, Database.empty⟩).d.rows.filter
        (fun r => r.email == "alice@acme.com")).length ≤ 1 ∧
    (4 ≤ [true, false, true, false, true, false, false, true].count true →
      4 ≤ [true, false, true, false, true, false, false, true].count false →
      ∃ ea eb r,
        race asciiLower sampleConfig {} aliceDM { randRead := some [1] } malloryDM
            [true, false, true, false, true, false, false, true]
            ⟨.start, .start, Database.empty⟩ =
          ⟨.done ea, .done eb, Database.empty.appended r⟩ ∧
        r.state = State.Pending ∧ r.email = "alice@acme.com" ∧
        ((r = pendingRow Database.empty {} aliceDM "alice@acme.com" sampleCode ∧
            sendsVerificationEmail ea = true ∧ eb ∈ conflictReplies malloryDM) ∨
         (r = pendingRow Database.empty { randRead := some [1] } malloryDM "alice@acme.com"
                "0100000000000000000000000000000000000000000000000000000000000000" ∧
            sendsVerificationEmail eb = true ∧ ea ∈ conflictReplies aliceDM))) :=
  concurrent_first_contact asciiLower sampleConfig {} { randRead := some [1] } aliceDM malloryDM
    Database.empty "alice@acme.com" sampleCode
    "0100000000000000000000000000000000000000000000000000000000000000"
    [true, false, true, false, true, false, false, true]
    ⟨rfl, rfl, by decide, by decide, by decide, by decide, by decide, rfl, by decide⟩
    ⟨rfl, rfl, by decide, by decide, by decide, by decide, by decide, rfl, by decide⟩
    (by decide)

end Heimdall
